import Mathlib

/-!
# OCam OBS source: protocol layer of `obs-ocam-source.c`

A shallow embedding of the control-command encoder, the capability parser,
the blocking socket helpers, the settings synchroniser and the video/audio
session bookkeeping of `src/obs-plugin/src/obs-ocam-source.c`, followed by
the properties established about them.

Conventions of the embedding.

* A byte is a `Nat` below 256, a `uint32_t` a `Nat` below `2^32`, a C `int`
  an `Int` in the 32-bit two's-complement range.  Conversions between them
  are written out (`to_u32`, `to_int`, `to_i64`, `to_u64`).
* Bytes that arrive on a socket are described by a list of `SockEvent`s;
  the `volatile bool thread_running` flag is described by the number of
  future reads of the flag that still see `true` (`World.alive`): the flag
  is only ever cleared, never set again.
* Loops whose trip count is bounded by a counter of the source carry that
  counter as recursion fuel.
-/

namespace OCam

/-! ## Machine integers -/

/-- Conversion of an integer value to `uint32_t`. -/
def to_u32 (x : Int) : Nat := (x % 4294967296).toNat

/-- Conversion of an integer value to a 32-bit two's-complement `int`
(`int`, `int32_t`); out-of-range values wrap. -/
def to_int (x : Int) : Int := (x + 2147483648) % 4294967296 - 2147483648

/-- Conversion of an integer value to `int64_t`; out-of-range values wrap. -/
def to_i64 (x : Int) : Int :=
  (x + 9223372036854775808) % 18446744073709551616 - 9223372036854775808

/-- Conversion of an integer value to `uint64_t`. -/
def to_u64 (x : Int) : Nat := (x % 18446744073709551616).toNat

/-! ## Endianness helpers (source lines 54-72) -/

/-- The 32-bit byte reversal. -/
def bswap32 (v : Nat) : Nat :=
  (v % 256) * 16777216 + (v / 256 % 256) * 65536 + (v / 65536 % 256) * 256 + (v / 16777216 % 256)

/-- The libc `ntohl`: the byte reversal on a little-endian host (`le = true`),
the identity on a big-endian one. -/
def ntohl (le : Bool) (v : Nat) : Nat :=
  if le then bswap32 v else v % 4294967296

/-- Source `portable_ntohl`. -/
def portable_ntohl (le : Bool) (val : Nat) : Nat := ntohl le val

/-- Source `portable_ntohll`:
`high = val >> 32; low = val & 0xFFFFFFFF; (ntohl(low) << 32) | ntohl(high)`. -/
def portable_ntohll (le : Bool) (val : Nat) : Nat :=
  let high := (val >>> 32) % 4294967296
  let low := (val &&& 0xFFFFFFFF) % 4294967296
  ((ntohl le low <<< 32) % 18446744073709551616) ||| ntohl le high

/-- The value of `*(uint32_t*)p` when the four bytes at `p` are `b0 b1 b2 b3`
in increasing address order. -/
def load_u32 (le : Bool) (b0 b1 b2 b3 : Nat) : Nat :=
  if le then b0 + b1 * 256 + b2 * 65536 + b3 * 16777216
  else b0 * 16777216 + b1 * 65536 + b2 * 256 + b3

/-- The big-endian value of four bytes, most significant first. -/
def be32 (b0 b1 b2 b3 : Nat) : Nat :=
  b0 * 16777216 + b1 * 65536 + b2 * 256 + b3

/-! ## Shared state (source lines 74-138) -/

/-- Source `struct ocam_res`. -/
structure ocam_res where
  w : Int
  h : Int
deriving DecidableEq, Repr

/-- Source `struct ocam_source`, without the thread handles, the listening
sockets and the decoder handles.  `focus_min` holds the 32-bit pattern of the
`float`; `extradata`/`audio_extradata` hold the bytes the pointer refers to. -/
structure ocam_source where
  video_client_fd : Int
  control_client_fd : Int
  audio_client_fd : Int
  supported_resolutions : List ocam_res
  supported_res_count : Int
  iso_min : Int
  iso_max : Int
  exp_min : Int
  exp_max : Int
  focus_min : Nat
  flash_available : Bool
  caps_received : Bool
  current_w : Int
  current_h : Int
  current_fps : Int
  current_bitrate : Int
  current_flash : Bool
  current_iso : Int
  current_exp : Int
  current_focus : Int
  width : Nat
  height : Nat
  extradata : List Nat
  extradata_size : Int
  codec_initialized : Bool
  timestamp_offset : Int
  first_frame_received : Bool
  audio_extradata : List Nat
  audio_extradata_size : Int
  audio_codec_initialized : Bool
  audio_timestamp_offset : Int
  first_audio_received : Bool

/-- The state `ocam_create` builds before it starts the threads: `bzalloc`
zeroes the struct, then the descriptors are set to -1 and the cache to its
unset values (source lines 765-775). -/
def ocam_create_state : ocam_source :=
  { video_client_fd := -1, control_client_fd := -1, audio_client_fd := -1,
    supported_resolutions := [], supported_res_count := 0,
    iso_min := 0, iso_max := 0, exp_min := 0, exp_max := 0,
    focus_min := 0, flash_available := false, caps_received := false,
    current_w := -1, current_h := -1, current_fps := -1, current_bitrate := -1,
    current_flash := false, current_iso := -1, current_exp := -1, current_focus := -100,
    width := 0, height := 0,
    extradata := [], extradata_size := 0, codec_initialized := false,
    timestamp_offset := 0, first_frame_received := false,
    audio_extradata := [], audio_extradata_size := 0, audio_codec_initialized := false,
    audio_timestamp_offset := 0, first_audio_received := false }

/-! ## Control commands (source lines 176-189) -/

/-- The 9-byte `buffer` that `send_control_command` fills in. -/
def control_buffer (cmd_id arg1 arg2 : Nat) : List Nat :=
  [cmd_id % 256,
   (arg1 >>> 24) &&& 0xFF, (arg1 >>> 16) &&& 0xFF, (arg1 >>> 8) &&& 0xFF, arg1 &&& 0xFF,
   (arg2 >>> 24) &&& 0xFF, (arg2 >>> 16) &&& 0xFF, (arg2 >>> 8) &&& 0xFF, arg2 &&& 0xFF]

/-- Source `send_control_command`: the list of buffers handed to `send`, which
is empty when no control client is connected.  The arguments are the values
after conversion to the parameter types `uint8_t`, `uint32_t`, `uint32_t`. -/
def send_control_command (s : ocam_source) (cmd_id arg1 arg2 : Nat) : List (List Nat) :=
  if s.control_client_fd ≠ -1 then [control_buffer cmd_id (arg1 % 4294967296) (arg2 % 4294967296)]
  else []

/-- The device-side reading of a control command as the protocol describes it:
`cmd_id:u8 | arg1:u32 | arg2:u32`, integers big-endian. -/
def spec_decode_control_command : List Nat → Option (Nat × Nat × Nat)
  | [c, a0, a1, a2, a3, b0, b1, b2, b3] => some (c, be32 a0 a1 a2 a3, be32 b0 b1 b2 b3)
  | _ => none

/-! ## Capability report parser (source lines 270-301) -/

/-- The byte `p[off]` of the memory that starts at pointer `p`. -/
def peek8 (mem : Nat → Nat) (off : Nat) : Nat := mem off % 256

/-- The expression `portable_ntohl(*(uint32_t*)(p + off))`. -/
def peek32 (le : Bool) (mem : Nat → Nat) (off : Nat) : Nat :=
  portable_ntohl le
    (load_u32 le (peek8 mem off) (peek8 mem (off + 1)) (peek8 mem (off + 2)) (peek8 mem (off + 3)))

/-- The four byte indices a 32-bit load at `off` dereferences. -/
def span4 (off : Nat) : List Nat := [off, off + 1, off + 2, off + 3]

/-- The memory the parser sees through `payload`: the `payload_len` received
bytes, followed by whatever lies behind the allocation (`beyond`). -/
def payload_mem (payload : List Nat) (beyond : Nat → Nat) : Nat → Nat :=
  fun i => if i < payload.length then payload.getD i 0 else beyond i

/-- The resolution loop `for (i = 0; i < res_count; i++)`: the entries stored,
the value of `offset` after the loop and the payload indices dereferenced. -/
def parse_res_loop (le : Bool) (mem : Nat → Nat) : Nat → Nat → List ocam_res × Nat × List Nat
  | 0, offset => ([], offset, [])
  | n + 1, offset =>
    let w := peek32 le mem offset
    let h := peek32 le mem (offset + 4)
    let rest := parse_res_loop le mem n (offset + 8)
    ({ w := to_int w, h := to_int h } :: rest.1, rest.2.1,
      span4 offset ++ span4 (offset + 4) ++ rest.2.2)

/-- Outcome of the capability parser: the new state and, in order, the
payload indices it dereferenced. -/
structure CapsParse where
  state : ocam_source
  reads : List Nat

/-- The block guarded by `read_bytes_fully(...) == payload_len` in
`control_thread_func` (source lines 274-297). -/
def parse_caps (le : Bool) (mem : Nat → Nat) (s : ocam_source) : CapsParse :=
  let res_count := peek8 mem 0
  let loop := parse_res_loop le mem res_count 1
  let offset := loop.2.1
  { state :=
      { s with
        supported_resolutions := loop.1
        supported_res_count := res_count
        iso_min := to_int (peek32 le mem offset)
        iso_max := to_int (peek32 le mem (offset + 4))
        exp_min := to_int (peek32 le mem (offset + 8))
        exp_max := to_int (peek32 le mem (offset + 12))
        focus_min := peek32 le mem (offset + 16)
        flash_available := decide (peek8 mem (offset + 20) ≠ 0)
        caps_received := true }
    reads := [0] ++ loop.2.2 ++ span4 offset ++ span4 (offset + 4) ++ span4 (offset + 8)
      ++ span4 (offset + 12) ++ span4 (offset + 16) ++ [offset + 20] }

/-- The big-endian bytes of a 32-bit value. -/
def be32_bytes (v : Nat) : List Nat :=
  [v / 16777216 % 256, v / 65536 % 256, v / 256 % 256, v % 256]

/-- The resolution pairs of a capability report on the wire. -/
def spec_caps_pairs : List (Nat × Nat) → List Nat
  | [] => []
  | (w, h) :: rest => be32_bytes w ++ be32_bytes h ++ spec_caps_pairs rest

/-- A capability report as the protocol describes it: `count:u8`, then `count`
pairs `(w:u32, h:u32)`, then `iso_min, iso_max, exp_min, exp_max : i32`, the
four `focus_min` bytes and the flash byte; integers big-endian. -/
def spec_caps_payload (pairs : List (Nat × Nat)) (iso_min iso_max exp_min exp_max : Int)
    (focus_bits flash : Nat) : List Nat :=
  [pairs.length] ++ spec_caps_pairs pairs
    ++ be32_bytes (to_u32 iso_min) ++ be32_bytes (to_u32 iso_max)
    ++ be32_bytes (to_u32 exp_min) ++ be32_bytes (to_u32 exp_max)
    ++ be32_bytes focus_bits ++ [flash]

/-! ## Settings synchroniser (source lines 222-234 and 380-430) -/

/-- The values `ocam_update` reads out of `obs_data_t`: the resolution string
and the `long long`/`bool` values of the other keys. -/
structure obs_settings where
  resolution : String
  fps : Int
  bitrate : Int
  flash : Bool
  iso : Int
  exposure : Int
  focus : Int

/-- C `isspace` in the "C" locale. -/
def c_isspace (c : Char) : Bool := c = ' ' || (9 ≤ c.toNat && c.toNat ≤ 13)

/-- Skipping of leading white space by a `%d` directive. -/
def skip_space : List Char → List Char
  | [] => []
  | c :: cs => if c_isspace c then skip_space cs else c :: cs

/-- The run of decimal digits at the head of the input, accumulated. -/
def scan_digits : Nat → List Char → Nat × List Char
  | acc, [] => (acc, [])
  | acc, c :: cs => if c.isDigit then scan_digits (acc * 10 + (c.toNat - 48)) cs else (acc, c :: cs)

/-- One `%d` directive: optional white space, optional sign, at least one
digit.  The value is stored into an `int`; a value out of range (undefined in
C) is taken to wrap. -/
def scan_int (cs : List Char) : Option (Int × List Char) :=
  let body (neg : Bool) (ds : List Char) : Option (Int × List Char) :=
    match ds with
    | [] => none
    | d :: _ =>
      if d.isDigit then
        let r := scan_digits 0 ds
        some (to_int (if neg then -(r.1 : Int) else (r.1 : Int)), r.2)
      else none
  match skip_space cs with
  | '-' :: ds => body true ds
  | '+' :: ds => body false ds
  | ds => body false ds

/-- The call `sscanf(res_str, "%dx%d", &w, &h)`: `some (w, h)` when it
returns 2. -/
def sscanf_dxd (res_str : String) : Option (Int × Int) :=
  match scan_int res_str.toList with
  | none => none
  | some (w, rest) =>
    match rest with
    | 'x' :: rest2 =>
      match scan_int rest2 with
      | none => none
      | some (h, _) => some (w, h)
    | _ => none

/-- Source `sync_settings_to_phone`: the buffers sent, in order. -/
def sync_settings_to_phone (s : ocam_source) : List (List Nat) :=
  (if 0 < s.current_w ∧ 0 < s.current_h then
      send_control_command s 0x01 (to_u32 s.current_w) (to_u32 s.current_h) else [])
  ++ (if 0 < s.current_fps then send_control_command s 0x02 (to_u32 s.current_fps) 0 else [])
  ++ (if 0 < s.current_bitrate then
      send_control_command s 0x03 (to_u32 (to_int (s.current_bitrate * 1000000))) 0 else [])
  ++ send_control_command s 0x09 (if s.current_flash then 1 else 0) 0
  ++ (if 0 ≤ s.current_iso then send_control_command s 0x06 (to_u32 s.current_iso) 0 else [])
  ++ (if 0 ≤ s.current_exp then send_control_command s 0x07 (to_u32 s.current_exp) 0 else [])
  ++ (if -1 ≤ s.current_focus then send_control_command s 0x08 (to_u32 s.current_focus) 0 else [])

/-- What `control_thread_func` does when `accept` hands it a client (source
lines 255-261): it records the descriptor, replays the cache and sends 0x05.
The result is the new state and the buffers sent. -/
def control_connect (s : ocam_source) (client : Int) : ocam_source × List (List Nat) :=
  let s1 := { s with control_client_fd := client }
  (s1, sync_settings_to_phone s1 ++ send_control_command s1 0x05 0 0)

/-- The resolution block of `ocam_update` (source lines 383-391). -/
def update_resolution (s : ocam_source) (v : obs_settings) : ocam_source × List (List Nat) :=
  match sscanf_dxd v.resolution with
  | some (w, h) =>
    if w ≠ s.current_w ∨ h ≠ s.current_h then
      ({ s with current_w := w, current_h := h }, send_control_command s 0x01 (to_u32 w) (to_u32 h))
    else (s, [])
  | none => (s, [])

/-- The fps block of `ocam_update` (source lines 393-398). -/
def update_fps (s : ocam_source) (v : obs_settings) : ocam_source × List (List Nat) :=
  let fps := to_int v.fps
  if fps ≠ s.current_fps then
    ({ s with current_fps := fps }, send_control_command s 0x02 (to_u32 fps) 0)
  else (s, [])

/-- The bitrate block of `ocam_update` (source lines 400-405); the `int`
product `bitrate_mbps * 1000000` is taken to wrap when it overflows. -/
def update_bitrate (s : ocam_source) (v : obs_settings) : ocam_source × List (List Nat) :=
  let bitrate_mbps := to_int v.bitrate
  if bitrate_mbps ≠ s.current_bitrate then
    ({ s with current_bitrate := bitrate_mbps },
      send_control_command s 0x03 (to_u32 (to_int (bitrate_mbps * 1000000))) 0)
  else (s, [])

/-- The flash block of `ocam_update` (source lines 407-411). -/
def update_flash (s : ocam_source) (v : obs_settings) : ocam_source × List (List Nat) :=
  if v.flash ≠ s.current_flash then
    ({ s with current_flash := v.flash }, send_control_command s 0x09 (if v.flash then 1 else 0) 0)
  else (s, [])

/-- The iso block of `ocam_update` (source lines 413-417). -/
def update_iso (s : ocam_source) (v : obs_settings) : ocam_source × List (List Nat) :=
  let iso := to_int v.iso
  if iso ≠ s.current_iso then
    ({ s with current_iso := iso }, send_control_command s 0x06 (to_u32 iso) 0)
  else (s, [])

/-- The exposure block of `ocam_update` (source lines 419-423). -/
def update_exp (s : ocam_source) (v : obs_settings) : ocam_source × List (List Nat) :=
  let exp := to_int v.exposure
  if exp ≠ s.current_exp then
    ({ s with current_exp := exp }, send_control_command s 0x07 (to_u32 exp) 0)
  else (s, [])

/-- The focus block of `ocam_update` (source lines 425-429). -/
def update_focus (s : ocam_source) (v : obs_settings) : ocam_source × List (List Nat) :=
  let focus := to_int v.focus
  if focus ≠ s.current_focus then
    ({ s with current_focus := focus }, send_control_command s 0x08 (to_u32 focus) 0)
  else (s, [])

/-- Source `ocam_update`: the seven blocks in order; the result is the new
state and the buffers sent, in order. -/
def ocam_update (s : ocam_source) (v : obs_settings) : ocam_source × List (List Nat) :=
  let r1 := update_resolution s v
  let r2 := update_fps r1.1 v
  let r3 := update_bitrate r2.1 v
  let r4 := update_flash r3.1 v
  let r5 := update_iso r4.1 v
  let r6 := update_exp r5.1 v
  let r7 := update_focus r6.1 v
  (r7.1, r1.2 ++ r2.2 ++ r3.2 ++ r4.2 ++ r5.2 ++ r6.2 ++ r7.2)

/-- The settings cache of a state. -/
def settings_cache (s : ocam_source) : Int × Int × Int × Int × Bool × Int × Int × Int :=
  (s.current_w, s.current_h, s.current_fps, s.current_bitrate, s.current_flash,
    s.current_iso, s.current_exp, s.current_focus)


/-! ## Blocking socket helpers (source lines 140-169) -/

/-- What the client socket does next.  `timeout`, `eintr` and `selerr` are
answers of `select` (0, -1 with `EINTR`, -1 with another error); `data b bs`
is a non-empty run of bytes waiting in the receive buffer, `eof` an orderly
shutdown by the peer (which stays), `rerr` a failing `recv`. -/
inductive SockEvent where
  | timeout
  | eintr
  | selerr
  | data (b : Nat) (bs : List Nat)
  | eof
  | rerr
deriving DecidableEq, Repr

/-- One socket together with the running flag.  `alive` is the number of
future reads of `thread_running` that still see `true`; `calls` logs, for
every `recv` performed, the length requested and the value returned. -/
structure World where
  alive : Nat
  events : List SockEvent
  calls : List (Int × Int)
deriving DecidableEq, Repr

/-- Answer of one `select` call. -/
inductive SelectResult where
  | ready
  | timed_out
  | interrupted
  | failed
deriving DecidableEq, Repr

/-- One `select` call with a 100 ms timeout on the socket: its answer and the
events still to come.  With nothing pending it times out. -/
def select_call : List SockEvent → SelectResult × List SockEvent
  | [] => (SelectResult.timed_out, [])
  | SockEvent.timeout :: rest => (SelectResult.timed_out, rest)
  | SockEvent.eintr :: rest => (SelectResult.interrupted, rest)
  | SockEvent.selerr :: rest => (SelectResult.failed, rest)
  | e :: rest => (SelectResult.ready, e :: rest)

/-- Source `wait_for_socket`, on the flag counter and the pending events:
`while (s->thread_running)` around one `select` call; a positive answer
returns true, an error other than `EINTR` returns false. -/
def wait_for_socket : Nat → List SockEvent → Bool × Nat × List SockEvent
  | 0, events => (false, 0, events)
  | alive + 1, events =>
    match select_call events with
    | (SelectResult.ready, rest) => (true, alive, rest)
    | (SelectResult.timed_out, rest) => wait_for_socket alive rest
    | (SelectResult.interrupted, rest) => wait_for_socket alive rest
    | (SelectResult.failed, rest) => (false, alive, rest)

/-- The bytes left in the receive buffer after a `recv`, put back in front of
the events still to come. -/
def unread (left : List Nat) (rest : List SockEvent) : List SockEvent :=
  match left with
  | [] => rest
  | b :: bs => SockEvent.data b bs :: rest

/-- One `recv(fd, p, len, 0)` with `len` an `int`: the value returned, the
bytes stored at `p` and the events still to come.  A positive `len` takes at
most `len` of the waiting bytes; `len = 0` returns 0; a negative `len` is
rejected with -1.  Without a readable event (which `wait_for_socket` rules
out) the call is answered with -1. -/
def recv_call (events : List SockEvent) (len : Int) : Int × List Nat × List SockEvent :=
  match events with
  | SockEvent.data b bs :: rest =>
    if len < 0 then (-1, [], events)
    else
      let got := (b :: bs).take len.toNat
      ((got.length : Int), got, unread ((b :: bs).drop len.toNat) rest)
  | SockEvent.eof :: rest => (0, [], SockEvent.eof :: rest)
  | SockEvent.rerr :: rest => (-1, [], rest)
  | _ => (-1, [], events)

/-- The buffer after `bytes` were stored at offset `off`. -/
def write_at (buf : List Nat) (off : Nat) (bytes : List Nat) : List Nat :=
  buf.take off ++ bytes ++ buf.drop (off + bytes.length)

/-- Result of `read_bytes_fully`: the `ssize_t` returned, the buffer and the
world afterwards. -/
structure ReadResult where
  ret : Int
  buf : List Nat
  world : World
deriving DecidableEq, Repr

/-- The loop of `read_bytes_fully`.  Every pass that does not return adds at
least one byte to `total_read`, so `len - total_read` passes are enough; the
first argument carries that bound. -/
def read_loop : Nat → World → List Nat → Nat → Nat → ReadResult
  | 0, w, buf, _, total_read => { ret := total_read, buf := buf, world := w }
  | fuel + 1, w, buf, len, total_read =>
    if total_read < len then
      match w.alive with
      | 0 => { ret := total_read, buf := buf, world := w }
      | alive + 1 =>
        match wait_for_socket alive w.events with
        | (false, alive1, events1) =>
          { ret := -1, buf := buf, world := { w with alive := alive1, events := events1 } }
        | (true, alive1, events1) =>
          let request := to_int ((len - total_read : Nat) : Int)
          let r := recv_call events1 request
          let w1 : World :=
            { alive := alive1, events := r.2.2, calls := w.calls ++ [(request, r.1)] }
          if r.1 ≤ 0 then { ret := r.1, buf := buf, world := w1 }
          else read_loop fuel w1 (write_at buf total_read r.2.1) len (total_read + r.1.toNat)
    else { ret := total_read, buf := buf, world := w }

/-- Source `read_bytes_fully(fd, buf, len, s)`. -/
def read_bytes_fully (w : World) (buf : List Nat) (len : Nat) : ReadResult :=
  read_loop len w buf len 0

/-- The bytes a list of events carries, in order. -/
def stream : List SockEvent → List Nat
  | [] => []
  | SockEvent.data b bs :: rest => b :: bs ++ stream rest
  | _ :: rest => stream rest

/-- All events are runs of bytes: every `select` answers "readable" and every
`recv` finds at least one byte. -/
def all_data : List SockEvent → Bool
  | [] => true
  | SockEvent.data _ _ :: rest => all_data rest
  | _ :: _ => false

/-! ## Control server, one client (source lines 263-315) -/

/-- The drain loop for a packet of another type (source lines 303-308), with
`remaining` passes as bound: the world and the trash buffer afterwards. -/
def drain_loop : Nat → World → List Nat → Nat → World × List Nat
  | 0, w, trash_buffer, _ => (w, trash_buffer)
  | fuel + 1, w, trash_buffer, remaining =>
    if 0 < remaining then
      let to_read := if remaining > 1024 then 1024 else remaining
      let r := read_bytes_fully w trash_buffer to_read
      if r.ret ≤ 0 then (r.world, r.buf)
      else drain_loop fuel r.world r.buf (remaining - to_read)
    else (w, trash_buffer)

/-- The statement `while (remaining > 0) ...` entered with
`remaining = payload_len`. -/
def drain (w : World) (trash_buffer : List Nat) (payload_len : Nat) : World × List Nat :=
  drain_loop payload_len w trash_buffer payload_len

/-- The packet type and payload length a 5-byte header carries. -/
def header_fields (le : Bool) (header : List Nat) : Nat × Nat :=
  (header.getD 0 0 % 256,
    portable_ntohl le (load_u32 le (header.getD 1 0 % 256) (header.getD 2 0 % 256)
      (header.getD 3 0 % 256) (header.getD 4 0 % 256)))

/-- State of the control client loop: the world, the shared state, the
`header` and `trash_buffer` arrays and, in order, for every capability parse
the payload length and the payload indices dereferenced. -/
structure ControlRun where
  world : World
  state : ocam_source
  header : List Nat
  trash_buffer : List Nat
  parses : List (Nat × List Nat)

/-- The body of the client loop after a header was read (source lines
267-309).  `heap` is the content of fresh memory: what `malloc` returns and
what lies behind it. -/
def control_packet (le : Bool) (heap : Nat → Nat) (c : ControlRun) : ControlRun :=
  let f := header_fields le c.header
  let pkt_type := f.1
  let payload_len := f.2
  if pkt_type = 0x10 then
    let r := read_bytes_fully c.world ((List.range payload_len).map heap) payload_len
    if r.ret = (payload_len : Int) then
      let p := parse_caps le (payload_mem r.buf heap) c.state
      { c with world := r.world, state := p.state, parses := c.parses ++ [(payload_len, p.reads)] }
    else { c with world := r.world }
  else
    let d := drain c.world c.trash_buffer payload_len
    { c with world := d.1, trash_buffer := d.2 }

/-- The statements after the client loop (source lines 312-315). -/
def control_disconnect (s : ocam_source) : ocam_source :=
  { s with control_client_fd := -1, caps_received := false }

/-- The client loop `while (s->thread_running)` (source lines 263-310).  Every
pass reads the flag once, so `alive + 1` passes are enough; the first argument
carries that bound.  The result tells whether the loop was left. -/
def control_loop (le : Bool) (heap : Nat → Nat) : Nat → ControlRun → Bool × ControlRun
  | 0, c => (false, c)
  | fuel + 1, c =>
    match c.world.alive with
    | 0 => (true, c)
    | alive + 1 =>
      let r := read_bytes_fully { c.world with alive := alive } c.header 5
      if r.ret ≤ 0 then (true, { c with world := r.world, header := r.buf })
      else control_loop le heap fuel
        (control_packet le heap { c with world := r.world, header := r.buf })

/-- One control client from `accept` to disconnect (source lines 255-315):
connect and replay, the client loop, then the disconnect statements.  The
result is the final run state and the buffers sent on connect. -/
def control_client (le : Bool) (heap : Nat → Nat) (w : World) (s : ocam_source)
    (client : Int) (header trash_buffer : List Nat) : ControlRun × List (List Nat) :=
  let c := control_connect s client
  let r := control_loop le heap (w.alive + 1)
    { world := w, state := c.1, header := header, trash_buffer := trash_buffer, parses := [] }
  ({ r.2 with state := control_disconnect r.2.state }, c.2)


/-! ## Video and audio sessions (source lines 451-457, 501-580, 595-601, 644-722) -/

/-- Source `cleanup_ffmpeg`: on the modelled fields, the extradata is freed,
its size zeroed and the decoder marked uninitialised. -/
def cleanup_ffmpeg (s : ocam_source) : ocam_source :=
  { s with extradata := [], extradata_size := 0, codec_initialized := false }

/-- Source `cleanup_audio_ffmpeg`. -/
def cleanup_audio_ffmpeg (s : ocam_source) : ocam_source :=
  { s with audio_extradata := [], audio_extradata_size := 0, audio_codec_initialized := false }

/-- Source `init_ffmpeg`, with the answer of the decoder library (`ok`) given:
`codec_initialized` is set only when the decoder opens. -/
def init_ffmpeg (s : ocam_source) (ok : Bool) : ocam_source × Bool :=
  if ok then ({ s with codec_initialized := true }, true) else (s, false)

/-- The video thread from `accept` to the streaming loop (source lines
497-511): the descriptor is recorded, the 64-byte name and the three `uint32_t`
of configuration are read, then the session is reset.  `none` when the
handshake fails and the client is closed. -/
def video_accept (w : World) (s : ocam_source) (client : Int) (name config : List Nat) :
    Option (World × ocam_source) :=
  let s1 := { s with video_client_fd := client }
  let r1 := read_bytes_fully w name 64
  if r1.ret ≤ 0 then none
  else
    let r2 := read_bytes_fully r1.world config 12
    if r2.ret ≤ 0 then none
    else some (r2.world, { cleanup_ffmpeg s1 with first_frame_received := false })

/-- The audio thread from `accept` to the streaming loop (source lines
640-654): the descriptor is recorded, the 4-byte magic is read, then the
session is reset.  `none` when the handshake fails and the client is closed. -/
def audio_accept (w : World) (s : ocam_source) (client : Int) (magic : List Nat) :
    Option (World × ocam_source) :=
  let s1 := { s with audio_client_fd := client }
  let r := read_bytes_fully w magic 4
  if r.ret ≤ 0 then none
  else some (r.world, { cleanup_audio_ffmpeg s1 with first_audio_received := false })

/-- The fields of a decoded `AVFrame` the video loop looks at; `format_ok`
tells whether `convert_pixel_format` knows the pixel format. -/
structure video_frame where
  width : Nat
  height : Nat
  format_ok : Bool
deriving DecidableEq, Repr

/-- One received video packet and the answers of the outside world while it
is processed: `realloc`, `init_ffmpeg` (when called), `os_gettime_ns`,
`avcodec_send_packet` and the frames `avcodec_receive_frame` hands out. -/
structure video_packet where
  pts : Nat
  payload : List Nat
  realloc_ok : Bool
  init_ok : Bool
  now : Nat
  send_ok : Bool
  frames : List video_frame
deriving DecidableEq, Repr

/-- Result of processing one video packet: the new state, the timestamps of
the frames handed to `obs_source_output_video` and whether the streaming loop
goes on (`false` after `break`). -/
structure VideoStep where
  state : ocam_source
  emitted : List Nat
  go_on : Bool

/-- The frame loop `while (avcodec_receive_frame(...) >= 0)` (source lines
552-577): the size is tracked for every frame, a frame is emitted unless its
pixel format is unknown; the 64-bit sum is taken to wrap. -/
def video_frames (pts_ns : Int) : ocam_source → List video_frame → ocam_source × List Nat
  | s, [] => (s, [])
  | s, f :: rest =>
    let s1 :=
      if f.width % 4294967296 ≠ s.width ∨ f.height % 4294967296 ≠ s.height then
        { s with width := f.width % 4294967296, height := f.height % 4294967296 }
      else s
    let r := video_frames pts_ns s1 rest
    if f.format_ok then (r.1, to_u64 (to_i64 (pts_ns + s1.timestamp_offset)) :: r.2)
    else r

/-- The configuration block `if (pts == 0) ...` (source lines 527-537): the
payload is appended to the extradata when `realloc` succeeds, and
`first_frame_received` is cleared. -/
def video_config (s : ocam_source) (p : video_packet) : ocam_source :=
  if p.pts = 0 then
    let s0 :=
      if p.realloc_ok then
        { s with extradata := s.extradata ++ p.payload,
                 extradata_size := to_int (s.extradata_size + (p.payload.length : Int)) }
      else s
    { s0 with first_frame_received := false }
  else s

/-- The block `if (!s->codec_initialized) ...` (source lines 539-541): the
state and whether a decoder is available afterwards. -/
def video_init (s : ocam_source) (p : video_packet) : ocam_source × Bool :=
  if s.codec_initialized then (s, true) else init_ffmpeg s p.init_ok

/-- The value of `pts_ns = (int64_t)pts * 1000`; the product is taken to wrap. -/
def video_pts_ns (p : video_packet) : Int := to_i64 (to_i64 (p.pts : Int) * 1000)

/-- The anchoring block `if (!s->first_frame_received && pts > 0) ...` (source
lines 545-548); the difference is taken to wrap. -/
def video_anchor (s : ocam_source) (p : video_packet) : ocam_source :=
  if s.first_frame_received = false ∧ 0 < p.pts then
    { s with timestamp_offset := to_i64 (to_i64 (p.now : Int) - video_pts_ns p),
             first_frame_received := true }
  else s

/-- The body of the video streaming loop once a packet is read (source lines
526-579). -/
def video_packet_step (s : ocam_source) (p : video_packet) : VideoStep :=
  let i := video_init (video_config s p) p
  if i.2 = false then { state := i.1, emitted := [], go_on := false }
  else
    let s3 := video_anchor i.1 p
    if p.send_ok then
      let r := video_frames (video_pts_ns p) s3 p.frames
      { state := r.1, emitted := r.2, go_on := true }
    else { state := s3, emitted := [], go_on := true }

/-- The video streaming loop over the packets received, until a `break`: the
final state and, per packet processed, the timestamps emitted. -/
def video_packets : ocam_source → List video_packet → ocam_source × List (List Nat)
  | s, [] => (s, [])
  | s, p :: rest =>
    let r := video_packet_step s p
    if r.go_on then
      let t := video_packets r.state rest
      (t.1, r.emitted :: t.2)
    else (r.state, [r.emitted])

/-- The cache agrees with the settings `v`: every block of `ocam_update` finds
its value already stored. -/
def cache_matches (s : ocam_source) (v : obs_settings) : Prop :=
  (∀ w h, sscanf_dxd v.resolution = some (w, h) → s.current_w = w ∧ s.current_h = h)
    ∧ s.current_fps = to_int v.fps
    ∧ s.current_bitrate = to_int v.bitrate
    ∧ s.current_flash = v.flash
    ∧ s.current_iso = to_int v.iso
    ∧ s.current_exp = to_int v.exposure
    ∧ s.current_focus = to_int v.focus

/-- The command ids of a list of sent buffers (their first bytes). -/
def command_ids (sent : List (List Nat)) : List Nat :=
  sent.map (fun buffer => buffer.headD 0)

/-- The replay order of the protocol (resolution, fps, bitrate, flash, iso,
exposure, focus) as a table over the cache: per entry whether the cached value
is one the replay sends, the command id and the two arguments. -/
def spec_replay_table (s : ocam_source) : List (Bool × Nat × Nat × Nat) :=
  [(decide (0 < s.current_w ∧ 0 < s.current_h), 0x01, to_u32 s.current_w, to_u32 s.current_h),
   (decide (0 < s.current_fps), 0x02, to_u32 s.current_fps, 0),
   (decide (0 < s.current_bitrate), 0x03, to_u32 (to_int (s.current_bitrate * 1000000)), 0),
   (true, 0x09, if s.current_flash then 1 else 0, 0),
   (decide (0 ≤ s.current_iso), 0x06, to_u32 s.current_iso, 0),
   (decide (0 ≤ s.current_exp), 0x07, to_u32 s.current_exp, 0),
   (decide (-1 ≤ s.current_focus), 0x08, to_u32 s.current_focus, 0)]

/-- The `recv` calls of one `read_bytes_fully` follow the bytes still missing:
every call requests at most the number of bytes missing at that moment and
returns a positive number of bytes not above its request, and after the last
call nothing is missing. -/
def calls_track : Nat → List (Int × Int) → Bool
  | missing, [] => decide (missing = 0)
  | missing, (request, returned) :: rest =>
    decide (request ≤ (missing : Int)) && decide (0 < returned) && decide (returned ≤ request)
      && calls_track (missing - returned.toNat) rest

/-- An example run state: the header of a type-7 packet with 3 payload bytes
was just read; the payload 1, 2, 3 and the next header `9 0 0 0 0` are waiting
in one fragment. -/
def drain_example : ControlRun :=
  { world := { alive := 17, events := [SockEvent.data 1 [2, 3, 9, 0, 0, 0, 0]], calls := [] },
    state := ocam_create_state, header := [7, 0, 0, 0, 3], trash_buffer := [], parses := [] }

/-- An example run state of a connected control client (descriptor 7) whose
capabilities were received earlier.  A type-0x10 header declaring 8 payload
bytes arrives, the `recv` for the payload fails, then the bytes `7 0 0 0 4`
arrive, a `recv` fails again, and the bytes `9 0 0 0 0` arrive. -/
def payload_failure_example : ControlRun :=
  { world :=
      { alive := 100,
        events := [SockEvent.data 16 [0, 0, 0, 8], SockEvent.rerr, SockEvent.data 7 [0, 0, 0, 4],
          SockEvent.rerr, SockEvent.data 9 [0, 0, 0, 0]],
        calls := [] },
    state := { ocam_create_state with control_client_fd := 7, caps_received := true },
    header := [0, 0, 0, 0, 0], trash_buffer := [], parses := [] }

/-- The value of `*(uint64_t*)p` when the eight bytes at `p` are `b0 .. b7` in
increasing address order. -/
def load_u64 (le : Bool) (b0 b1 b2 b3 b4 b5 b6 b7 : Nat) : Nat :=
  if le then
    b0 + b1 * 256 + b2 * 65536 + b3 * 16777216 + b4 * 4294967296 + b5 * 1099511627776
      + b6 * 281474976710656 + b7 * 72057594037927936
  else
    b0 * 72057594037927936 + b1 * 281474976710656 + b2 * 1099511627776 + b3 * 4294967296
      + b4 * 16777216 + b5 * 65536 + b6 * 256 + b7

/-- The big-endian value of eight bytes, most significant first. -/
def be64 (b0 b1 b2 b3 b4 b5 b6 b7 : Nat) : Nat :=
  b0 * 72057594037927936 + b1 * 281474976710656 + b2 * 1099511627776 + b3 * 4294967296
    + b4 * 16777216 + b5 * 65536 + b6 * 256 + b7

/-- The 64-bit byte reversal. -/
def bswap64 (v : Nat) : Nat :=
  be64 (v % 256) (v / 256 % 256) (v / 65536 % 256) (v / 16777216 % 256) (v / 4294967296 % 256)
    (v / 1099511627776 % 256) (v / 281474976710656 % 256) (v / 72057594037927936 % 256)

/-- The resolution entry of the command table over a settings value: whether
the parsed resolution differs from the cached one, the command id 0x01 and
the arguments `(w, h)`; a string that does not parse names no resolution. -/
def spec_resolution_entry (s : ocam_source) (v : obs_settings) : Bool × Nat × Nat × Nat :=
  match sscanf_dxd v.resolution with
  | some (w, h) => (decide (w ≠ s.current_w ∨ h ≠ s.current_h), 0x01, to_u32 w, to_u32 h)
  | none => (false, 0x01, 0, 0)

/-- The command table of the protocol over a settings value, in the order of
`ocam_update`: per setting whether it differs from the cached value, the
command id and the two arguments as 32-bit values. -/
def spec_update_table (s : ocam_source) (v : obs_settings) : List (Bool × Nat × Nat × Nat) :=
  [spec_resolution_entry s v,
   (decide (to_int v.fps ≠ s.current_fps), 0x02, to_u32 (to_int v.fps), 0),
   (decide (to_int v.bitrate ≠ s.current_bitrate), 0x03,
      to_u32 (to_int (to_int v.bitrate * 1000000)), 0),
   (decide (v.flash ≠ s.current_flash), 0x09, if v.flash then 1 else 0, 0),
   (decide (to_int v.iso ≠ s.current_iso), 0x06, to_u32 (to_int v.iso), 0),
   (decide (to_int v.exposure ≠ s.current_exp), 0x07, to_u32 (to_int v.exposure), 0),
   (decide (to_int v.focus ≠ s.current_focus), 0x08, to_u32 (to_int v.focus), 0)]

/-- An example state: freshly created, with a control client (descriptor 7)
connected. -/
def connected_example : ocam_source := { ocam_create_state with control_client_fd := 7 }

/-- Example settings with 0 fps: 1280x720, 2 Mbps, flash off, iso 100,
exposure 10000 us, focus -1. -/
def zero_fps_settings : obs_settings :=
  { resolution := "1280x720", fps := 0, bitrate := 2, flash := false, iso := 100,
    exposure := 10000, focus := -1 }

/-- An example run state of a connected control client (descriptor 7): the
`header` array still holds the previous header `7 0 0 0 0`; the first two bytes
`16 0` of the next header are waiting, and the running flag is cleared right
after the `recv` that collects them (three more reads of the flag see it
set: the loop condition of the client loop, the loop condition of
`read_bytes_fully` and the one of `wait_for_socket`). -/
def partial_header_example : ControlRun :=
  { world := { alive := 3, events := [SockEvent.data 16 [0]], calls := [] },
    state := { ocam_create_state with control_client_fd := 7 },
    header := [7, 0, 0, 0, 0], trash_buffer := [], parses := [] }

/-- An example video session that is already anchored: extradata `1 2`, the
decoder initialised, `first_frame_received = true` and offset 7. -/
def anchored_example : ocam_source :=
  { ocam_create_state with
    video_client_fd := 7, extradata := [1, 2], extradata_size := 2, codec_initialized := true,
    timestamp_offset := 7, first_frame_received := true }

/-- Two example packets with timestamp 0 and payloads `3 4 5` and `6`. -/
def config_packets_example : List video_packet :=
  [{ pts := 0, payload := [3, 4, 5], realloc_ok := true, init_ok := true, now := 4998000,
     send_ok := true, frames := [] },
   { pts := 0, payload := [6], realloc_ok := true, init_ok := true, now := 4999000,
     send_ok := true, frames := [] }]

/-- An example packet with timestamp 1000 received at clock 5000000. -/
def restart_frame_example : video_packet :=
  { pts := 1000, payload := [9], realloc_ok := true, init_ok := true, now := 5000000,
    send_ok := true, frames := [{ width := 1280, height := 720, format_ok := true }] }

/-! ## Audio packets and the streaming loops (source lines 513-586, 603-620, 656-728) -/

/-- Source `init_audio_ffmpeg`, with the answer of the decoder library (`ok`)
given: `audio_codec_initialized` is set only when the decoder opens. -/
def init_audio_ffmpeg (s : ocam_source) (ok : Bool) : ocam_source × Bool :=
  if ok then ({ s with audio_codec_initialized := true }, true) else (s, false)

/-- One received audio packet and the answers of the outside world while it
is processed: `init_audio_ffmpeg` (when called), `os_gettime_ns`,
`avcodec_send_packet` and the number of frames `avcodec_receive_frame` hands
out. -/
structure audio_packet where
  pts : Nat
  payload : List Nat
  init_ok : Bool
  now : Nat
  send_ok : Bool
  frames : Nat
deriving DecidableEq, Repr

/-- Result of processing one audio packet: the new state, the timestamps of
the frames handed to `obs_source_output_audio` and whether the body was left
by `continue` before the anchoring block. -/
structure AudioStep where
  state : ocam_source
  emitted : List Nat
  skipped : Bool

/-- The block `if (s->audio_extradata_size == 0) ...` (source lines 671-675):
the payload of the packet becomes the extradata (`malloc` is taken to
succeed). -/
def audio_config (s : ocam_source) (p : audio_packet) : ocam_source :=
  if s.audio_extradata_size = 0 then
    { s with audio_extradata := p.payload,
             audio_extradata_size := to_int (p.payload.length : Int) }
  else s

/-- The block `if (!s->audio_codec_initialized) ...` (source lines 670-677):
the state and whether a decoder is available afterwards. -/
def audio_init (s : ocam_source) (p : audio_packet) : ocam_source × Bool :=
  if s.audio_codec_initialized then (s, true) else init_audio_ffmpeg (audio_config s p) p.init_ok

/-- The value of `pts_ns = (int64_t)pts * 1000` in the audio loop. -/
def audio_pts_ns (p : audio_packet) : Int := to_i64 (to_i64 (p.pts : Int) * 1000)

/-- The anchoring block `if (!s->first_audio_received) ...` (source lines
680-684); the difference is taken to wrap. -/
def audio_anchor (s : ocam_source) (p : audio_packet) : ocam_source :=
  if s.first_audio_received = false then
    { s with audio_timestamp_offset := to_i64 (to_i64 (p.now : Int) - audio_pts_ns p),
             first_audio_received := true }
  else s

/-- The body of the audio streaming loop once a packet is read (source lines
670-721).  A failing `init_audio_ffmpeg` leaves the body with `continue`. -/
def audio_packet_step (s : ocam_source) (p : audio_packet) : AudioStep :=
  let i := audio_init s p
  if i.2 = false then { state := i.1, emitted := [], skipped := true }
  else
    let s3 := audio_anchor i.1 p
    if p.send_ok then
      { state := s3,
        emitted := List.replicate p.frames
          (to_u64 (to_i64 (audio_pts_ns p + s3.audio_timestamp_offset))),
        skipped := false }
    else { state := s3, emitted := [], skipped := false }

/-- The audio streaming loop over the packets received: the final state and,
per packet, the timestamps emitted.  No statement of the body leaves the
loop. -/
def audio_packets : ocam_source → List audio_packet → ocam_source × List (List Nat)
  | s, [] => (s, [])
  | s, p :: rest =>
    let r := audio_packet_step s p
    let t := audio_packets r.state rest
    (t.1, r.emitted :: t.2)

/-- The answers of the outside world while one media packet is received and
processed: `av_new_packet`, `realloc` (video only), the decoder
initialisation (when called), `os_gettime_ns`, `avcodec_send_packet` and the
frames the decoder hands out (audio: only their number counts). -/
structure media_answers where
  new_packet_ok : Bool
  realloc_ok : Bool
  init_ok : Bool
  now : Nat
  send_ok : Bool
  frames : List video_frame
deriving DecidableEq, Repr

/-- State of a streaming loop: the world, the shared state, the variables
`pts_net` and `size_net` as bytes, and per packet processed the timestamps
emitted. -/
structure MediaRun where
  world : World
  state : ocam_source
  pts_net : List Nat
  size_net : List Nat
  emitted : List (List Nat)

/-- The first statements of the body of both streaming loops (source lines
517-524 and 660-667, the same text): read the 8-byte timestamp and the 4-byte
size, convert them, allocate the packet and read the payload.  `none` stands
for `break`; otherwise the timestamp and the payload.  `heap` is the content
of fresh memory. -/
def read_media_packet (le : Bool) (heap : Nat → Nat) (c : MediaRun) (new_packet_ok : Bool) :
    MediaRun × Option (Nat × List Nat) :=
  let r1 := read_bytes_fully c.world c.pts_net 8
  if r1.ret ≤ 0 then ({ c with world := r1.world, pts_net := r1.buf }, none)
  else
    let r2 := read_bytes_fully r1.world c.size_net 4
    let c2 := { c with world := r2.world, pts_net := r1.buf, size_net := r2.buf }
    if r2.ret ≤ 0 then (c2, none)
    else
      let pts := portable_ntohll le
        (load_u64 le (r1.buf.getD 0 0 % 256) (r1.buf.getD 1 0 % 256) (r1.buf.getD 2 0 % 256)
          (r1.buf.getD 3 0 % 256) (r1.buf.getD 4 0 % 256) (r1.buf.getD 5 0 % 256)
          (r1.buf.getD 6 0 % 256) (r1.buf.getD 7 0 % 256))
      let size := portable_ntohl le
        (load_u32 le (r2.buf.getD 0 0 % 256) (r2.buf.getD 1 0 % 256) (r2.buf.getD 2 0 % 256)
          (r2.buf.getD 3 0 % 256))
      if new_packet_ok = false then (c2, none)
      else
        let r3 := read_bytes_fully r2.world ((List.range size).map heap) size
        if r3.ret ≠ (size : Int) then ({ c2 with world := r3.world }, none)
        else ({ c2 with world := r3.world }, some (pts, r3.buf))

/-- The answers used when the list of answers is exhausted. -/
def no_answers : media_answers :=
  { new_packet_ok := true, realloc_ok := true, init_ok := true, now := 0, send_ok := true,
    frames := [] }

/-- The video streaming loop `while (s->thread_running)` (source lines
513-580).  Every pass reads the flag once, so `alive + 1` passes are enough;
the first argument carries that bound.  The list holds the answers of the
outside world, one entry per pass. -/
def video_stream_loop (le : Bool) (heap : Nat → Nat) :
    Nat → MediaRun → List media_answers → MediaRun
  | 0, c, _ => c
  | fuel + 1, c, answers =>
    match c.world.alive with
    | 0 => c
    | alive + 1 =>
      let a := answers.headD no_answers
      let r := read_media_packet le heap { c with world := { c.world with alive := alive } }
        a.new_packet_ok
      match r.2 with
      | none => r.1
      | some (pts, payload) =>
        let st := video_packet_step r.1.state
          { pts := pts, payload := payload, realloc_ok := a.realloc_ok, init_ok := a.init_ok,
            now := a.now, send_ok := a.send_ok, frames := a.frames }
        let c1 := { r.1 with state := st.state, emitted := r.1.emitted ++ [st.emitted] }
        if st.go_on then video_stream_loop le heap fuel c1 answers.tail else c1

/-- The audio streaming loop `while (s->thread_running)` (source lines
656-722), with the same bound. -/
def audio_stream_loop (le : Bool) (heap : Nat → Nat) :
    Nat → MediaRun → List media_answers → MediaRun
  | 0, c, _ => c
  | fuel + 1, c, answers =>
    match c.world.alive with
    | 0 => c
    | alive + 1 =>
      let a := answers.headD no_answers
      let r := read_media_packet le heap { c with world := { c.world with alive := alive } }
        a.new_packet_ok
      match r.2 with
      | none => r.1
      | some (pts, payload) =>
        let st := audio_packet_step r.1.state
          { pts := pts, payload := payload, init_ok := a.init_ok, now := a.now,
            send_ok := a.send_ok, frames := a.frames.length }
        audio_stream_loop le heap fuel
          { r.1 with state := st.state, emitted := r.1.emitted ++ [st.emitted] } answers.tail

/-- The statements after the video streaming loop (source lines 582-586): the
client is closed, the descriptor set to -1 and the decoder state released. -/
def video_teardown (s : ocam_source) : ocam_source :=
  cleanup_ffmpeg { s with video_client_fd := -1 }

/-- The statements after the audio streaming loop (source lines 724-728). -/
def audio_teardown (s : ocam_source) : ocam_source :=
  cleanup_audio_ffmpeg { s with audio_client_fd := -1 }

/-- One video streaming session from the first pass of the loop to the
teardown. -/
def video_stream (le : Bool) (heap : Nat → Nat) (c : MediaRun) (answers : List media_answers) :
    MediaRun :=
  let r := video_stream_loop le heap (c.world.alive + 1) c answers
  { r with state := video_teardown r.state }

/-- One audio streaming session from the first pass of the loop to the
teardown. -/
def audio_stream (le : Bool) (heap : Nat → Nat) (c : MediaRun) (answers : List media_answers) :
    MediaRun :=
  let r := audio_stream_loop le heap (c.world.alive + 1) c answers
  { r with state := audio_teardown r.state }

/-- An example state at the start of an audio session, with a video session
anchored at offset 123. -/
def audio_session_example : ocam_source :=
  { ocam_create_state with
    audio_client_fd := 8, timestamp_offset := 123, first_frame_received := true }

/-- An example first audio packet with timestamp 0, received at clock
5000000. -/
def first_audio_example : audio_packet :=
  { pts := 0, payload := [17, 34], init_ok := true, now := 5000000, send_ok := true, frames := 1 }

/-- An example later audio packet with timestamp 1000, received at clock
5003000. -/
def later_audio_example : audio_packet :=
  { pts := 1000, payload := [51], init_ok := true, now := 5003000, send_ok := true, frames := 1 }

/-- An example run state at the start of a streaming loop (video descriptor 7,
audio descriptor 8): two packets are waiting, timestamp 1000 with payload
`17 34` and timestamp 2000 with payload `51`; then the peer closes. -/
def two_packets_example : MediaRun :=
  { world :=
      { alive := 40,
        events := [SockEvent.data 0 [0, 0, 0, 0, 0, 3, 232, 0, 0, 0, 2, 17, 34,
                                     0, 0, 0, 0, 0, 0, 7, 208, 0, 0, 0, 1, 51], SockEvent.eof],
        calls := [] },
    state := { ocam_create_state with video_client_fd := 7, audio_client_fd := 8 },
    pts_net := [0, 0, 0, 0, 0, 0, 0, 0], size_net := [0, 0, 0, 0], emitted := [] }

/-- Example answers of the outside world: the decoder initialisation fails
while the first packet is processed and succeeds while the second is; the
second packet is processed at clock 6000000 and yields one frame. -/
def init_failure_answers : List media_answers :=
  [{ new_packet_ok := true, realloc_ok := true, init_ok := false, now := 5000000,
     send_ok := true, frames := [] },
   { new_packet_ok := true, realloc_ok := true, init_ok := true, now := 6000000,
     send_ok := true, frames := [{ width := 1280, height := 720, format_ok := true }] }]

/-! # Properties -/


/-! ## Helper lemmas on machine integers -/

theorem and_255 (x : Nat) : x &&& 0xFF = x % 256 := by
  have h := Nat.and_pow_two_sub_one_eq_mod x 8
  simpa using h

theorem control_buffer_eq (cmd_id arg1 arg2 : Nat) :
    control_buffer cmd_id arg1 arg2 =
      [cmd_id % 256, arg1 / 16777216 % 256, arg1 / 65536 % 256, arg1 / 256 % 256, arg1 % 256,
        arg2 / 16777216 % 256, arg2 / 65536 % 256, arg2 / 256 % 256, arg2 % 256] := by
  simp [control_buffer, and_255, Nat.shiftRight_eq_div_pow]

theorem be32_of_bytes (v : Nat) (h : v < 4294967296) :
    be32 (v / 16777216 % 256) (v / 65536 % 256) (v / 256 % 256) (v % 256) = v := by
  unfold be32
  omega

/-! ## C1: control command encoding -/

/-- C1: for every `cmd_id` in u8 and `arg1`, `arg2` in u32 the buffer built by
`send_control_command` has exactly 9 bytes, byte 0 is `cmd_id`, bytes 1..4 are
`arg1` and bytes 5..8 are `arg2`, most significant byte first; reading the 9
bytes back as (u8, big-endian u32, big-endian u32) returns
`(cmd_id, arg1, arg2)`; and this buffer is what is sent when a control client
is connected. -/
theorem control_command_roundtrip (cmd_id arg1 arg2 : Nat)
    (hc : cmd_id < 256) (h1 : arg1 < 4294967296) (h2 : arg2 < 4294967296) :
    control_buffer cmd_id arg1 arg2 = [cmd_id] ++ be32_bytes arg1 ++ be32_bytes arg2
      ∧ (control_buffer cmd_id arg1 arg2).length = 9
      ∧ spec_decode_control_command (control_buffer cmd_id arg1 arg2) = some (cmd_id, arg1, arg2)
      ∧ ∀ s : ocam_source, s.control_client_fd ≠ -1 →
          send_control_command s cmd_id arg1 arg2 = [control_buffer cmd_id arg1 arg2] := by
  refine ⟨?_, ?_, ?_, ?_⟩
  · rw [control_buffer_eq]
    simp [be32_bytes, Nat.mod_eq_of_lt hc]
  · simp [control_buffer]
  · rw [control_buffer_eq]
    simp only [spec_decode_control_command, be32_of_bytes arg1 h1, be32_of_bytes arg2 h2,
      Nat.mod_eq_of_lt hc]
  · intro s hs
    simp [send_control_command, hs, Nat.mod_eq_of_lt h1, Nat.mod_eq_of_lt h2]

/-- C1 at set-resolution 1920x1080: the bytes on the wire. -/
theorem control_command_roundtrip_witness :
    control_buffer 1 1920 1080 = [1] ++ be32_bytes 1920 ++ be32_bytes 1080
      ∧ (control_buffer 1 1920 1080).length = 9
      ∧ spec_decode_control_command (control_buffer 1 1920 1080) = some (1, 1920, 1080)
      ∧ ∀ s : ocam_source, s.control_client_fd ≠ -1 →
          send_control_command s 1 1920 1080 = [control_buffer 1 1920 1080] :=
  control_command_roundtrip 1 1920 1080 (by decide) (by decide) (by decide)


/-! ## Helper lemmas on the capability parser -/

theorem payload_mem_at (pre post : List Nat) (x : Nat) (beyond : Nat → Nat) (n : Nat)
    (hn : n = pre.length) :
    payload_mem (pre ++ x :: post) beyond n = x := by
  subst hn
  simp [payload_mem, List.getElem_append_right]

theorem peek32_eq_be32 (le : Bool) (mem : Nat → Nat) (off : Nat) :
    peek32 le mem off
      = be32 (peek8 mem off) (peek8 mem (off + 1)) (peek8 mem (off + 2)) (peek8 mem (off + 3)) := by
  have h0 : peek8 mem off < 256 := Nat.mod_lt _ (by decide)
  have h1 : peek8 mem (off + 1) < 256 := Nat.mod_lt _ (by decide)
  have h2 : peek8 mem (off + 2) < 256 := Nat.mod_lt _ (by decide)
  have h3 : peek8 mem (off + 3) < 256 := Nat.mod_lt _ (by decide)
  cases le <;> simp only [peek32, portable_ntohl, ntohl, load_u32, bswap32, be32] <;> simp <;> omega

theorem peek32_payload (le : Bool) (pre post : List Nat) (v : Nat) (hv : v < 4294967296)
    (beyond : Nat → Nat) (n : Nat) (hn : n = pre.length) :
    peek32 le (payload_mem (pre ++ be32_bytes v ++ post) beyond) n = v := by
  rw [peek32_eq_be32]
  have e0 := payload_mem_at pre ([v / 65536 % 256, v / 256 % 256, v % 256] ++ post)
    (v / 16777216 % 256) beyond n hn
  have e1 := payload_mem_at (pre ++ [v / 16777216 % 256]) ([v / 256 % 256, v % 256] ++ post)
    (v / 65536 % 256) beyond (n + 1) (by simp [hn])
  have e2 := payload_mem_at (pre ++ [v / 16777216 % 256, v / 65536 % 256]) ([v % 256] ++ post)
    (v / 256 % 256) beyond (n + 2) (by simp [hn])
  have e3 := payload_mem_at (pre ++ [v / 16777216 % 256, v / 65536 % 256, v / 256 % 256]) post
    (v % 256) beyond (n + 3) (by simp [hn])
  simp only [be32_bytes, List.append_assoc, List.cons_append, List.nil_append] at e0 e1 e2 e3 ⊢
  simp only [peek8, e0, e1, e2, e3, be32]
  omega

theorem spec_caps_pairs_length (pairs : List (Nat × Nat)) :
    (spec_caps_pairs pairs).length = 8 * pairs.length := by
  induction pairs with
  | nil => rfl
  | cons q rest ih =>
    obtain ⟨w, h⟩ := q
    simp only [spec_caps_pairs, List.length_append, ih, be32_bytes, List.length_cons,
      List.length_nil]
    omega

theorem parse_res_loop_offset (le : Bool) (mem : Nat → Nat) (n off : Nat) :
    (parse_res_loop le mem n off).2.1 = off + 8 * n := by
  induction n generalizing off with
  | zero => simp [parse_res_loop]
  | succ n ih =>
    simp only [parse_res_loop, ih]
    omega

theorem parse_res_loop_reads (le : Bool) (mem : Nat → Nat) (n off : Nat) :
    ∀ i ∈ (parse_res_loop le mem n off).2.2, off ≤ i ∧ i < off + 8 * n := by
  induction n generalizing off with
  | zero => simp [parse_res_loop]
  | succ n ih =>
    intro i hi
    simp only [parse_res_loop, span4, List.mem_append, List.mem_cons, List.mem_singleton,
      List.not_mem_nil, or_false, List.cons_append, List.nil_append] at hi
    rcases hi with h | h | h | h | h | h | h | h | h
    all_goals first
      | omega
      | exact ⟨by have hh := ih (off + 8) i h; omega, by have hh := ih (off + 8) i h; omega⟩

theorem parse_res_loop_payload (le : Bool) (beyond : Nat → Nat) (pairs : List (Nat × Nat))
    (hpairs : ∀ q ∈ pairs, q.1 < 4294967296 ∧ q.2 < 4294967296) :
    ∀ (pre post : List Nat) (n : Nat), n = pre.length →
      (parse_res_loop le (payload_mem (pre ++ spec_caps_pairs pairs ++ post) beyond)
          pairs.length n).1
        = pairs.map (fun q => ({ w := to_int q.1, h := to_int q.2 } : ocam_res)) := by
  induction pairs with
  | nil => intro pre post n _; simp [parse_res_loop]
  | cons q rest ih =>
    intro pre post n hn
    obtain ⟨w, h⟩ := q
    have hq := hpairs (w, h) (List.mem_cons_self _ _)
    have hrest : ∀ q ∈ rest, q.1 < 4294967296 ∧ q.2 < 4294967296 :=
      fun q hq => hpairs q (List.mem_cons_of_mem _ hq)
    have ew : pre ++ spec_caps_pairs ((w, h) :: rest) ++ post
        = pre ++ be32_bytes w ++ (be32_bytes h ++ spec_caps_pairs rest ++ post) := by
      simp [spec_caps_pairs]
    have eh : pre ++ spec_caps_pairs ((w, h) :: rest) ++ post
        = (pre ++ be32_bytes w) ++ be32_bytes h ++ (spec_caps_pairs rest ++ post) := by
      simp [spec_caps_pairs]
    have er : pre ++ spec_caps_pairs ((w, h) :: rest) ++ post
        = (pre ++ be32_bytes w ++ be32_bytes h) ++ spec_caps_pairs rest ++ post := by
      simp [spec_caps_pairs]
    have pw := peek32_payload le pre (be32_bytes h ++ spec_caps_pairs rest ++ post) w hq.1
      beyond n hn
    have ph := peek32_payload le (pre ++ be32_bytes w) (spec_caps_pairs rest ++ post) h hq.2
      beyond (n + 4) (by simp [hn, be32_bytes])
    have ir := ih hrest (pre ++ be32_bytes w ++ be32_bytes h) post (n + 8)
      (by simp [hn, be32_bytes])
    rw [← ew] at pw
    rw [← eh] at ph
    rw [← er] at ir
    simp only [List.length_cons, parse_res_loop, List.map_cons, pw, ph, ir]

theorem to_u32_lt (x : Int) : to_u32 x < 4294967296 := by
  unfold to_u32
  have h1 : 0 ≤ x % 4294967296 := Int.emod_nonneg _ (by decide)
  have h2 : x % 4294967296 < 4294967296 := Int.emod_lt_of_pos _ (by decide)
  omega

theorem to_int_to_u32 (x : Int) (h : -2147483648 ≤ x ∧ x < 2147483648) :
    to_int (to_u32 x : Int) = x := by
  unfold to_int to_u32
  have h1 : 0 ≤ x % 4294967296 := Int.emod_nonneg _ (by decide)
  rw [Int.toNat_of_nonneg h1]
  omega

theorem to_u32_to_int (v : Nat) (h : v < 4294967296) : to_u32 (to_int (v : Int)) = v := by
  unfold to_int to_u32
  omega

/-! ## C2: capability report parser -/

/-- C2: for every well-formed type-0x10 payload (a count byte, `count` pairs of
big-endian u32 `(w, h)`, big-endian i32 `iso_min, iso_max, exp_min, exp_max`,
four `focus_min` bytes, one flash byte, then any further bytes, so that the
payload has at least `1 + 8*count + 21` bytes) the capability parser leaves
`supported_res_count = count`, the resolutions equal to the payload's pairs in
the same order (each u32 stored in the `int` field it is assigned to, and read
back from it unchanged), the four range fields equal to the payload's values,
`focus_min` carrying the payload's 32-bit pattern, `flash_available` true
exactly when the flash byte is nonzero and `caps_received = true`; every byte
it dereferences lies inside the payload.  This holds on little- and
big-endian hosts. -/
theorem capability_parse (le : Bool) (s : ocam_source) (pairs : List (Nat × Nat))
    (iso_min iso_max exp_min exp_max : Int) (focus_bits flash : Nat) (extra : List Nat)
    (beyond : Nat → Nat)
    (hcount : pairs.length < 256)
    (hpairs : ∀ q ∈ pairs, q.1 < 4294967296 ∧ q.2 < 4294967296)
    (h1 : -2147483648 ≤ iso_min ∧ iso_min < 2147483648)
    (h2 : -2147483648 ≤ iso_max ∧ iso_max < 2147483648)
    (h3 : -2147483648 ≤ exp_min ∧ exp_min < 2147483648)
    (h4 : -2147483648 ≤ exp_max ∧ exp_max < 2147483648)
    (hf : focus_bits < 4294967296) (hfl : flash < 256) :
    let payload := spec_caps_payload pairs iso_min iso_max exp_min exp_max focus_bits flash ++ extra
    let p := parse_caps le (payload_mem payload beyond) s
    payload.length = 1 + 8 * pairs.length + 21 + extra.length
      ∧ p.state.supported_res_count = pairs.length
      ∧ p.state.supported_resolutions
          = pairs.map (fun q => ({ w := to_int q.1, h := to_int q.2 } : ocam_res))
      ∧ p.state.supported_resolutions.map (fun r => (to_u32 r.w, to_u32 r.h)) = pairs
      ∧ p.state.iso_min = iso_min ∧ p.state.iso_max = iso_max
      ∧ p.state.exp_min = exp_min ∧ p.state.exp_max = exp_max
      ∧ p.state.focus_min = focus_bits
      ∧ p.state.flash_available = decide (flash ≠ 0)
      ∧ p.state.caps_received = true
      ∧ ∀ i ∈ p.reads, i < payload.length := by
  intro payload p
  have hlen : payload.length = 1 + 8 * pairs.length + 21 + extra.length := by
    simp only [payload, spec_caps_payload, List.length_append, spec_caps_pairs_length,
      be32_bytes, List.length_cons, List.length_nil]
  have hP := spec_caps_pairs_length pairs
  have c0 : peek8 (payload_mem payload beyond) 0 = pairs.length := by
    have e : payload = [] ++ pairs.length :: (spec_caps_pairs pairs
        ++ be32_bytes (to_u32 iso_min) ++ be32_bytes (to_u32 iso_max)
        ++ be32_bytes (to_u32 exp_min) ++ be32_bytes (to_u32 exp_max)
        ++ be32_bytes focus_bits ++ [flash] ++ extra) := by
      simp [payload, spec_caps_payload]
    have := payload_mem_at [] (spec_caps_pairs pairs
        ++ be32_bytes (to_u32 iso_min) ++ be32_bytes (to_u32 iso_max)
        ++ be32_bytes (to_u32 exp_min) ++ be32_bytes (to_u32 exp_max)
        ++ be32_bytes focus_bits ++ [flash] ++ extra) pairs.length beyond 0 rfl
    rw [← e] at this
    rw [peek8, this]
    exact Nat.mod_eq_of_lt hcount
  have cl : (parse_res_loop le (payload_mem payload beyond) pairs.length 1).1
      = pairs.map (fun q => ({ w := to_int q.1, h := to_int q.2 } : ocam_res)) := by
    have e : payload = [pairs.length] ++ spec_caps_pairs pairs
        ++ (be32_bytes (to_u32 iso_min) ++ be32_bytes (to_u32 iso_max)
        ++ be32_bytes (to_u32 exp_min) ++ be32_bytes (to_u32 exp_max)
        ++ be32_bytes focus_bits ++ [flash] ++ extra) := by
      simp [payload, spec_caps_payload]
    have := parse_res_loop_payload le beyond pairs hpairs [pairs.length]
      (be32_bytes (to_u32 iso_min) ++ be32_bytes (to_u32 iso_max)
        ++ be32_bytes (to_u32 exp_min) ++ be32_bytes (to_u32 exp_max)
        ++ be32_bytes focus_bits ++ [flash] ++ extra) 1 rfl
    rw [← e] at this
    exact this
  have r1 : peek32 le (payload_mem payload beyond) (1 + 8 * pairs.length) = to_u32 iso_min := by
    have e : payload = ([pairs.length] ++ spec_caps_pairs pairs)
        ++ be32_bytes (to_u32 iso_min) ++ (be32_bytes (to_u32 iso_max)
        ++ be32_bytes (to_u32 exp_min) ++ be32_bytes (to_u32 exp_max)
        ++ be32_bytes focus_bits ++ [flash] ++ extra) := by
      simp [payload, spec_caps_payload]
    have := peek32_payload le ([pairs.length] ++ spec_caps_pairs pairs)
      (be32_bytes (to_u32 iso_max) ++ be32_bytes (to_u32 exp_min) ++ be32_bytes (to_u32 exp_max) ++ be32_bytes focus_bits ++ [flash] ++ extra) _ (to_u32_lt iso_min) beyond (1 + 8 * pairs.length)
      (by simp [hP]; omega)
    rw [← e] at this
    exact this
  have r2 : peek32 le (payload_mem payload beyond) (1 + 8 * pairs.length + 4)
      = to_u32 iso_max := by
    have e : payload = ([pairs.length] ++ spec_caps_pairs pairs ++ be32_bytes (to_u32 iso_min))
        ++ be32_bytes (to_u32 iso_max) ++ (be32_bytes (to_u32 exp_min)
        ++ be32_bytes (to_u32 exp_max) ++ be32_bytes focus_bits ++ [flash] ++ extra) := by
      simp [payload, spec_caps_payload]
    have := peek32_payload le ([pairs.length] ++ spec_caps_pairs pairs ++ be32_bytes (to_u32 iso_min))
      (be32_bytes (to_u32 exp_min) ++ be32_bytes (to_u32 exp_max) ++ be32_bytes focus_bits ++ [flash] ++ extra) _ (to_u32_lt iso_max) beyond (1 + 8 * pairs.length + 4)
      (by simp [hP, be32_bytes]; omega)
    rw [← e] at this
    exact this
  have r3 : peek32 le (payload_mem payload beyond) (1 + 8 * pairs.length + 8)
      = to_u32 exp_min := by
    have e : payload = ([pairs.length] ++ spec_caps_pairs pairs ++ be32_bytes (to_u32 iso_min)
        ++ be32_bytes (to_u32 iso_max)) ++ be32_bytes (to_u32 exp_min)
        ++ (be32_bytes (to_u32 exp_max) ++ be32_bytes focus_bits ++ [flash] ++ extra) := by
      simp [payload, spec_caps_payload]
    have := peek32_payload le ([pairs.length] ++ spec_caps_pairs pairs ++ be32_bytes (to_u32 iso_min) ++ be32_bytes (to_u32 iso_max))
      (be32_bytes (to_u32 exp_max) ++ be32_bytes focus_bits ++ [flash] ++ extra) _ (to_u32_lt exp_min) beyond (1 + 8 * pairs.length + 8)
      (by simp [hP, be32_bytes]; omega)
    rw [← e] at this
    exact this
  have r4 : peek32 le (payload_mem payload beyond) (1 + 8 * pairs.length + 12)
      = to_u32 exp_max := by
    have e : payload = ([pairs.length] ++ spec_caps_pairs pairs ++ be32_bytes (to_u32 iso_min)
        ++ be32_bytes (to_u32 iso_max) ++ be32_bytes (to_u32 exp_min))
        ++ be32_bytes (to_u32 exp_max) ++ (be32_bytes focus_bits ++ [flash] ++ extra) := by
      simp [payload, spec_caps_payload]
    have := peek32_payload le ([pairs.length] ++ spec_caps_pairs pairs ++ be32_bytes (to_u32 iso_min) ++ be32_bytes (to_u32 iso_max) ++ be32_bytes (to_u32 exp_min))
      (be32_bytes focus_bits ++ [flash] ++ extra) _ (to_u32_lt exp_max) beyond (1 + 8 * pairs.length + 12)
      (by simp [hP, be32_bytes]; omega)
    rw [← e] at this
    exact this
  have r5 : peek32 le (payload_mem payload beyond) (1 + 8 * pairs.length + 16)
      = focus_bits := by
    have e : payload = ([pairs.length] ++ spec_caps_pairs pairs ++ be32_bytes (to_u32 iso_min)
        ++ be32_bytes (to_u32 iso_max) ++ be32_bytes (to_u32 exp_min)
        ++ be32_bytes (to_u32 exp_max)) ++ be32_bytes focus_bits ++ ([flash] ++ extra) := by
      simp [payload, spec_caps_payload]
    have := peek32_payload le ([pairs.length] ++ spec_caps_pairs pairs ++ be32_bytes (to_u32 iso_min) ++ be32_bytes (to_u32 iso_max) ++ be32_bytes (to_u32 exp_min) ++ be32_bytes (to_u32 exp_max))
      ([flash] ++ extra) _ hf beyond (1 + 8 * pairs.length + 16)
      (by simp [hP, be32_bytes]; omega)
    rw [← e] at this
    exact this
  have r6 : peek8 (payload_mem payload beyond) (1 + 8 * pairs.length + 20) = flash := by
    have e : payload = ([pairs.length] ++ spec_caps_pairs pairs ++ be32_bytes (to_u32 iso_min)
        ++ be32_bytes (to_u32 iso_max) ++ be32_bytes (to_u32 exp_min)
        ++ be32_bytes (to_u32 exp_max) ++ be32_bytes focus_bits) ++ flash :: extra := by
      simp [payload, spec_caps_payload]
    have := payload_mem_at ([pairs.length] ++ spec_caps_pairs pairs
        ++ be32_bytes (to_u32 iso_min) ++ be32_bytes (to_u32 iso_max)
        ++ be32_bytes (to_u32 exp_min) ++ be32_bytes (to_u32 exp_max) ++ be32_bytes focus_bits)
      extra flash beyond (1 + 8 * pairs.length + 20) (by simp [hP, be32_bytes]; omega)
    rw [← e] at this
    rw [peek8, this]
    exact Nat.mod_eq_of_lt hfl
  have hres : p.state.supported_resolutions
      = pairs.map (fun q => ({ w := to_int q.1, h := to_int q.2 } : ocam_res)) := by
    simp only [p, parse_caps, c0, cl]
  refine ⟨hlen, ?_, hres, ?_, ?_, ?_, ?_, ?_, ?_, ?_, ?_, ?_⟩
  · simp only [p, parse_caps, c0]
  · rw [hres, List.map_map]
    have : ∀ q ∈ pairs, ((fun r : ocam_res => (to_u32 r.w, to_u32 r.h))
        ∘ (fun q : Nat × Nat => ({ w := to_int q.1, h := to_int q.2 } : ocam_res))) q = id q := by
      intro q hq
      have := hpairs q hq
      simp [to_u32_to_int q.1 this.1, to_u32_to_int q.2 this.2]
    rw [List.map_congr_left this, List.map_id]
  · simp only [p, parse_caps, c0, parse_res_loop_offset, r1, to_int_to_u32 _ h1]
  · simp only [p, parse_caps, c0, parse_res_loop_offset, r2, to_int_to_u32 _ h2]
  · simp only [p, parse_caps, c0, parse_res_loop_offset, r3, to_int_to_u32 _ h3]
  · simp only [p, parse_caps, c0, parse_res_loop_offset, r4, to_int_to_u32 _ h4]
  · simp only [p, parse_caps, c0, parse_res_loop_offset, r5]
  · simp only [p, parse_caps, c0, parse_res_loop_offset, r6]
  · rfl
  · intro i hi
    simp only [p, parse_caps, c0, parse_res_loop_offset, span4, List.mem_append, List.mem_cons,
      List.mem_singleton, List.not_mem_nil, or_false, List.cons_append, List.nil_append,
      or_assoc] at hi
    rw [hlen]
    rcases hi with h | h | h | h | h | h | h | h | h | h | h | h | h | h | h | h | h | h | h
      | h | h | h | h
    all_goals first
      | omega
      | exact (by have hh := parse_res_loop_reads le _ _ _ i h; omega)


/-- C2 at the report `count = 2`, `[(1920,1080),(1280,720)]`, iso `(0, 3200)`,
exposure `(0, 100000)`, `focus_min = 0.0` (bit pattern 0), flash byte 1, parsed
on a little-endian host into the freshly created state. -/
theorem capability_parse_witness :
    let payload := spec_caps_payload [(1920, 1080), (1280, 720)] 0 3200 0 100000 0 1 ++ []
    let p := parse_caps true (payload_mem payload (fun _ => 0)) ocam_create_state
    payload.length = 1 + 8 * [((1920 : Nat), (1080 : Nat)), (1280, 720)].length + 21
        + ([] : List Nat).length
      ∧ p.state.supported_res_count = ([((1920 : Nat), (1080 : Nat)), (1280, 720)].length : Int)
      ∧ p.state.supported_resolutions
          = [((1920 : Nat), (1080 : Nat)), (1280, 720)].map
              (fun q => ({ w := to_int q.1, h := to_int q.2 } : ocam_res))
      ∧ p.state.supported_resolutions.map (fun r => (to_u32 r.w, to_u32 r.h))
          = [(1920, 1080), (1280, 720)]
      ∧ p.state.iso_min = 0 ∧ p.state.iso_max = 3200
      ∧ p.state.exp_min = 0 ∧ p.state.exp_max = 100000
      ∧ p.state.focus_min = 0
      ∧ p.state.flash_available = decide ((1 : Nat) ≠ 0)
      ∧ p.state.caps_received = true
      ∧ ∀ i ∈ p.reads, i < payload.length :=
  capability_parse true ocam_create_state [(1920, 1080), (1280, 720)] 0 3200 0 100000 0 1 []
    (fun _ => 0) (by decide) (by decide) (by decide) (by decide) (by decide) (by decide)
    (by decide) (by decide)


/-! ## C3: the parser and short payloads -/

theorem parse_res_loop_reads_eq (le : Bool) (mem : Nat → Nat) (n off : Nat) :
    (parse_res_loop le mem n off).2.2 = (List.range (8 * n)).map (fun k => off + k) := by
  induction n generalizing off with
  | zero => simp [parse_res_loop]
  | succ n ih =>
    have e : 8 * (n + 1) = 8 + 8 * n := by omega
    simp only [parse_res_loop, ih, e, List.range_add, List.map_append, List.map_map, span4]
    simp [List.range_succ, Function.comp_def, Nat.add_assoc]

/-- The parser dereferences the indices `0 .. 1 + 8*count + 20`, where `count`
is the byte it finds at index 0, whatever the length of the payload received. -/
theorem parse_caps_reads (le : Bool) (mem : Nat → Nat) (s : ocam_source) :
    (parse_caps le mem s).reads = List.range (1 + 8 * peek8 mem 0 + 21) := by
  simp only [parse_caps, parse_res_loop_reads_eq, parse_res_loop_offset, span4]
  rw [show 1 + 8 * peek8 mem 0 + 21 = 1 + (8 * peek8 mem 0 + 21) by omega, List.range_add,
    List.range_add]
  simp [List.range_succ, Function.comp_def, Nat.add_assoc]

/-- C3, evaluated on the code (little-endian host, fresh memory all zero).
A type-0x10 header that declares `L = 0` is followed by a successful
zero-length read (`0 == payload_len`), so the parser runs on an empty payload:
it dereferences the indices 0..21, none of which is below `L`, and marks the
capabilities as received.  A header that declares `L = 1` followed by the
count byte 2 makes the parser dereference the indices 0..37 of a 1-byte
payload. -/
theorem caps_parser_reads_past_short_payload :
    (control_loop true (fun _ => 0) 4
        { world := { alive := 3, events := [SockEvent.data 16 [0, 0, 0, 0]], calls := [] },
          state := ocam_create_state, header := [0, 0, 0, 0, 0], trash_buffer := [],
          parses := [] }).2.parses
      = [(0, List.range 22)]
    ∧ (control_loop true (fun _ => 0) 4
        { world := { alive := 3, events := [SockEvent.data 16 [0, 0, 0, 0]], calls := [] },
          state := ocam_create_state, header := [0, 0, 0, 0, 0], trash_buffer := [],
          parses := [] }).2.state.caps_received = true
    ∧ (control_loop true (fun _ => 0) 6
        { world := { alive := 5, events := [SockEvent.data 16 [0, 0, 0, 1, 2]], calls := [] },
          state := ocam_create_state, header := [0, 0, 0, 0, 0], trash_buffer := [],
          parses := [] }).2.parses
      = [(1, List.range 38)] := by
  decide


/-! ## C4: a repeated update sends nothing -/

theorem update_resolution_state (s : ocam_source) (v : obs_settings) :
    (update_resolution s v).1
      = match sscanf_dxd v.resolution with
        | some (w, h) => { s with current_w := w, current_h := h }
        | none => s := by
  unfold update_resolution
  cases hres : sscanf_dxd v.resolution with
  | none => rfl
  | some q =>
    obtain ⟨w, h⟩ := q
    by_cases hc : w ≠ s.current_w ∨ h ≠ s.current_h
    · simp [hc]
    · have hw : s.current_w = w := by
        by_contra hne
        exact hc (Or.inl (fun e => hne e.symm))
      have hh : s.current_h = h := by
        by_contra hne
        exact hc (Or.inr (fun e => hne e.symm))
      simp only [hc, if_false]
      subst hw hh
      rfl

theorem update_fps_state (s : ocam_source) (v : obs_settings) :
    (update_fps s v).1 = { s with current_fps := to_int v.fps } := by
  unfold update_fps
  by_cases hc : to_int v.fps ≠ s.current_fps
  · simp [hc]
  · have e : s.current_fps = to_int v.fps := by
      by_contra hne
      exact hc (fun e => hne e.symm)
    simp only [hc, if_false]
    rw [← e]

theorem update_bitrate_state (s : ocam_source) (v : obs_settings) :
    (update_bitrate s v).1 = { s with current_bitrate := to_int v.bitrate } := by
  unfold update_bitrate
  by_cases hc : to_int v.bitrate ≠ s.current_bitrate
  · simp [hc]
  · have e : s.current_bitrate = to_int v.bitrate := by
      by_contra hne
      exact hc (fun e => hne e.symm)
    simp only [hc, if_false]
    rw [← e]

theorem update_flash_state (s : ocam_source) (v : obs_settings) :
    (update_flash s v).1 = { s with current_flash := v.flash } := by
  unfold update_flash
  by_cases hc : v.flash ≠ s.current_flash
  · simp [hc]
  · have e : s.current_flash = v.flash := by
      by_contra hne
      exact hc (fun e => hne e.symm)
    simp only [hc, if_false]
    rw [← e]

theorem update_iso_state (s : ocam_source) (v : obs_settings) :
    (update_iso s v).1 = { s with current_iso := to_int v.iso } := by
  unfold update_iso
  by_cases hc : to_int v.iso ≠ s.current_iso
  · simp [hc]
  · have e : s.current_iso = to_int v.iso := by
      by_contra hne
      exact hc (fun e => hne e.symm)
    simp only [hc, if_false]
    rw [← e]

theorem update_exp_state (s : ocam_source) (v : obs_settings) :
    (update_exp s v).1 = { s with current_exp := to_int v.exposure } := by
  unfold update_exp
  by_cases hc : to_int v.exposure ≠ s.current_exp
  · simp [hc]
  · have e : s.current_exp = to_int v.exposure := by
      by_contra hne
      exact hc (fun e => hne e.symm)
    simp only [hc, if_false]
    rw [← e]

theorem update_focus_state (s : ocam_source) (v : obs_settings) :
    (update_focus s v).1 = { s with current_focus := to_int v.focus } := by
  unfold update_focus
  by_cases hc : to_int v.focus ≠ s.current_focus
  · simp [hc]
  · have e : s.current_focus = to_int v.focus := by
      by_contra hne
      exact hc (fun e => hne e.symm)
    simp only [hc, if_false]
    rw [← e]

/-- The state after `ocam_update`: every cache field holds the value of the
settings, the resolution only when the string parses. -/
theorem ocam_update_state (s : ocam_source) (v : obs_settings) :
    (ocam_update s v).1
      = { (match sscanf_dxd v.resolution with
            | some (w, h) => { s with current_w := w, current_h := h }
            | none => s) with
          current_fps := to_int v.fps
          current_bitrate := to_int v.bitrate
          current_flash := v.flash
          current_iso := to_int v.iso
          current_exp := to_int v.exposure
          current_focus := to_int v.focus } := by
  simp only [ocam_update, update_focus_state, update_exp_state, update_iso_state,
    update_flash_state, update_bitrate_state, update_fps_state, update_resolution_state]

theorem ocam_update_cache_matches (s : ocam_source) (v : obs_settings) :
    cache_matches (ocam_update s v).1 v := by
  rw [ocam_update_state]
  refine ⟨?_, rfl, rfl, rfl, rfl, rfl, rfl⟩
  intro w h hres
  simp [hres]

theorem ocam_update_of_cache_matches (s : ocam_source) (v : obs_settings)
    (h : cache_matches s v) : ocam_update s v = (s, []) := by
  obtain ⟨hr, h2, h3, h4, h5, h6, h7⟩ := h
  have e1 : update_resolution s v = (s, []) := by
    unfold update_resolution
    cases hres : sscanf_dxd v.resolution with
    | none => rfl
    | some q =>
      obtain ⟨w, h⟩ := q
      have := hr w h hres
      simp [this.1, this.2]
  have e2 : update_fps s v = (s, []) := by simp [update_fps, h2]
  have e3 : update_bitrate s v = (s, []) := by simp [update_bitrate, h3]
  have e4 : update_flash s v = (s, []) := by simp [update_flash, h4]
  have e5 : update_iso s v = (s, []) := by simp [update_iso, h5]
  have e6 : update_exp s v = (s, []) := by simp [update_exp, h6]
  have e7 : update_focus s v = (s, []) := by simp [update_focus, h7]
  simp [ocam_update, e1, e2, e3, e4, e5, e6, e7]

/-- C4: for every source state and every settings value `v`, a second
`ocam_update` with `v` directly after a first one sends no control command and
leaves the state, hence the settings cache, unchanged. -/
theorem ocam_update_idempotent (s : ocam_source) (v : obs_settings) :
    (ocam_update (ocam_update s v).1 v).2 = []
      ∧ settings_cache (ocam_update (ocam_update s v).1 v).1
          = settings_cache (ocam_update s v).1
      ∧ (ocam_update (ocam_update s v).1 v).1 = (ocam_update s v).1 := by
  have h := ocam_update_of_cache_matches _ v (ocam_update_cache_matches s v)
  rw [h]
  exact ⟨rfl, rfl, rfl⟩


/-! ## C5: replay on control connect -/

theorem to_u32_mod (x : Int) : to_u32 x % 4294967296 = to_u32 x :=
  Nat.mod_eq_of_lt (to_u32_lt x)

/-- C5 fails on the freshly created cache: the replay skips every field whose
cached value is unset, so the control server sends only 0x09 (0,0) and
0x05 (0,0), not the seven settings commands. -/
theorem control_connect_fresh_cache :
    (control_connect ocam_create_state 7).2
        = [[9, 0, 0, 0, 0, 0, 0, 0, 0], [5, 0, 0, 0, 0, 0, 0, 0, 0]]
      ∧ command_ids (control_connect ocam_create_state 7).2 ≠ [1, 2, 3, 9, 6, 7, 8, 5] := by
  decide

theorem send_control_command_connected (s : ocam_source) (h : s.control_client_fd ≠ -1)
    (cmd_id arg1 arg2 : Nat) :
    send_control_command s cmd_id arg1 arg2
      = [control_buffer cmd_id (arg1 % 4294967296) (arg2 % 4294967296)] := by
  simp [send_control_command, h]

theorem replay_shape {τ β : Type} (F : τ → β) (g1 g2 g3 g5 g6 g7 : Prop)
    [Decidable g1] [Decidable g2] [Decidable g3] [Decidable g5] [Decidable g6] [Decidable g7]
    (t1 t2 t3 t4 t5 t6 t7 : τ) (y : List β) :
    (if g1 then [F t1] else []) ++ (if g2 then [F t2] else []) ++ (if g3 then [F t3] else [])
        ++ [F t4] ++ (if g5 then [F t5] else []) ++ (if g6 then [F t6] else [])
        ++ (if g7 then [F t7] else []) ++ y
      = (([(decide g1, t1), (decide g2, t2), (decide g3, t3), (true, t4), (decide g5, t5),
            (decide g6, t6), (decide g7, t7)].filter (fun e => e.1)).map (fun e => F e.2)) ++ y := by
  by_cases h1 : g1 <;> by_cases h2 : g2 <;> by_cases h3 : g3 <;> by_cases h5 : g5 <;>
    by_cases h6 : g6 <;> by_cases h7 : g7 <;> simp [h1, h2, h3, h5, h6, h7]

theorem sync_settings_connected (s : ocam_source) (h : s.control_client_fd ≠ -1) :
    sync_settings_to_phone s ++ send_control_command s 0x05 0 0
      = ((spec_replay_table s).filter (fun e => e.1)).map
          (fun e => control_buffer e.2.1 e.2.2.1 e.2.2.2) ++ [control_buffer 0x05 0 0] := by
  have hflash : (if s.current_flash = true then 1 else 0) % 4294967296
      = (if s.current_flash = true then 1 else 0) := by
    cases s.current_flash <;> rfl
  simp only [sync_settings_to_phone, send_control_command_connected s h, spec_replay_table,
    to_u32_mod, hflash, Nat.zero_mod]
  exact replay_shape (fun t : Nat × Nat × Nat => control_buffer t.1 t.2.1 t.2.2)
    (0 < s.current_w ∧ 0 < s.current_h) (0 < s.current_fps) (0 < s.current_bitrate)
    (0 ≤ s.current_iso) (0 ≤ s.current_exp) (-1 ≤ s.current_focus)
    (0x01, to_u32 s.current_w, to_u32 s.current_h) (0x02, to_u32 s.current_fps, 0)
    (0x03, to_u32 (to_int (s.current_bitrate * 1000000)), 0)
    (0x09, if s.current_flash then 1 else 0, 0) (0x06, to_u32 s.current_iso, 0)
    (0x07, to_u32 s.current_exp, 0) (0x08, to_u32 s.current_focus, 0) [control_buffer 0x05 0 0]

theorem control_connect_sent (s : ocam_source) (client : Int) (hclient : client ≠ -1) :
    (control_connect s client).2
      = ((spec_replay_table s).filter (fun e => e.1)).map
          (fun e => control_buffer e.2.1 e.2.2.1 e.2.2.2) ++ [control_buffer 0x05 0 0] :=
  sync_settings_connected { s with control_client_fd := client } hclient

/-- C5 as amended: when a client connects, the control server sends, in the
fixed order resolution 0x01, fps 0x02, bitrate 0x03, flash 0x09, iso 0x06,
exposure 0x07, focus 0x08, the command of every cache field whose value passes
the replay guard (`w > 0` and `h > 0`, `fps > 0`, `bitrate > 0`, flash always,
`iso >= 0`, `exposure >= 0`, `focus >= -1`), each with the cached value as
argument (the bitrate multiplied by 1000000), and then 0x05 (0,0) as the last
command; the ids sent are a subsequence of the fixed order, and all seven are
sent when every guard holds. -/
theorem control_connect_replay (s : ocam_source) (client : Int) (hclient : client ≠ -1) :
    (control_connect s client).2
        = ((spec_replay_table s).filter (fun e => e.1)).map
            (fun e => control_buffer e.2.1 e.2.2.1 e.2.2.2) ++ [control_buffer 0x05 0 0]
      ∧ (command_ids (control_connect s client).2).Sublist [1, 2, 3, 9, 6, 7, 8, 5]
      ∧ (control_connect s client).2.getLast? = some (control_buffer 0x05 0 0)
      ∧ (0 < s.current_w ∧ 0 < s.current_h ∧ 0 < s.current_fps ∧ 0 < s.current_bitrate
          ∧ 0 ≤ s.current_iso ∧ 0 ≤ s.current_exp ∧ -1 ≤ s.current_focus →
          command_ids (control_connect s client).2 = [1, 2, 3, 9, 6, 7, 8, 5]) := by
  have hsent := control_connect_sent s client hclient
  have hids : command_ids (control_connect s client).2
      = ((spec_replay_table s).filter (fun e => e.1)).map (fun e => e.2.1 % 256) ++ [5] := by
    rw [hsent, command_ids, List.map_append, List.map_map]
    rfl
  refine ⟨hsent, ?_, ?_, ?_⟩
  · rw [hids]
    have h1 : (((spec_replay_table s).filter (fun e => e.1)).map (fun e => e.2.1 % 256)).Sublist
        ((spec_replay_table s).map (fun e => e.2.1 % 256)) :=
      List.Sublist.map _ (List.filter_sublist _)
    have h2 : (spec_replay_table s).map (fun e => e.2.1 % 256) = [1, 2, 3, 9, 6, 7, 8] := rfl
    rw [h2] at h1
    exact List.Sublist.append h1 (List.Sublist.refl [5])
  · rw [hsent]
    exact List.getLast?_concat _
  · rintro ⟨h1, h2, h3, h4, h5, h6, h7⟩
    rw [hids]
    have hall : (spec_replay_table s).filter (fun e => e.1) = spec_replay_table s := by
      simp [spec_replay_table, h1, h2, h3, h4, h5, h6, h7]
    rw [hall]
    rfl

/-- C5 as amended, at the cache 1280x720, 30 fps, 2 Mbps, flash off, iso 0,
exposure 0, focus -1 and client descriptor 7. -/
theorem control_connect_replay_witness :
    (control_connect { ocam_create_state with
        current_w := 1280, current_h := 720, current_fps := 30, current_bitrate := 2,
        current_iso := 0, current_exp := 0, current_focus := -1 } 7).2
      = [[1, 0, 0, 5, 0, 0, 0, 2, 208], [2, 0, 0, 0, 30, 0, 0, 0, 0],
         [3, 0, 30, 132, 128, 0, 0, 0, 0], [9, 0, 0, 0, 0, 0, 0, 0, 0],
         [6, 0, 0, 0, 0, 0, 0, 0, 0], [7, 0, 0, 0, 0, 0, 0, 0, 0],
         [8, 255, 255, 255, 255, 0, 0, 0, 0], [5, 0, 0, 0, 0, 0, 0, 0, 0]] :=
  (control_connect_replay { ocam_create_state with
        current_w := 1280, current_h := 720, current_fps := 30, current_bitrate := 2,
        current_iso := 0, current_exp := 0, current_focus := -1 } 7 (by decide)).1.trans
    (by decide)


/-! ## C6: video timestamp reconciliation -/

theorem video_frames_spec (pts_ns : Int) (frames : List video_frame) :
    ∀ s : ocam_source,
      (video_frames pts_ns s frames).1.timestamp_offset = s.timestamp_offset
        ∧ (video_frames pts_ns s frames).1.first_frame_received = s.first_frame_received
        ∧ (video_frames pts_ns s frames).1.codec_initialized = s.codec_initialized
        ∧ ∀ t ∈ (video_frames pts_ns s frames).2,
            t = to_u64 (to_i64 (pts_ns + s.timestamp_offset)) := by
  induction frames with
  | nil => intro s; exact ⟨rfl, rfl, rfl, fun t ht => absurd ht (List.not_mem_nil t)⟩
  | cons f rest ih =>
    intro s
    unfold video_frames
    by_cases hdim : f.width % 4294967296 ≠ s.width ∨ f.height % 4294967296 ≠ s.height
    · have h := ih { s with width := f.width % 4294967296, height := f.height % 4294967296 }
      rw [if_pos hdim]
      cases hf : f.format_ok
      · exact h
      · refine ⟨h.1, h.2.1, h.2.2.1, ?_⟩
        intro t ht
        rcases List.mem_cons.1 ht with ht | ht
        · exact ht
        · exact h.2.2.2 t ht
    · have h := ih s
      rw [if_neg hdim]
      cases hf : f.format_ok
      · exact h
      · refine ⟨h.1, h.2.1, h.2.2.1, ?_⟩
        intro t ht
        rcases List.mem_cons.1 ht with ht | ht
        · exact ht
        · exact h.2.2.2 t ht

theorem video_config_fields (s : ocam_source) (p : video_packet) :
    (video_config s p).timestamp_offset = s.timestamp_offset
      ∧ (video_config s p).codec_initialized = s.codec_initialized
      ∧ (p.pts = 0 → (video_config s p).first_frame_received = false)
      ∧ (p.pts ≠ 0 → video_config s p = s) := by
  unfold video_config
  by_cases h0 : p.pts = 0
  · rw [if_pos h0]
    cases p.realloc_ok
    · exact ⟨rfl, rfl, fun _ => rfl, fun h => absurd h0 h⟩
    · exact ⟨rfl, rfl, fun _ => rfl, fun h => absurd h0 h⟩
  · rw [if_neg h0]
    exact ⟨rfl, rfl, fun h => absurd h h0, fun _ => rfl⟩

theorem video_init_fields (s : ocam_source) (p : video_packet) :
    (video_init s p).1.timestamp_offset = s.timestamp_offset
      ∧ (video_init s p).1.first_frame_received = s.first_frame_received
      ∧ (s.codec_initialized = true ∨ p.init_ok = true →
          (video_init s p).2 = true ∧ (video_init s p).1.codec_initialized = true) := by
  unfold video_init init_ffmpeg
  cases hi : s.codec_initialized <;> cases hk : p.init_ok
  · exact ⟨rfl, rfl, fun h => by simp at h⟩
  · exact ⟨rfl, rfl, fun _ => ⟨rfl, rfl⟩⟩
  · exact ⟨rfl, rfl, fun _ => ⟨rfl, hi⟩⟩
  · exact ⟨rfl, rfl, fun _ => ⟨rfl, hi⟩⟩

theorem video_anchor_fields (s : ocam_source) (p : video_packet) :
    (video_anchor s p).codec_initialized = s.codec_initialized
      ∧ (p.pts = 0 → video_anchor s p = s)
      ∧ (s.first_frame_received = true → video_anchor s p = s)
      ∧ (s.first_frame_received = false → 0 < p.pts →
          (video_anchor s p).timestamp_offset = to_i64 (to_i64 (p.now : Int) - video_pts_ns p)
            ∧ (video_anchor s p).first_frame_received = true) := by
  unfold video_anchor
  by_cases hc : s.first_frame_received = false ∧ 0 < p.pts
  · rw [if_pos hc]
    refine ⟨rfl, fun h => ?_, fun h => ?_, fun _ _ => ⟨rfl, rfl⟩⟩
    · omega
    · rw [hc.1] at h
      exact absurd h (by decide)
  · rw [if_neg hc]
    exact ⟨rfl, fun _ => rfl, fun _ => rfl, fun h1 h2 => absurd ⟨h1, h2⟩ hc⟩

/-- The fields of the state after one packet whose decoder is available, in
terms of the state after the anchoring block. -/
theorem video_step_available (s : ocam_source) (p : video_packet)
    (hinit : s.codec_initialized = true ∨ p.init_ok = true) :
    (video_packet_step s p).go_on = true
      ∧ (video_packet_step s p).state.timestamp_offset
          = (video_anchor (video_init (video_config s p) p).1 p).timestamp_offset
      ∧ (video_packet_step s p).state.first_frame_received
          = (video_anchor (video_init (video_config s p) p).1 p).first_frame_received
      ∧ (video_packet_step s p).state.codec_initialized = true
      ∧ ∀ t ∈ (video_packet_step s p).emitted,
          t = to_u64 (to_i64 (video_pts_ns p
            + (video_anchor (video_init (video_config s p) p).1 p).timestamp_offset)) := by
  have hc := video_config_fields s p
  have hi := video_init_fields (video_config s p) p
  have hi2 := hi.2.2 (by rw [hc.2.1]; exact hinit)
  have ha := video_anchor_fields (video_init (video_config s p) p).1 p
  have hne : ¬ ((video_init (video_config s p) p).2 = false) := by
    rw [hi2.1]
    decide
  unfold video_packet_step
  dsimp only []
  rw [if_neg hne]
  cases hs : p.send_ok
  · rw [if_neg (by decide)]
    refine ⟨rfl, rfl, rfl, ?_, fun t ht => absurd ht (List.not_mem_nil t)⟩
    show (video_anchor (video_init (video_config s p) p).1 p).codec_initialized = true
    rw [ha.1]
    exact hi2.2
  · rw [if_pos rfl]
    have hf := video_frames_spec (video_pts_ns p) p.frames
      (video_anchor (video_init (video_config s p) p).1 p)
    refine ⟨rfl, hf.1, hf.2.1, ?_, hf.2.2.2⟩
    show (video_frames (video_pts_ns p) (video_anchor (video_init (video_config s p) p).1 p)
      p.frames).1.codec_initialized = true
    rw [hf.2.2.1, ha.1]
    exact hi2.2

/-- A packet with timestamp 0 leaves `timestamp_offset` alone, whether or not
the loop goes on. -/
theorem video_step_zero (s : ocam_source) (p : video_packet) (h0 : p.pts = 0) :
    (video_packet_step s p).state.timestamp_offset = s.timestamp_offset := by
  have hc := video_config_fields s p
  have hi := video_init_fields (video_config s p) p
  have ha := video_anchor_fields (video_init (video_config s p) p).1 p
  have hoff : (video_anchor (video_init (video_config s p) p).1 p).timestamp_offset
      = s.timestamp_offset := by
    rw [ha.2.1 h0, hi.1, hc.1]
  unfold video_packet_step
  dsimp only []
  by_cases hb : (video_init (video_config s p) p).2 = false
  · rw [if_pos hb]
    show (video_init (video_config s p) p).1.timestamp_offset = s.timestamp_offset
    rw [hi.1, hc.1]
  · rw [if_neg hb]
    cases hs : p.send_ok
    · rw [if_neg (by decide)]
      exact hoff
    · rw [if_pos rfl]
      have hf := video_frames_spec (video_pts_ns p) p.frames
        (video_anchor (video_init (video_config s p) p).1 p)
      exact hf.1.trans hoff

/-- A packet with timestamp 0 whose decoder is available keeps the loop going
and leaves `first_frame_received = false`. -/
theorem video_step_zero_flag (s : ocam_source) (p : video_packet) (h0 : p.pts = 0)
    (hinit : s.codec_initialized = true ∨ p.init_ok = true) :
    (video_packet_step s p).go_on = true
      ∧ (video_packet_step s p).state.first_frame_received = false := by
  have hc := video_config_fields s p
  have hi := video_init_fields (video_config s p) p
  have ha := video_anchor_fields (video_init (video_config s p) p).1 p
  have h := video_step_available s p hinit
  refine ⟨h.1, ?_⟩
  rw [h.2.2.1, ha.2.1 h0, hi.2.1]
  exact hc.2.2.1 h0

theorem wrap_anchor (now pts : Nat) :
    to_i64 (to_i64 (now : Int) - to_i64 (to_i64 (pts : Int) * 1000))
      = to_i64 ((now : Int) - (pts : Int) * 1000) := by
  unfold to_i64
  omega

theorem wrap_first_frame (now pts : Nat) (hnow : now < 18446744073709551616) :
    to_u64 (to_i64 (to_i64 (to_i64 (pts : Int) * 1000)
      + to_i64 ((now : Int) - (pts : Int) * 1000))) = now := by
  unfold to_i64 to_u64
  omega

theorem wrap_later_frame (pts : Nat) (off : Int) :
    to_u64 (to_i64 (to_i64 (to_i64 (pts : Int) * 1000) + off))
      = to_u64 ((pts : Int) * 1000 + off) := by
  unfold to_i64 to_u64
  omega

/-- The first packet with a nonzero timestamp anchors the clock. -/
theorem video_step_anchor (s : ocam_source) (p : video_packet) (hp : 0 < p.pts)
    (hnow : p.now < 18446744073709551616) (hfirst : s.first_frame_received = false)
    (hinit : s.codec_initialized = true ∨ p.init_ok = true) :
    (video_packet_step s p).go_on = true
      ∧ (video_packet_step s p).state.timestamp_offset
          = to_i64 ((p.now : Int) - (p.pts : Int) * 1000)
      ∧ (video_packet_step s p).state.first_frame_received = true
      ∧ (video_packet_step s p).state.codec_initialized = true
      ∧ ∀ t ∈ (video_packet_step s p).emitted, t = p.now := by
  have hc := video_config_fields s p
  have hi := video_init_fields (video_config s p) p
  have ha := video_anchor_fields (video_init (video_config s p) p).1 p
  have h := video_step_available s p hinit
  have hflag : (video_init (video_config s p) p).1.first_frame_received = false := by
    rw [hi.2.1, hc.2.2.2 (by omega)]
    exact hfirst
  have hanch := ha.2.2.2 hflag hp
  have hoff : (video_anchor (video_init (video_config s p) p).1 p).timestamp_offset
      = to_i64 ((p.now : Int) - (p.pts : Int) * 1000) := by
    rw [hanch.1, video_pts_ns, wrap_anchor]
  refine ⟨h.1, h.2.1.trans hoff, h.2.2.1.trans hanch.2, h.2.2.2.1, ?_⟩
  intro t ht
  rw [h.2.2.2.2 t ht, hoff, video_pts_ns, wrap_first_frame p.now p.pts hnow]

/-- A later packet with a nonzero timestamp keeps the offset and stamps its
frames with it. -/
theorem video_step_later (s : ocam_source) (p : video_packet) (hp : 0 < p.pts)
    (hfirst : s.first_frame_received = true) (hinit : s.codec_initialized = true) :
    (video_packet_step s p).go_on = true
      ∧ (video_packet_step s p).state.timestamp_offset = s.timestamp_offset
      ∧ (video_packet_step s p).state.first_frame_received = true
      ∧ (video_packet_step s p).state.codec_initialized = true
      ∧ ∀ t ∈ (video_packet_step s p).emitted,
          t = to_u64 ((p.pts : Int) * 1000 + s.timestamp_offset) := by
  have hc := video_config_fields s p
  have hi := video_init_fields (video_config s p) p
  have ha := video_anchor_fields (video_init (video_config s p) p).1 p
  have h := video_step_available s p (Or.inl hinit)
  have hcfg : video_config s p = s := hc.2.2.2 (by omega)
  have hflag : (video_init (video_config s p) p).1.first_frame_received = true := by
    rw [hi.2.1, hcfg]
    exact hfirst
  have hsame := ha.2.2.1 hflag
  have hoff : (video_anchor (video_init (video_config s p) p).1 p).timestamp_offset
      = s.timestamp_offset := by
    rw [hsame, hi.1, hcfg]
  refine ⟨h.1, h.2.1.trans hoff, ?_, h.2.2.2.1, ?_⟩
  · rw [h.2.2.1, hsame]
    exact hflag
  · intro t ht
    rw [h.2.2.2.2 t ht, hoff, video_pts_ns, wrap_later_frame]

/-- After the anchor, a run of packets with nonzero timestamps keeps the
offset; the frames of each packet carry `pts * 1000 + offset`. -/
theorem video_packets_later (later : List video_packet) :
    ∀ s : ocam_source, s.first_frame_received = true → s.codec_initialized = true →
      (∀ p ∈ later, 0 < p.pts) →
      (video_packets s later).1.timestamp_offset = s.timestamp_offset
        ∧ List.Forall₂
            (fun (p : video_packet) (ts : List Nat) =>
              ∀ t ∈ ts, t = to_u64 ((p.pts : Int) * 1000 + s.timestamp_offset))
            later (video_packets s later).2 := by
  induction later with
  | nil => intro s _ _ _; exact ⟨rfl, List.Forall₂.nil⟩
  | cons p rest ih =>
    intro s hfirst hinit hpos
    have hstep := video_step_later s p (hpos p (List.mem_cons_self _ _)) hfirst hinit
    have hrest := ih (video_packet_step s p).state hstep.2.2.1 hstep.2.2.2.1
      (fun q hq => hpos q (List.mem_cons_of_mem _ hq))
    unfold video_packets
    dsimp only []
    rw [if_pos hstep.1]
    rw [hstep.2.1] at hrest
    exact ⟨hrest.1, List.Forall₂.cons hstep.2.2.2.2 hrest.2⟩

/-- A run of configuration packets followed by the first packet with a
nonzero timestamp and by later packets with nonzero timestamps. -/
theorem video_packets_anchor_run (first : video_packet) (later : List video_packet)
    (hf : 0 < first.pts) (hnow : first.now < 18446744073709551616)
    (hfi : first.init_ok = true) (hl : ∀ p ∈ later, 0 < p.pts) (zeros : List video_packet) :
    ∀ s : ocam_source, s.first_frame_received = false →
      (∀ p ∈ zeros, p.pts = 0 ∧ p.init_ok = true) →
      (video_packets s zeros).1.timestamp_offset = s.timestamp_offset
        ∧ (video_packets s (zeros ++ first :: later)).1.timestamp_offset
            = to_i64 ((first.now : Int) - (first.pts : Int) * 1000)
        ∧ (∀ t ∈ (video_packets s (zeros ++ first :: later)).2.getD zeros.length [],
            t = first.now)
        ∧ List.Forall₂
            (fun (p : video_packet) (ts : List Nat) =>
              ∀ t ∈ ts, t = to_u64 ((p.pts : Int) * 1000
                + to_i64 ((first.now : Int) - (first.pts : Int) * 1000)))
            later ((video_packets s (zeros ++ first :: later)).2.drop (zeros.length + 1)) := by
  induction zeros with
  | nil =>
    intro s hs _
    have hstep := video_step_anchor s first hf hnow hs (Or.inr hfi)
    have hrest := video_packets_later later (video_packet_step s first).state hstep.2.2.1
      hstep.2.2.2.1 hl
    rw [hstep.2.1] at hrest
    have e : video_packets s ([] ++ first :: later)
        = ((video_packets (video_packet_step s first).state later).1,
            (video_packet_step s first).emitted
              :: (video_packets (video_packet_step s first).state later).2) := by
      rw [List.nil_append]
      conv_lhs => unfold video_packets
      dsimp only []
      rw [if_pos hstep.1]
    rw [e]
    exact ⟨rfl, hrest.1, hstep.2.2.2.2, hrest.2⟩
  | cons z zs ih =>
    intro s hs hz
    have hz0 := hz z (List.mem_cons_self _ _)
    have hflag := video_step_zero_flag s z hz0.1 (Or.inr hz0.2)
    have hoff := video_step_zero s z hz0.1
    have hrec := ih (video_packet_step s z).state hflag.2
      (fun q hq => hz q (List.mem_cons_of_mem _ hq))
    have e1 : video_packets s (z :: zs)
        = ((video_packets (video_packet_step s z).state zs).1,
            (video_packet_step s z).emitted
              :: (video_packets (video_packet_step s z).state zs).2) := by
      conv_lhs => unfold video_packets
      dsimp only []
      rw [if_pos hflag.1]
    have e2 : video_packets s ((z :: zs) ++ first :: later)
        = ((video_packets (video_packet_step s z).state (zs ++ first :: later)).1,
            (video_packet_step s z).emitted
              :: (video_packets (video_packet_step s z).state (zs ++ first :: later)).2) := by
      rw [List.cons_append]
      conv_lhs => unfold video_packets
      dsimp only []
      rw [if_pos hflag.1]
    rw [e1, e2]
    refine ⟨hrec.1.trans hoff, hrec.2.1, ?_, ?_⟩
    · simpa using hrec.2.2.1
    · simpa using hrec.2.2.2

/-- C6: in one video session that starts with `first_frame_received = false`
(no decoder initialisation failing), a packet with timestamp 0 never sets
`timestamp_offset`; the first packet with a nonzero timestamp `t` sets
`timestamp_offset = clock_now - t*1000` and every frame emitted for it carries
the clock at receipt; every later packet with a nonzero timestamp `u` leaves
the offset unchanged and its frames carry `u*1000 + timestamp_offset`.  The
equalities are those of the 64-bit variables of the code (`int64_t` offset,
`uint64_t` frame timestamp); they are exact over the integers whenever
`t*1000`, the clock and the frame timestamp fit their types. -/
theorem video_timestamp_reconciliation (s : ocam_source) (zeros : List video_packet)
    (first : video_packet) (later : List video_packet)
    (hs : s.first_frame_received = false)
    (hz : ∀ p ∈ zeros, p.pts = 0 ∧ p.init_ok = true)
    (hf : 0 < first.pts) (hfi : first.init_ok = true)
    (hnow : first.now < 18446744073709551616)
    (hl : ∀ p ∈ later, 0 < p.pts) :
    (∀ (s0 : ocam_source) (p : video_packet), p.pts = 0 →
        (video_packet_step s0 p).state.timestamp_offset = s0.timestamp_offset)
      ∧ (video_packets s zeros).1.timestamp_offset = s.timestamp_offset
      ∧ (video_packets s (zeros ++ first :: later)).1.timestamp_offset
          = to_i64 ((first.now : Int) - (first.pts : Int) * 1000)
      ∧ ((first.pts : Int) * 1000 < 9223372036854775808 →
          (first.now : Int) < 9223372036854775808 →
          (video_packets s (zeros ++ first :: later)).1.timestamp_offset
            = (first.now : Int) - (first.pts : Int) * 1000)
      ∧ (∀ t ∈ (video_packets s (zeros ++ first :: later)).2.getD zeros.length [],
          t = first.now)
      ∧ List.Forall₂
          (fun (p : video_packet) (ts : List Nat) =>
            ∀ t ∈ ts,
              t = to_u64 ((p.pts : Int) * 1000
                + (video_packets s (zeros ++ first :: later)).1.timestamp_offset)
              ∧ (0 ≤ (p.pts : Int) * 1000
                    + (video_packets s (zeros ++ first :: later)).1.timestamp_offset →
                  (p.pts : Int) * 1000
                    + (video_packets s (zeros ++ first :: later)).1.timestamp_offset
                    < 18446744073709551616 →
                  (t : Int) = (p.pts : Int) * 1000
                    + (video_packets s (zeros ++ first :: later)).1.timestamp_offset))
          later ((video_packets s (zeros ++ first :: later)).2.drop (zeros.length + 1)) := by
  have h := video_packets_anchor_run first later hf hnow hfi hl zeros s hs hz
  refine ⟨video_step_zero, h.1, h.2.1, ?_, h.2.2.1, ?_⟩
  · intro h1 h2
    rw [h.2.1]
    unfold to_i64
    omega
  · rw [h.2.1]
    refine List.Forall₂.imp ?_ h.2.2.2
    intro p ts hp t ht
    refine ⟨hp t ht, ?_⟩
    intro h1 h2
    rw [hp t ht]
    unfold to_u64
    omega

/-- C6 at the device timestamps `[0, 1000, 2000]`: the packet with timestamp 0
is a configuration packet, the packet with timestamp 1000 arrives at clock
5000000 and anchors the offset at 4000000, its frame carries 5000000, and the
frame of the third packet carries `2000*1000 + 4000000`. -/
theorem video_timestamp_reconciliation_witness :
    (video_packets ocam_create_state
        ([{ pts := 0, payload := [1, 2, 3], realloc_ok := true, init_ok := true, now := 4999000,
            send_ok := true, frames := [] }]
          ++ { pts := 1000, payload := [4], realloc_ok := true, init_ok := true, now := 5000000,
               send_ok := true, frames := [{ width := 1280, height := 720, format_ok := true }] }
          :: [{ pts := 2000, payload := [5], realloc_ok := true, init_ok := true,
                now := 5001000, send_ok := true,
                frames := [{ width := 1280, height := 720, format_ok := true }] }])).1.timestamp_offset
        = 4000000
      ∧ (video_packets ocam_create_state
        ([{ pts := 0, payload := [1, 2, 3], realloc_ok := true, init_ok := true, now := 4999000,
            send_ok := true, frames := [] }]
          ++ { pts := 1000, payload := [4], realloc_ok := true, init_ok := true, now := 5000000,
               send_ok := true, frames := [{ width := 1280, height := 720, format_ok := true }] }
          :: [{ pts := 2000, payload := [5], realloc_ok := true, init_ok := true,
                now := 5001000, send_ok := true,
                frames := [{ width := 1280, height := 720, format_ok := true }] }])).2
        = [[], [5000000], [2000 * 1000 + 4000000]] :=
  ⟨(video_timestamp_reconciliation ocam_create_state
      [{ pts := 0, payload := [1, 2, 3], realloc_ok := true, init_ok := true, now := 4999000,
         send_ok := true, frames := [] }]
      { pts := 1000, payload := [4], realloc_ok := true, init_ok := true, now := 5000000,
        send_ok := true, frames := [{ width := 1280, height := 720, format_ok := true }] }
      [{ pts := 2000, payload := [5], realloc_ok := true, init_ok := true, now := 5001000,
         send_ok := true, frames := [{ width := 1280, height := 720, format_ok := true }] }]
      rfl (by decide) (by decide) rfl (by decide) (by decide)).2.2.1.trans (by decide),
    by decide⟩


/-! ## C7: `read_bytes_fully` over fragmented reads -/

theorem to_int_small (m : Nat) (h : m < 2147483648) : to_int (m : Int) = (m : Int) := by
  unfold to_int
  omega

theorem stream_unread (left : List Nat) (rest : List SockEvent) :
    stream (unread left rest) = left ++ stream rest := by
  cases left with
  | nil => rfl
  | cons b bs => simp [unread, stream]

theorem all_data_unread (left : List Nat) (rest : List SockEvent) :
    all_data (unread left rest) = all_data rest := by
  cases left with
  | nil => rfl
  | cons b bs => rfl

theorem write_at_nil (buf : List Nat) (off : Nat) : write_at buf off [] = buf := by
  simp [write_at]

theorem write_at_length (buf : List Nat) (off : Nat) (bytes : List Nat) (h : off ≤ buf.length) :
    off + bytes.length ≤ (write_at buf off bytes).length := by
  simp only [write_at, List.length_append, List.length_take, List.length_drop]
  omega

theorem write_at_write_at (buf : List Nat) (off : Nat) (b1 b2 : List Nat)
    (h : off ≤ buf.length) :
    write_at (write_at buf off b1) (off + b1.length) b2 = write_at buf off (b1 ++ b2) := by
  have ht : (buf.take off).length = off := by simp [h]
  have e1 : (buf.take off ++ b1 ++ buf.drop (off + b1.length)).take (off + b1.length)
      = buf.take off ++ b1 := by
    rw [List.take_append_of_le_length (by simp [ht])]
    rw [List.take_of_length_le (by simp [ht])]
  have e2 : (buf.take off ++ b1 ++ buf.drop (off + b1.length)).drop (off + b1.length + b2.length)
      = buf.drop (off + (b1 ++ b2).length) := by
    have : off + b1.length + b2.length = (buf.take off ++ b1).length + b2.length := by
      simp [ht]
    rw [this, List.drop_append, List.drop_drop]
    simp
    congr 1
    omega
  unfold write_at
  rw [e1, e2]
  simp only [List.append_assoc]

theorem to_int_pos (m : Nat) (h : 0 < to_int (m : Int)) :
    0 < (to_int (m : Int)).toNat ∧ (to_int (m : Int)).toNat ≤ m
      ∧ (((to_int (m : Int)).toNat : Nat) : Int) = to_int (m : Int) := by
  unfold to_int at h ⊢
  omega

/-- One pass of the loop of `read_bytes_fully` when bytes are waiting. -/
theorem read_loop_pass (fuel a : Nat) (b : Nat) (bs : List Nat) (rest : List SockEvent)
    (calls : List (Int × Int)) (buf : List Nat) (len total_read : Nat)
    (hlt : total_read < len) :
    read_loop (fuel + 1) { alive := a + 2, events := SockEvent.data b bs :: rest, calls := calls }
        buf len total_read
      = if (recv_call (SockEvent.data b bs :: rest)
            (to_int ((len - total_read : Nat) : Int))).1 ≤ 0 then
          { ret := (recv_call (SockEvent.data b bs :: rest)
              (to_int ((len - total_read : Nat) : Int))).1,
            buf := buf,
            world :=
              { alive := a,
                events := (recv_call (SockEvent.data b bs :: rest)
                  (to_int ((len - total_read : Nat) : Int))).2.2,
                calls := calls ++ [(to_int ((len - total_read : Nat) : Int),
                  (recv_call (SockEvent.data b bs :: rest)
                    (to_int ((len - total_read : Nat) : Int))).1)] } }
        else
          read_loop fuel
            { alive := a,
              events := (recv_call (SockEvent.data b bs :: rest)
                (to_int ((len - total_read : Nat) : Int))).2.2,
              calls := calls ++ [(to_int ((len - total_read : Nat) : Int),
                (recv_call (SockEvent.data b bs :: rest)
                  (to_int ((len - total_read : Nat) : Int))).1)] }
            (write_at buf total_read (recv_call (SockEvent.data b bs :: rest)
              (to_int ((len - total_read : Nat) : Int))).2.1)
            len
            (total_read + (recv_call (SockEvent.data b bs :: rest)
              (to_int ((len - total_read : Nat) : Int))).1.toNat) := by
  have hw : wait_for_socket (a + 1) (SockEvent.data b bs :: rest)
      = (true, a, SockEvent.data b bs :: rest) := rfl
  rw [read_loop, if_pos hlt]
  dsimp only []
  rw [hw]

theorem recv_call_data_nonpos (b : Nat) (bs : List Nat) (rest : List SockEvent) (request : Int)
    (h : request ≤ 0) : (recv_call (SockEvent.data b bs :: rest) request).1 ≤ 0 := by
  by_cases hneg : request < 0
  · simp only [recv_call, hneg, if_true]
    decide
  · have e : request.toNat = 0 := by omega
    simp only [recv_call, hneg, if_false, e, List.take_zero]
    decide

theorem recv_call_data_pos (b : Nat) (bs : List Nat) (rest : List SockEvent) (request : Int)
    (h : 0 < request) :
    recv_call (SockEvent.data b bs :: rest) request
      = (((((b :: bs).take request.toNat).length : Nat) : Int), (b :: bs).take request.toNat,
          unread ((b :: bs).drop request.toNat) rest) := by
  have hneg : ¬ request < 0 := by omega
  simp only [recv_call, hneg, if_false]

theorem chunk_split (c S : List Nat) (q : Nat) :
    c.take q = (c ++ S).take (c.take q).length
      ∧ c.drop q ++ S = (c ++ S).drop (c.take q).length := by
  by_cases h : q ≤ c.length
  · have hk : (c.take q).length = q := by simp [h]
    rw [hk, List.take_append_of_le_length h, List.drop_append_of_le_length h]
    exact ⟨rfl, rfl⟩
  · have hk : (c.take q).length = c.length := by simp; omega
    rw [hk, List.take_of_length_le (by omega), List.drop_of_length_le (l := c) (by omega)]
    simp

theorem take_split (l : List Nat) (k m : Nat) (h : k ≤ m) :
    l.take k ++ (l.drop k).take (m - k) = l.take m := by
  have e : m = k + (m - k) := by omega
  conv_rhs => rw [e, List.take_add]

theorem all_data_head (events : List SockEvent) (h : all_data events = true)
    (hs : 0 < (stream events).length) :
    ∃ b bs rest, events = SockEvent.data b bs :: rest ∧ all_data rest = true := by
  cases events with
  | nil => simp [stream] at hs
  | cons e rest =>
    cases e with
    | data b bs => exact ⟨b, bs, rest, rfl, h⟩
    | timeout => simp [all_data] at h
    | eintr => simp [all_data] at h
    | selerr => simp [all_data] at h
    | eof => simp [all_data] at h
    | rerr => simp [all_data] at h

theorem pass_arith (len total fuel a k q S : Nat) (request : Int)
    (hle : total ≤ len) (hfuel : len - total ≤ fuel + 1) (hstream : len - total ≤ S)
    (halive : 2 * (len - total) ≤ a + 2) (hk1 : 0 < k) (hk2 : k ≤ q) (hq2 : q ≤ len - total)
    (hq3 : (q : Int) = request) :
    total + k ≤ len ∧ len - (total + k) ≤ fuel ∧ len - total - k ≤ S - k
      ∧ 2 * (len - (total + k)) ≤ a ∧ len - (total + k) = len - total - k
      ∧ k ≤ len - total ∧ k + (len - total - k) = len - total
      ∧ request ≤ ((len - total : Nat) : Int) ∧ 0 < (k : Int) ∧ (k : Int) ≤ request
      ∧ ¬ ((k : Int) ≤ 0)
      ∧ (len - total < 2147483648 → len - (total + k) < 2147483648) := by
  omega

theorem calls_positive_contra (calls : List (Int × Int)) (request returned : Int)
    (hle0 : returned ≤ 0)
    (hpos : ∀ new : List (Int × Int), calls ++ [(request, returned)] = calls ++ new →
      ∀ c ∈ new, 0 < c.2) : False := by
  have h1 := hpos [(request, returned)] rfl
  have h2 : 0 < returned := h1 (request, returned) (List.mem_cons_self _ _)
  exact absurd h2 (not_lt.2 hle0)

theorem take_pos_length (b : Nat) (bs : List Nat) (q : Nat) (hq : 0 < q) :
    0 < ((b :: bs).take q).length := by
  cases q with
  | zero => exact absurd hq (Nat.lt_irrefl 0)
  | succ q => simp

/-- The loop of `read_bytes_fully` on a socket that delivers bytes in
non-empty fragments, with the running flag staying true long enough, when the
length still missing fits an `int` or every `recv` of the run returns a
positive number of bytes. -/
theorem read_loop_data (fuel : Nat) :
    ∀ (w : World) (buf : List Nat) (len total_read : Nat),
      total_read ≤ len → len - total_read ≤ fuel →
      all_data w.events = true → len - total_read ≤ (stream w.events).length →
      2 * (len - total_read) ≤ w.alive → total_read ≤ buf.length →
      (len - total_read < 2147483648
        ∨ ∀ new, (read_loop fuel w buf len total_read).world.calls = w.calls ++ new →
            ∀ c ∈ new, 0 < c.2) →
      (read_loop fuel w buf len total_read).ret = (len : Int)
        ∧ (read_loop fuel w buf len total_read).buf
            = write_at buf total_read ((stream w.events).take (len - total_read))
        ∧ all_data (read_loop fuel w buf len total_read).world.events = true
        ∧ stream (read_loop fuel w buf len total_read).world.events
            = (stream w.events).drop (len - total_read)
        ∧ w.alive ≤ (read_loop fuel w buf len total_read).world.alive + 2 * (len - total_read)
        ∧ ∃ new, (read_loop fuel w buf len total_read).world.calls = w.calls ++ new
            ∧ calls_track (len - total_read) new = true := by
  induction fuel with
  | zero =>
    intro w buf len total_read hle hfuel hall _ _ _ _
    have e : len - total_read = 0 := Nat.le_zero.1 hfuel
    have e2 : total_read = len := Nat.le_antisymm hle (Nat.sub_eq_zero_iff_le.1 e)
    rw [e]
    refine ⟨by rw [e2]; rfl, ?_, hall, rfl, Nat.le_refl _, [], ?_, rfl⟩
    · rw [List.take_zero, write_at_nil]; rfl
    · rw [List.append_nil]; rfl
  | succ fuel ih =>
    intro w buf len total_read hle hfuel hall hstream halive hbuf hrun
    by_cases hlt : total_read < len
    · obtain ⟨alive, events, calls⟩ := w
      simp only at hall hstream halive hrun
      have hmpos : 0 < len - total_read := Nat.sub_pos_of_lt hlt
      obtain ⟨b, bs, rest, hev, hrest⟩ := all_data_head events hall
        (Nat.lt_of_lt_of_le hmpos hstream)
      obtain ⟨a, ha⟩ : ∃ a, alive = a + 2 :=
        ⟨alive - 2, (Nat.sub_add_cancel (Nat.le_trans (Nat.mul_le_mul_left 2 hmpos) halive)).symm⟩
      subst hev ha
      rw [read_loop_pass fuel a b bs rest calls buf len total_read hlt] at hrun ⊢
      by_cases hreq : 0 < to_int ((len - total_read : Nat) : Int)
      · obtain ⟨hq1, hq2, hq3⟩ := to_int_pos (len - total_read) hreq
        have hrecv := recv_call_data_pos b bs rest _ hreq
        rw [hrecv] at hrun ⊢
        clear hrecv
        generalize hqdef : (to_int ((len - total_read : Nat) : Int)).toNat = q at *
        generalize hrdef : to_int ((len - total_read : Nat) : Int) = request at *
        clear hqdef hrdef
        have hk1 : 0 < ((b :: bs).take q).length := take_pos_length b bs q hq1
        have hk2 : ((b :: bs).take q).length ≤ q := List.length_take_le _ _
        obtain ⟨p1, p2, p3, p4, p5, p6, p7, p8, p9, p10, p11, p12⟩ :=
          pass_arith len total_read fuel a ((b :: bs).take q).length q
            (stream (SockEvent.data b bs :: rest)).length request hle hfuel hstream halive
            hk1 hk2 hq2 hq3
        dsimp only [] at hrun ⊢
        rw [if_neg p11, Int.toNat_ofNat] at hrun ⊢
        have hsplit := chunk_split (b :: bs) (stream rest) q
        have hs0 : stream (SockEvent.data b bs :: rest) = (b :: bs) ++ stream rest := rfl
        have hs1 : stream (unread ((b :: bs).drop q) rest)
            = (stream (SockEvent.data b bs :: rest)).drop ((b :: bs).take q).length := by
          rw [stream_unread, hs0]
          exact hsplit.2
        have hrec := ih
          { alive := a, events := unread ((b :: bs).drop q) rest,
            calls := calls ++ [(request, ((((b :: bs).take q).length : Nat) : Int))] }
          (write_at buf total_read ((b :: bs).take q)) len
          (total_read + ((b :: bs).take q).length)
          p1 p2
          (by rw [all_data_unread]; exact hrest)
          (by rw [hs1, List.length_drop, p5]; exact p3)
          p4
          (write_at_length buf total_read _ hbuf)
          (by
            rcases hrun with hsmall | hpos
            · exact Or.inl (p12 hsmall)
            · refine Or.inr (fun new hnew c hc => ?_)
              refine hpos ((request, ((((b :: bs).take q).length : Nat) : Int)) :: new) ?_ c
                (List.mem_cons_of_mem _ hc)
              rw [hnew]
              simp)
        obtain ⟨r1, r2, r3, r4, r5, new, r6, r7⟩ := hrec
        simp only [hs1, p5] at r2 r4 r5 r7
        refine ⟨r1, ?_, r3, ?_, ?_, ?_⟩
        · have hg : (b :: bs).take q
              = (stream (SockEvent.data b bs :: rest)).take ((b :: bs).take q).length :=
            hsplit.1
          rw [r2, write_at_write_at buf total_read _ _ hbuf]
          conv_rhs => rw [← take_split _ _ _ p6, ← hg]
        · rw [r4, List.drop_drop, p7]
        · show a + 2 ≤ _
          clear hrun ih r2 r4 r6 r7 hs1 hs0 hsplit
          omega
        · refine ⟨(request, ((((b :: bs).take q).length : Nat) : Int)) :: new, ?_, ?_⟩
          · rw [r6]
            simp
          · show (decide (request ≤ ((len - total_read : Nat) : Int))
                && decide (0 < ((((b :: bs).take q).length : Nat) : Int))
                && decide (((((b :: bs).take q).length : Nat) : Int) ≤ request)
                && calls_track (len - total_read
                    - ((((b :: bs).take q).length : Nat) : Int).toNat) new) = true
            rw [Int.toNat_ofNat, r7, decide_eq_true p8, decide_eq_true p9, decide_eq_true p10]
            rfl
      · have hle0 := recv_call_data_nonpos b bs rest (to_int ((len - total_read : Nat) : Int))
          (Int.not_lt.1 hreq)
        rw [if_pos hle0] at hrun
        dsimp only [] at hrun
        exfalso
        rcases hrun with hsmall | hpos
        · have h1 := to_int_small (len - total_read) hsmall
          rw [h1] at hreq
          exact hreq (Int.ofNat_pos.2 hmpos)
        · exact calls_positive_contra calls _ _ hle0 hpos
    · have e2 : total_read = len := Nat.le_antisymm hle (Nat.not_lt.1 hlt)
      have e : len - total_read = 0 := by rw [e2]; exact Nat.sub_self len
      rw [read_loop, if_neg hlt, e]
      refine ⟨by rw [e2], ?_, hall, rfl, Nat.le_refl _, [], ?_, rfl⟩
      · rw [List.take_zero, write_at_nil]
      · rw [List.append_nil]

/-- C7: for every `n`, every byte sequence of at least `n` bytes and every way
of delivering it in non-empty fragments, with the running flag staying true
(for the `2 * n` reads of the flag the loop can make), `read_bytes_fully` with
`len = n` returns `n`, leaves the first `n` bytes of the sequence in the
buffer, in order, consumes exactly these `n` bytes from the socket, and every
`recv` it makes requests at most the bytes still missing.  The premise that
every underlying read returns a positive number of bytes is the second
alternative of `hrun`; it holds by itself when `n < 2^31`, where the `(int)`
cast of the request is exact (first alternative). -/
theorem read_bytes_fully_fragments (w : World) (buf : List Nat) (n : Nat)
    (hall : all_data w.events = true) (hlen : n ≤ (stream w.events).length)
    (halive : 2 * n ≤ w.alive)
    (hrun : n < 2147483648
      ∨ ∀ new, (read_bytes_fully w buf n).world.calls = w.calls ++ new → ∀ c ∈ new, 0 < c.2) :
    (read_bytes_fully w buf n).ret = (n : Int)
      ∧ (read_bytes_fully w buf n).buf = (stream w.events).take n ++ buf.drop n
      ∧ all_data (read_bytes_fully w buf n).world.events = true
      ∧ stream (read_bytes_fully w buf n).world.events = (stream w.events).drop n
      ∧ ∃ new, (read_bytes_fully w buf n).world.calls = w.calls ++ new
          ∧ calls_track n new = true := by
  have h := read_loop_data n w buf n 0 (Nat.zero_le n) (Nat.le_refl _) hall hlen halive
    (Nat.zero_le _) hrun
  simp only [Nat.sub_zero] at h
  obtain ⟨h1, h2, h3, h4, _, h6⟩ := h
  refine ⟨h1, ?_, h3, h4, h6⟩
  have hl : ((stream w.events).take n).length = n := by
    rw [List.length_take]
    exact Nat.min_eq_left hlen
  show (read_loop n w buf n 0).buf = _
  rw [h2, write_at, List.take_zero, List.nil_append, hl, Nat.zero_add]

/-- C7 at `n = 5` with the bytes 1..6 arriving as the fragments `[1, 2]` and
`[3, 4, 5, 6]`: two reads, of 2 and 3 bytes, fill the buffer with 1..5 and
leave the byte 6 on the socket. -/
theorem read_bytes_fully_fragments_witness :
    (read_bytes_fully
        { alive := 10, events := [SockEvent.data 1 [2], SockEvent.data 3 [4, 5, 6]], calls := [] }
        [0, 0, 0, 0, 0] 5).ret = 5
      ∧ (read_bytes_fully
        { alive := 10, events := [SockEvent.data 1 [2], SockEvent.data 3 [4, 5, 6]], calls := [] }
        [0, 0, 0, 0, 0] 5).buf = [1, 2, 3, 4, 5]
      ∧ (read_bytes_fully
        { alive := 10, events := [SockEvent.data 1 [2], SockEvent.data 3 [4, 5, 6]], calls := [] }
        [0, 0, 0, 0, 0] 5).world.events = [SockEvent.data 6 []]
      ∧ (read_bytes_fully
        { alive := 10, events := [SockEvent.data 1 [2], SockEvent.data 3 [4, 5, 6]], calls := [] }
        [0, 0, 0, 0, 0] 5).world.calls = [(5, 2), (3, 3)] :=
  ⟨(read_bytes_fully_fragments
      { alive := 10, events := [SockEvent.data 1 [2], SockEvent.data 3 [4, 5, 6]], calls := [] }
      [0, 0, 0, 0, 0] 5 (by decide) (by decide) (by decide) (Or.inl (by decide))).1,
    by decide, by decide, by decide⟩

/-- The request is cast to `int`: with `len = 2^32` the first `recv` asks for 0
bytes and returns 0, which `read_bytes_fully` hands back although bytes are
waiting. -/
theorem read_bytes_fully_request_wraps (a b : Nat) (bs : List Nat) (rest : List SockEvent)
    (calls : List (Int × Int)) (buf : List Nat) :
    (read_bytes_fully { alive := a + 2, events := SockEvent.data b bs :: rest, calls := calls }
        buf 4294967296).ret = 0 := by
  have hreq : to_int ((4294967296 - 0 : Nat) : Int) = 0 := by decide
  have hle0 := recv_call_data_nonpos b bs rest (to_int ((4294967296 - 0 : Nat) : Int))
    (by rw [hreq])
  have e : (4294967296 : Nat) = 4294967295 + 1 := rfl
  unfold read_bytes_fully
  conv_lhs => arg 1; arg 1; rw [e]
  rw [read_loop_pass 4294967295 a b bs rest calls buf 4294967296 0 (by decide), if_pos hle0]
  show (recv_call (SockEvent.data b bs :: rest) (to_int ((4294967296 - 0 : Nat) : Int))).1 = 0
  rw [hreq]
  simp [recv_call]


/-! ## C8: draining a packet of another type -/

/-- The facts about `read_bytes_fully` the callers use, for a length that fits
an `int` and a socket that delivers the bytes. -/
theorem read_bytes_fully_data (w : World) (buf : List Nat) (n : Nat) (hsmall : n < 2147483648)
    (hall : all_data w.events = true) (hlen : n ≤ (stream w.events).length)
    (halive : 2 * n ≤ w.alive) :
    (read_bytes_fully w buf n).ret = (n : Int)
      ∧ (read_bytes_fully w buf n).buf = (stream w.events).take n ++ buf.drop n
      ∧ all_data (read_bytes_fully w buf n).world.events = true
      ∧ stream (read_bytes_fully w buf n).world.events = (stream w.events).drop n
      ∧ w.alive ≤ (read_bytes_fully w buf n).world.alive + 2 * n
      ∧ ∃ new, (read_bytes_fully w buf n).world.calls = w.calls ++ new
          ∧ calls_track n new = true := by
  have h := read_loop_data n w buf n 0 (Nat.zero_le n) (Nat.le_refl _) hall hlen halive
    (Nat.zero_le _) (Or.inl (by rw [Nat.sub_zero]; exact hsmall))
  simp only [Nat.sub_zero] at h
  obtain ⟨h1, h2, h3, h4, h5, h6⟩ := h
  refine ⟨h1, ?_, h3, h4, h5, h6⟩
  have hl : ((stream w.events).take n).length = n := by
    rw [List.length_take]
    exact Nat.min_eq_left hlen
  show (read_loop n w buf n 0).buf = _
  rw [h2, write_at, List.take_zero, List.nil_append, hl, Nat.zero_add]

theorem calls_track_bounds (new : List (Int × Int)) :
    ∀ m : Nat, calls_track m new = true →
      ∀ c ∈ new, c.1 ≤ (m : Int) ∧ 0 < c.2 ∧ c.2 ≤ c.1 := by
  induction new with
  | nil => intro m _ c hc; exact absurd hc (List.not_mem_nil c)
  | cons x rest ih =>
    intro m h c hc
    obtain ⟨request, returned⟩ := x
    simp only [calls_track, Bool.and_eq_true, decide_eq_true_eq] at h
    obtain ⟨⟨⟨h1, h2⟩, h3⟩, h4⟩ := h
    rcases List.mem_cons.1 hc with hc | hc
    · subst hc
      exact ⟨h1, h2, h3⟩
    · have := ih _ h4 c hc
      refine ⟨?_, this.2.1, this.2.2⟩
      have h5 := this.1
      omega

/-- The drain loop on a socket that delivers the payload. -/
theorem drain_loop_data (fuel : Nat) :
    ∀ (w : World) (trash_buffer : List Nat) (remaining : Nat),
      remaining ≤ fuel → all_data w.events = true →
      remaining ≤ (stream w.events).length → 2 * remaining ≤ w.alive →
      all_data (drain_loop fuel w trash_buffer remaining).1.events = true
        ∧ stream (drain_loop fuel w trash_buffer remaining).1.events
            = (stream w.events).drop remaining
        ∧ w.alive ≤ (drain_loop fuel w trash_buffer remaining).1.alive + 2 * remaining
        ∧ ∃ new, (drain_loop fuel w trash_buffer remaining).1.calls = w.calls ++ new
            ∧ ∀ c ∈ new, c.1 ≤ 1024 ∧ 0 < c.2 ∧ c.2 ≤ c.1 := by
  induction fuel with
  | zero =>
    intro w trash_buffer remaining hfuel hall _ _
    have e : remaining = 0 := Nat.le_zero.1 hfuel
    subst e
    exact ⟨hall, rfl, Nat.le_refl _, [], (List.append_nil _).symm,
      fun c hc => absurd hc (List.not_mem_nil c)⟩
  | succ fuel ih =>
    intro w trash_buffer remaining hfuel hall hlen halive
    by_cases hpos : 0 < remaining
    · rw [drain_loop, if_pos hpos]
      dsimp only []
      generalize hto : (if remaining > 1024 then 1024 else remaining) = to_read
      have hto1 : 0 < to_read ∧ to_read ≤ remaining ∧ to_read ≤ 1024 := by
        rw [← hto]
        split_ifs <;> omega
      have hr := read_bytes_fully_data w trash_buffer to_read (by omega) hall (by omega)
        (by omega)
      obtain ⟨r1, r2, r3, r4, r5, new1, r6, r7⟩ := hr
      have hnn : ¬ (read_bytes_fully w trash_buffer to_read).ret ≤ 0 := by
        rw [r1]
        omega
      rw [if_neg hnn]
      have hrec := ih (read_bytes_fully w trash_buffer to_read).world
        (read_bytes_fully w trash_buffer to_read).buf (remaining - to_read) (by omega) r3
        (by rw [r4, List.length_drop]; omega) (by omega)
      obtain ⟨d1, d2, d3, new2, d4, d5⟩ := hrec
      refine ⟨d1, ?_, by omega, new1 ++ new2, ?_, ?_⟩
      · rw [d2, r4, List.drop_drop]
        congr 1
        omega
      · rw [d4, r6, List.append_assoc]
      · intro c hc
        rcases List.mem_append.1 hc with hc | hc
        · have := calls_track_bounds new1 to_read r7 c hc
          refine ⟨?_, this.2.1, this.2.2⟩
          have h5 := this.1
          omega
        · exact d5 c hc
    · have e : remaining = 0 := by omega
      subst e
      rw [drain_loop, if_neg hpos]
      exact ⟨hall, rfl, Nat.le_refl _, [], (List.append_nil _).symm,
        fun c hc => absurd hc (List.not_mem_nil c)⟩

/-- C8: for every control packet whose type is not 0x10 and every declared
length `L`, when the peer supplies the `L` payload bytes (and the running flag
stays true) the drain loop ends having consumed exactly `L` bytes, every
`recv` asking for at most 1024 bytes, the shared state is untouched, and the
next 5 bytes read by the client loop are the 5 bytes that follow the payload
on the wire: the next packet's header. -/
theorem control_drain (le : Bool) (heap : Nat → Nat) (c : ControlRun)
    (htype : (header_fields le c.header).1 ≠ 0x10)
    (hall : all_data c.world.events = true)
    (hlen : (header_fields le c.header).2 + 5 ≤ (stream c.world.events).length)
    (halive : 2 * (header_fields le c.header).2 + 11 ≤ c.world.alive) :
    (control_packet le heap c).state = c.state
      ∧ (control_packet le heap c).parses = c.parses
      ∧ (control_packet le heap c).header = c.header
      ∧ stream (control_packet le heap c).world.events
          = (stream c.world.events).drop (header_fields le c.header).2
      ∧ (∃ new, (control_packet le heap c).world.calls = c.world.calls ++ new
          ∧ ∀ x ∈ new, x.1 ≤ 1024 ∧ 0 < x.2 ∧ x.2 ≤ x.1)
      ∧ (read_bytes_fully
            { (control_packet le heap c).world with
              alive := (control_packet le heap c).world.alive - 1 }
            (control_packet le heap c).header 5).ret = 5
      ∧ (read_bytes_fully
            { (control_packet le heap c).world with
              alive := (control_packet le heap c).world.alive - 1 }
            (control_packet le heap c).header 5).buf
          = ((stream c.world.events).drop (header_fields le c.header).2).take 5
              ++ c.header.drop 5 := by
  have hd := drain_loop_data (header_fields le c.header).2 c.world c.trash_buffer
    (header_fields le c.header).2 (Nat.le_refl _) hall (by omega) (by omega)
  obtain ⟨d1, d2, d3, d4⟩ := hd
  have e : control_packet le heap c
      = { c with world := (drain c.world c.trash_buffer (header_fields le c.header).2).1,
                 trash_buffer := (drain c.world c.trash_buffer (header_fields le c.header).2).2 } := by
    unfold control_packet
    dsimp only []
    rw [if_neg htype]
  rw [e]
  dsimp only []
  have hr := read_bytes_fully_data
    { (drain c.world c.trash_buffer (header_fields le c.header).2).1 with
      alive := (drain c.world c.trash_buffer (header_fields le c.header).2).1.alive - 1 }
    c.header 5 (by decide) d1
    (by
      show 5 ≤ (stream (drain c.world c.trash_buffer (header_fields le c.header).2).1.events).length
      rw [drain, d2, List.length_drop]
      omega)
    (by
      show 2 * 5 ≤ (drain c.world c.trash_buffer (header_fields le c.header).2).1.alive - 1
      rw [drain]
      omega)
  refine ⟨rfl, rfl, rfl, d2, d4, hr.1, ?_⟩
  rw [hr.2.1]
  show (stream (drain c.world c.trash_buffer (header_fields le c.header).2).1.events).take 5
    ++ _ = _
  rw [drain, d2]

/-- C8 at a type-7 packet with `L = 3` on a little-endian host: the drain
consumes the 3 payload bytes in one read of 3 bytes, and the next header read
returns `9 0 0 0 0`. -/
theorem control_drain_witness :
    stream (control_packet true (fun _ => 0) drain_example).world.events = [9, 0, 0, 0, 0]
      ∧ (control_packet true (fun _ => 0) drain_example).world.calls = [(3, 3)]
      ∧ (read_bytes_fully
            { (control_packet true (fun _ => 0) drain_example).world with
              alive := (control_packet true (fun _ => 0) drain_example).world.alive - 1 }
            (control_packet true (fun _ => 0) drain_example).header 5).ret = 5
      ∧ (read_bytes_fully
            { (control_packet true (fun _ => 0) drain_example).world with
              alive := (control_packet true (fun _ => 0) drain_example).world.alive - 1 }
            (control_packet true (fun _ => 0) drain_example).header 5).buf = [9, 0, 0, 0, 0] :=
  ⟨(control_drain true (fun _ => 0) drain_example (by decide) (by decide) (by decide)
      (by decide)).2.2.2.1.trans (by decide),
    by decide,
    (control_drain true (fun _ => 0) drain_example (by decide) (by decide) (by decide)
      (by decide)).2.2.2.2.2.1,
    (control_drain true (fun _ => 0) drain_example (by decide) (by decide) (by decide)
      (by decide)).2.2.2.2.2.2.trans (by decide)⟩


/-! ## C9: a new connection starts from a reset session -/

/-- C9: whatever state the previous video or audio session left behind (any
extradata, decoder initialised or not, first-packet flag set or not), when a
new connection passes its handshake the state that enters the streaming loop
has empty extradata of size 0, the decoder marked uninitialised and
`first_frame_received` (video) or `first_audio_received` (audio) false; and
the handshake does pass when the client supplies its bytes (64 + 12 for video,
4 for audio) while the running flag stays true. -/
theorem session_reset_on_connect (w : World) (s : ocam_source) (client : Int)
    (name config magic : List Nat) :
    (∀ r, video_accept w s client name config = some r →
        r.2.extradata = [] ∧ r.2.extradata_size = 0 ∧ r.2.codec_initialized = false
          ∧ r.2.first_frame_received = false)
      ∧ (∀ r, audio_accept w s client magic = some r →
        r.2.audio_extradata = [] ∧ r.2.audio_extradata_size = 0
          ∧ r.2.audio_codec_initialized = false ∧ r.2.first_audio_received = false)
      ∧ (all_data w.events = true → 76 ≤ (stream w.events).length → 152 ≤ w.alive →
          (video_accept w s client name config).isSome = true)
      ∧ (all_data w.events = true → 4 ≤ (stream w.events).length → 8 ≤ w.alive →
          (audio_accept w s client magic).isSome = true) := by
  refine ⟨?_, ?_, ?_, ?_⟩
  · intro r hr
    unfold video_accept at hr
    dsimp only [] at hr
    split_ifs at hr
    cases hr
    exact ⟨rfl, rfl, rfl, rfl⟩
  · intro r hr
    unfold audio_accept at hr
    dsimp only [] at hr
    split_ifs at hr
    cases hr
    exact ⟨rfl, rfl, rfl, rfl⟩
  · intro hall hlen halive
    have h1 := read_bytes_fully_data w name 64 (by decide) hall (by omega) (by omega)
    obtain ⟨a1, _, a3, a4, a5, _⟩ := h1
    have h2 := read_bytes_fully_data (read_bytes_fully w name 64).world config 12 (by decide) a3
      (by rw [a4, List.length_drop]; omega) (by omega)
    unfold video_accept
    dsimp only []
    rw [if_neg (by rw [a1]; decide), if_neg (by rw [h2.1]; decide)]
    rfl
  · intro hall hlen halive
    have h1 := read_bytes_fully_data w magic 4 (by decide) hall hlen (by omega)
    unfold audio_accept
    dsimp only []
    rw [if_neg (by rw [h1.1]; decide)]
    rfl

/-- C9 after a session that left extradata, an initialised decoder and both
first-packet flags set: a video client sending 76 handshake bytes and an audio
client sending 4 both enter the streaming loop with a reset session. -/
theorem session_reset_on_connect_witness :
    (∀ r, video_accept
          { alive := 200, events := [SockEvent.data 0 (List.replicate 75 0)], calls := [] }
          { ocam_create_state with
            extradata := [1, 2, 3], extradata_size := 3, codec_initialized := true,
            first_frame_received := true, audio_extradata := [4, 5], audio_extradata_size := 2,
            audio_codec_initialized := true, first_audio_received := true }
          7 (List.replicate 64 0) (List.replicate 12 0) = some r →
        r.2.extradata = [] ∧ r.2.extradata_size = 0 ∧ r.2.codec_initialized = false
          ∧ r.2.first_frame_received = false)
      ∧ (video_accept
          { alive := 200, events := [SockEvent.data 0 (List.replicate 75 0)], calls := [] }
          { ocam_create_state with
            extradata := [1, 2, 3], extradata_size := 3, codec_initialized := true,
            first_frame_received := true, audio_extradata := [4, 5], audio_extradata_size := 2,
            audio_codec_initialized := true, first_audio_received := true }
          7 (List.replicate 64 0) (List.replicate 12 0)).isSome = true
      ∧ (audio_accept
          { alive := 200, events := [SockEvent.data 0 (List.replicate 75 0)], calls := [] }
          { ocam_create_state with
            extradata := [1, 2, 3], extradata_size := 3, codec_initialized := true,
            first_frame_received := true, audio_extradata := [4, 5], audio_extradata_size := 2,
            audio_codec_initialized := true, first_audio_received := true }
          7 [0, 0, 0, 0]).isSome = true :=
  ⟨(session_reset_on_connect
      { alive := 200, events := [SockEvent.data 0 (List.replicate 75 0)], calls := [] }
      { ocam_create_state with
        extradata := [1, 2, 3], extradata_size := 3, codec_initialized := true,
        first_frame_received := true, audio_extradata := [4, 5], audio_extradata_size := 2,
        audio_codec_initialized := true, first_audio_received := true }
      7 (List.replicate 64 0) (List.replicate 12 0) [0, 0, 0, 0]).1,
    (session_reset_on_connect
      { alive := 200, events := [SockEvent.data 0 (List.replicate 75 0)], calls := [] }
      { ocam_create_state with
        extradata := [1, 2, 3], extradata_size := 3, codec_initialized := true,
        first_frame_received := true, audio_extradata := [4, 5], audio_extradata_size := 2,
        audio_codec_initialized := true, first_audio_received := true }
      7 (List.replicate 64 0) (List.replicate 12 0) [0, 0, 0, 0]).2.2.1
      (by decide) (by decide) (by decide),
    (session_reset_on_connect
      { alive := 200, events := [SockEvent.data 0 (List.replicate 75 0)], calls := [] }
      { ocam_create_state with
        extradata := [1, 2, 3], extradata_size := 3, codec_initialized := true,
        first_frame_received := true, audio_extradata := [4, 5], audio_extradata_size := 2,
        audio_codec_initialized := true, first_audio_received := true }
      7 (List.replicate 64 0) (List.replicate 12 0) [0, 0, 0, 0]).2.2.2
      (by decide) (by decide) (by decide)⟩


/-! ## C10: read failures in the control client loop -/

/-- A failing header read leaves the client loop, after which the disconnect
statements clear the descriptor and `caps_received`. -/
theorem control_header_failure (le : Bool) (heap : Nat → Nat) (fuel alive : Nat) (c : ControlRun)
    (halive : c.world.alive = alive + 1)
    (hfail : (read_bytes_fully { c.world with alive := alive } c.header 5).ret ≤ 0) :
    (control_loop le heap (fuel + 1) c).1 = true
      ∧ (control_disconnect (control_loop le heap (fuel + 1) c).2.state).control_client_fd = -1
      ∧ (control_disconnect (control_loop le heap (fuel + 1) c).2.state).caps_received = false := by
  unfold control_loop
  rw [halive]
  dsimp only []
  rw [if_pos hfail]
  exact ⟨rfl, rfl, rfl⟩

/-- C10, evaluated on the code (little-endian host).  The client with
descriptor 7 has `caps_received = true`.  The payload read of a type-0x10
packet fails (`recv` returns -1); the loop does not leave: its next pass reads
`7 0 0 0 4` as a header.  The drain of that packet fails as well; again the
loop goes on and reads `9 0 0 0 0` as a header.  After three passes the loop
is still running, the descriptor is still 7 and `caps_received` is still
true. -/
theorem control_payload_failure_keeps_client :
    (control_loop true (fun _ => 0) 1 payload_failure_example).2.world.calls
        = [(5, 5), (8, -1)]
      ∧ (control_loop true (fun _ => 0) 2 payload_failure_example).2.header = [7, 0, 0, 0, 4]
      ∧ (control_loop true (fun _ => 0) 2 payload_failure_example).2.world.calls
          = [(5, 5), (8, -1), (5, 5), (4, -1)]
      ∧ (control_loop true (fun _ => 0) 3 payload_failure_example).1 = false
      ∧ (control_loop true (fun _ => 0) 3 payload_failure_example).2.header = [9, 0, 0, 0, 0]
      ∧ (control_loop true (fun _ => 0) 3 payload_failure_example).2.state.control_client_fd = 7
      ∧ (control_loop true (fun _ => 0) 3 payload_failure_example).2.state.caps_received
          = true := by
  decide


/-! ## C16: 64-bit network-to-host conversion -/

theorem ntohl_lt (le : Bool) (v : Nat) : ntohl le v < 4294967296 := by
  cases le
  · simp only [ntohl, Bool.false_eq_true, if_false]
    omega
  · simp only [ntohl, if_true, bswap32]
    omega

/-- The arithmetic content of `portable_ntohll`. -/
theorem portable_ntohll_eq (le : Bool) (val : Nat) :
    portable_ntohll le val
      = ntohl le (val % 4294967296) * 4294967296 + ntohl le (val / 4294967296 % 4294967296) := by
  have hand : val &&& 0xFFFFFFFF = val % 4294967296 := by
    have h := Nat.and_pow_two_sub_one_eq_mod val 32
    simpa using h
  have hshr : val >>> 32 = val / 4294967296 := by
    simp [Nat.shiftRight_eq_div_pow]
  have h1 := ntohl_lt le (val % 4294967296)
  have h2 := ntohl_lt le (val / 4294967296 % 4294967296)
  have hshl : (ntohl le (val % 4294967296) <<< 32) % 18446744073709551616
      = 2 ^ 32 * ntohl le (val % 4294967296) := by
    rw [Nat.shiftLeft_eq]
    have e : (2 : Nat) ^ 32 = 4294967296 := by norm_num
    rw [e]
    omega
  unfold portable_ntohll
  simp only [hand, hshr, Nat.mod_mod]
  rw [hshl, ← Nat.mul_add_lt_is_or (by norm_num; exact h2)]
  have e : (2 : Nat) ^ 32 = 4294967296 := by norm_num
  rw [e]
  omega

theorem bswap32_bytes (b0 b1 b2 b3 : Nat) (h0 : b0 < 256) (h1 : b1 < 256) (h2 : b2 < 256)
    (h3 : b3 < 256) :
    bswap32 (b0 + b1 * 256 + b2 * 65536 + b3 * 16777216) = be32 b0 b1 b2 b3 := by
  simp only [bswap32, be32]
  omega

/-- The eight bytes of a value built most significant byte first. -/
theorem be64_bytes (a0 a1 a2 a3 a4 a5 a6 a7 : Nat)
    (h0 : a0 < 256) (h1 : a1 < 256) (h2 : a2 < 256) (h3 : a3 < 256)
    (h4 : a4 < 256) (h5 : a5 < 256) (h6 : a6 < 256) (h7 : a7 < 256) :
    be64 a0 a1 a2 a3 a4 a5 a6 a7 % 256 = a7
      ∧ be64 a0 a1 a2 a3 a4 a5 a6 a7 / 256 % 256 = a6
      ∧ be64 a0 a1 a2 a3 a4 a5 a6 a7 / 65536 % 256 = a5
      ∧ be64 a0 a1 a2 a3 a4 a5 a6 a7 / 16777216 % 256 = a4
      ∧ be64 a0 a1 a2 a3 a4 a5 a6 a7 / 4294967296 % 256 = a3
      ∧ be64 a0 a1 a2 a3 a4 a5 a6 a7 / 1099511627776 % 256 = a2
      ∧ be64 a0 a1 a2 a3 a4 a5 a6 a7 / 281474976710656 % 256 = a1
      ∧ be64 a0 a1 a2 a3 a4 a5 a6 a7 / 72057594037927936 % 256 = a0 := by
  simp only [be64]
  refine ⟨?_, ?_, ?_, ?_, ?_, ?_, ?_, ?_⟩ <;> omega

/-- A 64-bit value is the sum of its eight bytes. -/
theorem bytes_of_u64 (val : Nat) (h : val < 18446744073709551616) :
    val = be64 (val / 72057594037927936 % 256) (val / 281474976710656 % 256)
      (val / 1099511627776 % 256) (val / 4294967296 % 256) (val / 16777216 % 256)
      (val / 65536 % 256) (val / 256 % 256) (val % 256) := by
  simp only [be64]
  omega

theorem portable_ntohll_bytes (b0 b1 b2 b3 b4 b5 b6 b7 : Nat)
    (h0 : b0 < 256) (h1 : b1 < 256) (h2 : b2 < 256) (h3 : b3 < 256)
    (h4 : b4 < 256) (h5 : b5 < 256) (h6 : b6 < 256) (h7 : b7 < 256) :
    portable_ntohll true (load_u64 true b0 b1 b2 b3 b4 b5 b6 b7)
      = be64 b0 b1 b2 b3 b4 b5 b6 b7 := by
  have hlow : load_u64 true b0 b1 b2 b3 b4 b5 b6 b7 % 4294967296
      = b0 + b1 * 256 + b2 * 65536 + b3 * 16777216 := by
    simp only [load_u64, if_true]
    omega
  have hhigh : load_u64 true b0 b1 b2 b3 b4 b5 b6 b7 / 4294967296 % 4294967296
      = b4 + b5 * 256 + b6 * 65536 + b7 * 16777216 := by
    simp only [load_u64, if_true]
    omega
  rw [portable_ntohll_eq, hlow, hhigh]
  simp only [ntohl, if_true]
  rw [bswap32_bytes b0 b1 b2 b3 h0 h1 h2 h3, bswap32_bytes b4 b5 b6 b7 h4 h5 h6 h7]
  simp only [be32, be64]
  omega

theorem load_u64_le_eq_be64 (b0 b1 b2 b3 b4 b5 b6 b7 : Nat) :
    load_u64 true b0 b1 b2 b3 b4 b5 b6 b7 = be64 b7 b6 b5 b4 b3 b2 b1 b0 := by
  simp only [load_u64, if_true, be64]
  omega

theorem portable_ntohll_bswap (val : Nat) (h : val < 18446744073709551616) :
    portable_ntohll true val = bswap64 val := by
  have hb := bytes_of_u64 val h
  rw [← load_u64_le_eq_be64] at hb
  conv_lhs => rw [hb]
  rw [portable_ntohll_bytes _ _ _ _ _ _ _ _ (Nat.mod_lt _ (by decide))
    (Nat.mod_lt _ (by decide)) (Nat.mod_lt _ (by decide)) (Nat.mod_lt _ (by decide))
    (Nat.mod_lt _ (by decide)) (Nat.mod_lt _ (by decide)) (Nat.mod_lt _ (by decide))
    (Nat.mod_lt _ (by decide))]
  rfl

theorem bswap64_lt (val : Nat) : bswap64 val < 18446744073709551616 := by
  simp only [bswap64, be64]
  omega

theorem bswap64_bswap64 (val : Nat) (h : val < 18446744073709551616) :
    bswap64 (bswap64 val) = val := by
  have hb := be64_bytes (val % 256) (val / 256 % 256) (val / 65536 % 256)
    (val / 16777216 % 256) (val / 4294967296 % 256) (val / 1099511627776 % 256)
    (val / 281474976710656 % 256) (val / 72057594037927936 % 256)
    (Nat.mod_lt _ (by decide)) (Nat.mod_lt _ (by decide)) (Nat.mod_lt _ (by decide))
    (Nat.mod_lt _ (by decide)) (Nat.mod_lt _ (by decide)) (Nat.mod_lt _ (by decide))
    (Nat.mod_lt _ (by decide)) (Nat.mod_lt _ (by decide))
  obtain ⟨e7, e6, e5, e4, e3, e2, e1, e0⟩ := hb
  have hv : bswap64 val = be64 (val % 256) (val / 256 % 256) (val / 65536 % 256)
      (val / 16777216 % 256) (val / 4294967296 % 256) (val / 1099511627776 % 256)
      (val / 281474976710656 % 256) (val / 72057594037927936 % 256) := rfl
  rw [← hv] at e7 e6 e5 e4 e3 e2 e1 e0
  have ho : bswap64 (bswap64 val) = be64 (bswap64 val % 256) (bswap64 val / 256 % 256)
      (bswap64 val / 65536 % 256) (bswap64 val / 16777216 % 256)
      (bswap64 val / 4294967296 % 256) (bswap64 val / 1099511627776 % 256)
      (bswap64 val / 281474976710656 % 256) (bswap64 val / 72057594037927936 % 256) := rfl
  rw [ho, e7, e6, e5, e4, e3, e2, e1, e0]
  exact (bytes_of_u64 val h).symm

/-- C16: on a little-endian host (where `ntohl` reverses the four bytes of its
argument), for every 8 wire bytes `b0 .. b7` loaded as a `uint64_t`,
`portable_ntohll` returns the big-endian value `b0*2^56 + ... + b7`; on every
64-bit value it is the 64-bit byte reversal, and applying it twice returns the
argument; the size field of the media header, `portable_ntohl` of the loaded
four wire bytes, is their big-endian u32. -/
theorem portable_ntohll_little_endian (b0 b1 b2 b3 b4 b5 b6 b7 : Nat)
    (h0 : b0 < 256) (h1 : b1 < 256) (h2 : b2 < 256) (h3 : b3 < 256)
    (h4 : b4 < 256) (h5 : b5 < 256) (h6 : b6 < 256) (h7 : b7 < 256) :
    portable_ntohll true (load_u64 true b0 b1 b2 b3 b4 b5 b6 b7) = be64 b0 b1 b2 b3 b4 b5 b6 b7
      ∧ be64 b0 b1 b2 b3 b4 b5 b6 b7
          = b0 * 2 ^ 56 + b1 * 2 ^ 48 + b2 * 2 ^ 40 + b3 * 2 ^ 32 + b4 * 2 ^ 24 + b5 * 2 ^ 16
            + b6 * 2 ^ 8 + b7
      ∧ (∀ val, val < 18446744073709551616 →
          portable_ntohll true val = bswap64 val
            ∧ portable_ntohll true (portable_ntohll true val) = val)
      ∧ portable_ntohl true (load_u32 true b0 b1 b2 b3) = be32 b0 b1 b2 b3 := by
  refine ⟨?_, ?_, ?_, ?_⟩
  · exact portable_ntohll_bytes b0 b1 b2 b3 b4 b5 b6 b7 h0 h1 h2 h3 h4 h5 h6 h7
  · simp only [be64]
    norm_num
  · intro val hval
    refine ⟨portable_ntohll_bswap val hval, ?_⟩
    rw [portable_ntohll_bswap val hval, portable_ntohll_bswap _ (bswap64_lt val),
      bswap64_bswap64 val hval]
  · simp only [portable_ntohl, ntohl, if_true, bswap32, load_u32, be32]
    omega

/-- C16 at the wire bytes `00 00 00 00 00 0F 42 40` (timestamp 1000000) and
the size bytes `00 00 01 00` (256). -/
theorem portable_ntohll_little_endian_witness :
    portable_ntohll true (load_u64 true 0 0 0 0 0 15 66 64) = 1000000
      ∧ portable_ntohl true (load_u32 true 0 0 1 0) = 256 :=
  ⟨(portable_ntohll_little_endian 0 0 0 0 0 15 66 64 (by decide) (by decide) (by decide)
      (by decide) (by decide) (by decide) (by decide) (by decide)).1.trans (by decide),
    (portable_ntohll_little_endian 0 0 1 0 0 0 0 0 (by decide) (by decide) (by decide)
      (by decide) (by decide) (by decide) (by decide) (by decide)).2.2.2.trans (by decide)⟩

/-! ## Helper lemmas on the settings blocks -/

theorem send_control_command_fd (s t : ocam_source)
    (h : t.control_client_fd = s.control_client_fd) (cmd_id arg1 arg2 : Nat) :
    send_control_command t cmd_id arg1 arg2 = send_control_command s cmd_id arg1 arg2 := by
  simp only [send_control_command, h]

theorem send_control_command_no_client (s : ocam_source) (h : s.control_client_fd = -1)
    (cmd_id arg1 arg2 : Nat) : send_control_command s cmd_id arg1 arg2 = [] := by
  simp [send_control_command, h]

/-- The resolution block leaves the descriptor and the other cache fields. -/
theorem update_resolution_keeps (s : ocam_source) (v : obs_settings) :
    (update_resolution s v).1.control_client_fd = s.control_client_fd
      ∧ (update_resolution s v).1.current_fps = s.current_fps
      ∧ (update_resolution s v).1.current_bitrate = s.current_bitrate
      ∧ (update_resolution s v).1.current_flash = s.current_flash
      ∧ (update_resolution s v).1.current_iso = s.current_iso
      ∧ (update_resolution s v).1.current_exp = s.current_exp
      ∧ (update_resolution s v).1.current_focus = s.current_focus := by
  rw [update_resolution_state]
  cases sscanf_dxd v.resolution with
  | none => exact ⟨rfl, rfl, rfl, rfl, rfl, rfl, rfl⟩
  | some q => exact ⟨rfl, rfl, rfl, rfl, rfl, rfl, rfl⟩

theorem update_fps_congr (s t : ocam_source) (v : obs_settings)
    (hfd : t.control_client_fd = s.control_client_fd) (hc : t.current_fps = s.current_fps) :
    (update_fps t v).2 = (update_fps s v).2 := by
  unfold update_fps
  simp only [hc, send_control_command_fd s t hfd]
  by_cases hd : to_int v.fps ≠ s.current_fps
  · rw [if_pos hd, if_pos hd]
  · rw [if_neg hd, if_neg hd]

theorem update_bitrate_congr (s t : ocam_source) (v : obs_settings)
    (hfd : t.control_client_fd = s.control_client_fd)
    (hc : t.current_bitrate = s.current_bitrate) :
    (update_bitrate t v).2 = (update_bitrate s v).2 := by
  unfold update_bitrate
  simp only [hc, send_control_command_fd s t hfd]
  by_cases hd : to_int v.bitrate ≠ s.current_bitrate
  · rw [if_pos hd, if_pos hd]
  · rw [if_neg hd, if_neg hd]

theorem update_flash_congr (s t : ocam_source) (v : obs_settings)
    (hfd : t.control_client_fd = s.control_client_fd) (hc : t.current_flash = s.current_flash) :
    (update_flash t v).2 = (update_flash s v).2 := by
  unfold update_flash
  simp only [hc, send_control_command_fd s t hfd]
  by_cases hd : v.flash ≠ s.current_flash
  · rw [if_pos hd, if_pos hd]
  · rw [if_neg hd, if_neg hd]

theorem update_iso_congr (s t : ocam_source) (v : obs_settings)
    (hfd : t.control_client_fd = s.control_client_fd) (hc : t.current_iso = s.current_iso) :
    (update_iso t v).2 = (update_iso s v).2 := by
  unfold update_iso
  simp only [hc, send_control_command_fd s t hfd]
  by_cases hd : to_int v.iso ≠ s.current_iso
  · rw [if_pos hd, if_pos hd]
  · rw [if_neg hd, if_neg hd]

theorem update_exp_congr (s t : ocam_source) (v : obs_settings)
    (hfd : t.control_client_fd = s.control_client_fd) (hc : t.current_exp = s.current_exp) :
    (update_exp t v).2 = (update_exp s v).2 := by
  unfold update_exp
  simp only [hc, send_control_command_fd s t hfd]
  by_cases hd : to_int v.exposure ≠ s.current_exp
  · rw [if_pos hd, if_pos hd]
  · rw [if_neg hd, if_neg hd]

theorem update_focus_congr (s t : ocam_source) (v : obs_settings)
    (hfd : t.control_client_fd = s.control_client_fd) (hc : t.current_focus = s.current_focus) :
    (update_focus t v).2 = (update_focus s v).2 := by
  unfold update_focus
  simp only [hc, send_control_command_fd s t hfd]
  by_cases hd : to_int v.focus ≠ s.current_focus
  · rw [if_pos hd, if_pos hd]
  · rw [if_neg hd, if_neg hd]

theorem update_fps_keeps (s : ocam_source) (v : obs_settings) :
    (update_fps s v).1.control_client_fd = s.control_client_fd
      ∧ (update_fps s v).1.current_bitrate = s.current_bitrate
      ∧ (update_fps s v).1.current_flash = s.current_flash
      ∧ (update_fps s v).1.current_iso = s.current_iso
      ∧ (update_fps s v).1.current_exp = s.current_exp
      ∧ (update_fps s v).1.current_focus = s.current_focus := by
  rw [update_fps_state]
  exact ⟨rfl, rfl, rfl, rfl, rfl, rfl⟩

theorem update_bitrate_keeps (s : ocam_source) (v : obs_settings) :
    (update_bitrate s v).1.control_client_fd = s.control_client_fd
      ∧ (update_bitrate s v).1.current_flash = s.current_flash
      ∧ (update_bitrate s v).1.current_iso = s.current_iso
      ∧ (update_bitrate s v).1.current_exp = s.current_exp
      ∧ (update_bitrate s v).1.current_focus = s.current_focus := by
  rw [update_bitrate_state]
  exact ⟨rfl, rfl, rfl, rfl, rfl⟩

theorem update_flash_keeps (s : ocam_source) (v : obs_settings) :
    (update_flash s v).1.control_client_fd = s.control_client_fd
      ∧ (update_flash s v).1.current_iso = s.current_iso
      ∧ (update_flash s v).1.current_exp = s.current_exp
      ∧ (update_flash s v).1.current_focus = s.current_focus := by
  rw [update_flash_state]
  exact ⟨rfl, rfl, rfl, rfl⟩

theorem update_iso_keeps (s : ocam_source) (v : obs_settings) :
    (update_iso s v).1.control_client_fd = s.control_client_fd
      ∧ (update_iso s v).1.current_exp = s.current_exp
      ∧ (update_iso s v).1.current_focus = s.current_focus := by
  rw [update_iso_state]
  exact ⟨rfl, rfl, rfl⟩

theorem update_exp_keeps (s : ocam_source) (v : obs_settings) :
    (update_exp s v).1.control_client_fd = s.control_client_fd
      ∧ (update_exp s v).1.current_focus = s.current_focus := by
  rw [update_exp_state]
  exact ⟨rfl, rfl⟩

/-- The buffers of the last six blocks of `ocam_update`, run one after the
other from a state `t1` that agrees with `s` on the descriptor and on their
cache fields, are those of the blocks run on `s`. -/
theorem update_blocks_sent (s t1 : ocam_source) (v : obs_settings)
    (k0 : t1.control_client_fd = s.control_client_fd)
    (k1 : t1.current_fps = s.current_fps) (k2 : t1.current_bitrate = s.current_bitrate)
    (k3 : t1.current_flash = s.current_flash) (k4 : t1.current_iso = s.current_iso)
    (k5 : t1.current_exp = s.current_exp) (k6 : t1.current_focus = s.current_focus) :
    (update_fps t1 v).2 = (update_fps s v).2
      ∧ (update_bitrate (update_fps t1 v).1 v).2 = (update_bitrate s v).2
      ∧ (update_flash (update_bitrate (update_fps t1 v).1 v).1 v).2 = (update_flash s v).2
      ∧ (update_iso (update_flash (update_bitrate (update_fps t1 v).1 v).1 v).1 v).2
          = (update_iso s v).2
      ∧ (update_exp (update_iso (update_flash (update_bitrate
            (update_fps t1 v).1 v).1 v).1 v).1 v).2 = (update_exp s v).2
      ∧ (update_focus (update_exp (update_iso (update_flash (update_bitrate
            (update_fps t1 v).1 v).1 v).1 v).1 v).1 v).2 = (update_focus s v).2 := by
  obtain ⟨a0, a2, a3, a4, a5, a6⟩ := update_fps_keeps t1 v
  generalize (update_fps t1 v).1 = t2 at a0 a2 a3 a4 a5 a6 ⊢
  obtain ⟨b0, b3, b4, b5, b6⟩ := update_bitrate_keeps t2 v
  generalize (update_bitrate t2 v).1 = t3 at b0 b3 b4 b5 b6 ⊢
  obtain ⟨c0, c4, c5, c6⟩ := update_flash_keeps t3 v
  generalize (update_flash t3 v).1 = t4 at c0 c4 c5 c6 ⊢
  obtain ⟨d0, d5, d6⟩ := update_iso_keeps t4 v
  generalize (update_iso t4 v).1 = t5 at d0 d5 d6 ⊢
  obtain ⟨e0, e6⟩ := update_exp_keeps t5 v
  generalize (update_exp t5 v).1 = t6 at e0 e6 ⊢
  exact ⟨update_fps_congr s t1 v k0 k1,
    update_bitrate_congr s t2 v (a0.trans k0) (a2.trans k2),
    update_flash_congr s t3 v (b0.trans (a0.trans k0)) (b3.trans (a3.trans k3)),
    update_iso_congr s t4 v (c0.trans (b0.trans (a0.trans k0)))
      (c4.trans (b4.trans (a4.trans k4))),
    update_exp_congr s t5 v (d0.trans (c0.trans (b0.trans (a0.trans k0))))
      (d5.trans (c5.trans (b5.trans (a5.trans k5)))),
    update_focus_congr s t6 v (e0.trans (d0.trans (c0.trans (b0.trans (a0.trans k0)))))
      (e6.trans (d6.trans (c6.trans (b6.trans (a6.trans k6)))))⟩

/-- The buffers `ocam_update` sends are those of its seven blocks, each run on
the state the function was called with. -/
theorem ocam_update_sent (s : ocam_source) (v : obs_settings) :
    (ocam_update s v).2
      = (update_resolution s v).2 ++ (update_fps s v).2 ++ (update_bitrate s v).2
          ++ (update_flash s v).2 ++ (update_iso s v).2 ++ (update_exp s v).2
          ++ (update_focus s v).2 := by
  obtain ⟨k0, k1, k2, k3, k4, k5, k6⟩ := update_resolution_keeps s v
  obtain ⟨e2, e3, e4, e5, e6, e7⟩ :=
    update_blocks_sent s (update_resolution s v).1 v k0 k1 k2 k3 k4 k5 k6
  rw [← e2, ← e3, ← e4, ← e5, ← e6, ← e7]
  rfl

theorem update_resolution_no_client (s : ocam_source) (v : obs_settings)
    (h : s.control_client_fd = -1) : (update_resolution s v).2 = [] := by
  unfold update_resolution
  cases sscanf_dxd v.resolution with
  | none => rfl
  | some q =>
    obtain ⟨w, hh⟩ := q
    simp only [send_control_command_no_client s h]
    by_cases hd : w ≠ s.current_w ∨ hh ≠ s.current_h
    · rw [if_pos hd]
    · rw [if_neg hd]

theorem ocam_update_no_client (s : ocam_source) (v : obs_settings)
    (h : s.control_client_fd = -1) : (ocam_update s v).2 = [] := by
  have e2 : (update_fps s v).2 = [] := by
    unfold update_fps
    simp only [send_control_command_no_client s h]
    by_cases hd : to_int v.fps ≠ s.current_fps
    · rw [if_pos hd]
    · rw [if_neg hd]
  have e3 : (update_bitrate s v).2 = [] := by
    unfold update_bitrate
    simp only [send_control_command_no_client s h]
    by_cases hd : to_int v.bitrate ≠ s.current_bitrate
    · rw [if_pos hd]
    · rw [if_neg hd]
  have e4 : (update_flash s v).2 = [] := by
    unfold update_flash
    simp only [send_control_command_no_client s h]
    by_cases hd : v.flash ≠ s.current_flash
    · rw [if_pos hd]
    · rw [if_neg hd]
  have e5 : (update_iso s v).2 = [] := by
    unfold update_iso
    simp only [send_control_command_no_client s h]
    by_cases hd : to_int v.iso ≠ s.current_iso
    · rw [if_pos hd]
    · rw [if_neg hd]
  have e6 : (update_exp s v).2 = [] := by
    unfold update_exp
    simp only [send_control_command_no_client s h]
    by_cases hd : to_int v.exposure ≠ s.current_exp
    · rw [if_pos hd]
    · rw [if_neg hd]
  have e7 : (update_focus s v).2 = [] := by
    unfold update_focus
    simp only [send_control_command_no_client s h]
    by_cases hd : to_int v.focus ≠ s.current_focus
    · rw [if_pos hd]
    · rw [if_neg hd]
  rw [ocam_update_sent, update_resolution_no_client s v h, e2, e3, e4, e5, e6, e7]
  rfl

/-- The replay of a cache whose every value passes its guard. -/
theorem replay_of_full_cache (t : ocam_source) (w h fps bitrate iso exp focus : Int)
    (flash : Bool)
    (ew : t.current_w = w) (eh : t.current_h = h) (efps : t.current_fps = fps)
    (ebitrate : t.current_bitrate = bitrate) (eflash : t.current_flash = flash)
    (eiso : t.current_iso = iso) (eexp : t.current_exp = exp) (efocus : t.current_focus = focus)
    (hw : 0 < w) (hh : 0 < h) (hfps : 0 < fps) (hbitrate : 0 < bitrate) (hiso : 0 ≤ iso)
    (hexp : 0 ≤ exp) (hfocus : -1 ≤ focus) :
    ((spec_replay_table t).filter (fun e => e.1)).map
        (fun e => control_buffer e.2.1 e.2.2.1 e.2.2.2) ++ [control_buffer 0x05 0 0]
      = [control_buffer 0x01 (to_u32 w) (to_u32 h), control_buffer 0x02 (to_u32 fps) 0,
         control_buffer 0x03 (to_u32 (to_int (bitrate * 1000000))) 0,
         control_buffer 0x09 (if flash then 1 else 0) 0, control_buffer 0x06 (to_u32 iso) 0,
         control_buffer 0x07 (to_u32 exp) 0, control_buffer 0x08 (to_u32 focus) 0,
         control_buffer 0x05 0 0] := by
  unfold spec_replay_table
  rw [ew, eh, efps, ebitrate, eflash, eiso, eexp, efocus]
  simp [hw, hh, hfps, hbitrate, hiso, hexp, hfocus]

/-! ## C17: updates without a control client -/

/-- C17: when no control client is connected (`control_client_fd = -1`),
`ocam_update` with any settings sends nothing on the wire and still stores every
value in the settings cache (the resolution when the string parses, the other
values after their cast to `int`); so for settings whose stored values satisfy
`w > 0`, `h > 0`, `fps > 0`, `bitrate > 0`, `iso >= 0`, `exposure >= 0` and
`focus >= -1` the replay on the next control connect sends exactly the seven
commands 0x01, 0x02, 0x03, 0x09, 0x06, 0x07, 0x08 carrying those values and then
0x05 (0,0); and on the freshly created cache (w, h, fps, bitrate, iso,
exposure = -1, focus = -100, flash = false) the replay sends only 0x09 (0,0)
followed by 0x05 (0,0). -/
theorem update_without_client (s : ocam_source) (v : obs_settings)
    (hfd : s.control_client_fd = -1) :
    (ocam_update s v).2 = []
      ∧ cache_matches (ocam_update s v).1 v
      ∧ (∀ w h, sscanf_dxd v.resolution = some (w, h) →
          settings_cache (ocam_update s v).1
            = (w, h, to_int v.fps, to_int v.bitrate, v.flash, to_int v.iso, to_int v.exposure,
                to_int v.focus))
      ∧ (∀ (client w h : Int), client ≠ -1 → sscanf_dxd v.resolution = some (w, h) →
          0 < w → 0 < h → 0 < to_int v.fps → 0 < to_int v.bitrate → 0 ≤ to_int v.iso →
          0 ≤ to_int v.exposure → -1 ≤ to_int v.focus →
          (control_connect (ocam_update s v).1 client).2
            = [control_buffer 0x01 (to_u32 w) (to_u32 h),
               control_buffer 0x02 (to_u32 (to_int v.fps)) 0,
               control_buffer 0x03 (to_u32 (to_int (to_int v.bitrate * 1000000))) 0,
               control_buffer 0x09 (if v.flash then 1 else 0) 0,
               control_buffer 0x06 (to_u32 (to_int v.iso)) 0,
               control_buffer 0x07 (to_u32 (to_int v.exposure)) 0,
               control_buffer 0x08 (to_u32 (to_int v.focus)) 0,
               control_buffer 0x05 0 0])
      ∧ settings_cache ocam_create_state = (-1, -1, -1, -1, false, -1, -1, -100)
      ∧ (∀ client : Int, client ≠ -1 →
          (control_connect ocam_create_state client).2
            = [control_buffer 0x09 0 0, control_buffer 0x05 0 0]) := by
  refine ⟨ocam_update_no_client s v hfd, ocam_update_cache_matches s v, ?_, ?_, rfl, ?_⟩
  · intro w h hres
    have hst := ocam_update_state s v
    simp only [hres] at hst
    rw [hst]
    rfl
  · intro client w h hclient hres hw hh hfps hbitrate hiso hexp hfocus
    have hst := ocam_update_state s v
    simp only [hres] at hst
    rw [control_connect_sent _ client hclient]
    exact replay_of_full_cache (ocam_update s v).1 w h (to_int v.fps) (to_int v.bitrate)
      (to_int v.iso) (to_int v.exposure) (to_int v.focus) v.flash
      (by rw [hst]) (by rw [hst]) (by rw [hst]) (by rw [hst]) (by rw [hst]) (by rw [hst])
      (by rw [hst]) (by rw [hst]) hw hh hfps hbitrate hiso hexp hfocus
  · intro client hclient
    rw [control_connect_sent _ client hclient]
    rfl

/-- C17 at the freshly created state and the settings 1280x720, 30 fps, 2 Mbps,
flash off, iso 0, exposure 0, focus -1: the update sends nothing, and the next
connect (descriptor 7) replays the seven commands and 0x05. -/
theorem update_without_client_witness :
    ocam_create_state.control_client_fd = -1
      ∧ (ocam_update ocam_create_state
          { resolution := "1280x720", fps := 30, bitrate := 2, flash := false, iso := 0,
            exposure := 0, focus := -1 }).2 = []
      ∧ (control_connect (ocam_update ocam_create_state
          { resolution := "1280x720", fps := 30, bitrate := 2, flash := false, iso := 0,
            exposure := 0, focus := -1 }).1 7).2
        = [[1, 0, 0, 5, 0, 0, 0, 2, 208], [2, 0, 0, 0, 30, 0, 0, 0, 0],
           [3, 0, 30, 132, 128, 0, 0, 0, 0], [9, 0, 0, 0, 0, 0, 0, 0, 0],
           [6, 0, 0, 0, 0, 0, 0, 0, 0], [7, 0, 0, 0, 0, 0, 0, 0, 0],
           [8, 255, 255, 255, 255, 0, 0, 0, 0], [5, 0, 0, 0, 0, 0, 0, 0, 0]] :=
  ⟨rfl,
    (update_without_client ocam_create_state
      { resolution := "1280x720", fps := 30, bitrate := 2, flash := false, iso := 0,
        exposure := 0, focus := -1 } rfl).1,
    ((update_without_client ocam_create_state
      { resolution := "1280x720", fps := 30, bitrate := 2, flash := false, iso := 0,
        exposure := 0, focus := -1 } rfl).2.2.2.1 7 1280 720 (by decide) (by decide) (by decide)
      (by decide) (by decide) (by decide) (by decide) (by decide) (by decide)).trans
      (by decide)⟩

/-! ## C11: the command and arguments of every setting -/

theorem table_entry_shape {τ β : Type} (F : τ → β) (g : Prop) [Decidable g] (t : τ) :
    (if g then [F t] else [])
      = ([(decide g, t)].filter (fun e => e.1)).map (fun e => F e.2) := by
  by_cases h : g <;> simp [h]

theorem update_resolution_connected (s : ocam_source) (v : obs_settings)
    (hconn : s.control_client_fd ≠ -1) :
    (update_resolution s v).2
      = ([spec_resolution_entry s v].filter (fun e => e.1)).map
          (fun e => control_buffer e.2.1 e.2.2.1 e.2.2.2) := by
  unfold update_resolution spec_resolution_entry
  cases sscanf_dxd v.resolution with
  | none => rfl
  | some q =>
    obtain ⟨w, h⟩ := q
    simp only [send_control_command_connected s hconn, to_u32_mod]
    by_cases hd : w ≠ s.current_w ∨ h ≠ s.current_h
    · rw [if_pos hd]
      simp [hd]
    · rw [if_neg hd]
      simp [hd]

/-- The buffers `ocam_update` sends to a connected client: the entries of the
command table whose setting differs from the cache, in table order. -/
theorem ocam_update_connected (s : ocam_source) (v : obs_settings)
    (hconn : s.control_client_fd ≠ -1) :
    (ocam_update s v).2
      = ((spec_update_table s v).filter (fun e => e.1)).map
          (fun e => control_buffer e.2.1 e.2.2.1 e.2.2.2) := by
  have hflash : (if v.flash = true then 1 else 0) % 4294967296
      = (if v.flash = true then 1 else 0) := by
    cases v.flash <;> rfl
  have e2 : (update_fps s v).2
      = ([(decide (to_int v.fps ≠ s.current_fps), 0x02, to_u32 (to_int v.fps), 0)].filter
          (fun e => e.1)).map (fun e => control_buffer e.2.1 e.2.2.1 e.2.2.2) := by
    unfold update_fps
    simp only [send_control_command_connected s hconn, to_u32_mod, Nat.zero_mod]
    by_cases hd : to_int v.fps ≠ s.current_fps
    · rw [if_pos hd]
      simp [hd]
    · rw [if_neg hd]
      simp [hd]
  have e3 : (update_bitrate s v).2
      = ([(decide (to_int v.bitrate ≠ s.current_bitrate), 0x03,
            to_u32 (to_int (to_int v.bitrate * 1000000)), 0)].filter
          (fun e => e.1)).map (fun e => control_buffer e.2.1 e.2.2.1 e.2.2.2) := by
    unfold update_bitrate
    simp only [send_control_command_connected s hconn, to_u32_mod, Nat.zero_mod]
    by_cases hd : to_int v.bitrate ≠ s.current_bitrate
    · rw [if_pos hd]
      simp [hd]
    · rw [if_neg hd]
      simp [hd]
  have e4 : (update_flash s v).2
      = ([(decide (v.flash ≠ s.current_flash), 0x09, if v.flash then 1 else 0, 0)].filter
          (fun e => e.1)).map (fun e => control_buffer e.2.1 e.2.2.1 e.2.2.2) := by
    unfold update_flash
    simp only [send_control_command_connected s hconn, hflash, Nat.zero_mod]
    by_cases hd : v.flash ≠ s.current_flash
    · rw [if_pos hd]
      simp [hd]
    · rw [if_neg hd]
      simp [hd]
  have e5 : (update_iso s v).2
      = ([(decide (to_int v.iso ≠ s.current_iso), 0x06, to_u32 (to_int v.iso), 0)].filter
          (fun e => e.1)).map (fun e => control_buffer e.2.1 e.2.2.1 e.2.2.2) := by
    unfold update_iso
    simp only [send_control_command_connected s hconn, to_u32_mod, Nat.zero_mod]
    by_cases hd : to_int v.iso ≠ s.current_iso
    · rw [if_pos hd]
      simp [hd]
    · rw [if_neg hd]
      simp [hd]
  have e6 : (update_exp s v).2
      = ([(decide (to_int v.exposure ≠ s.current_exp), 0x07, to_u32 (to_int v.exposure),
            0)].filter
          (fun e => e.1)).map (fun e => control_buffer e.2.1 e.2.2.1 e.2.2.2) := by
    unfold update_exp
    simp only [send_control_command_connected s hconn, to_u32_mod, Nat.zero_mod]
    by_cases hd : to_int v.exposure ≠ s.current_exp
    · rw [if_pos hd]
      simp [hd]
    · rw [if_neg hd]
      simp [hd]
  have e7 : (update_focus s v).2
      = ([(decide (to_int v.focus ≠ s.current_focus), 0x08, to_u32 (to_int v.focus), 0)].filter
          (fun e => e.1)).map (fun e => control_buffer e.2.1 e.2.2.1 e.2.2.2) := by
    unfold update_focus
    simp only [send_control_command_connected s hconn, to_u32_mod, Nat.zero_mod]
    by_cases hd : to_int v.focus ≠ s.current_focus
    · rw [if_pos hd]
      simp [hd]
    · rw [if_neg hd]
      simp [hd]
  rw [ocam_update_sent, update_resolution_connected s v hconn, e2, e3, e4, e5, e6, e7]
  simp only [← List.map_append, ← List.filter_append]
  rfl

theorem sync_settings_sent (s : ocam_source) (h : s.control_client_fd ≠ -1) :
    sync_settings_to_phone s
      = ((spec_replay_table s).filter (fun e => e.1)).map
          (fun e => control_buffer e.2.1 e.2.2.1 e.2.2.2) := by
  have h5 := sync_settings_connected s h
  rw [send_control_command_connected s h] at h5
  exact List.append_cancel_right h5

theorem bitrate_argument (mbps : Int) (h1 : 1 ≤ mbps) (h2 : mbps ≤ 2147) :
    to_u32 (to_int (to_int mbps * 1000000)) = (mbps * 1000000).toNat := by
  unfold to_u32 to_int
  omega

theorem decode_control_buffer (cmd_id arg1 arg2 : Nat)
    (hc : cmd_id < 256) (h1 : arg1 < 4294967296) (h2 : arg2 < 4294967296) :
    spec_decode_control_command (control_buffer cmd_id arg1 arg2) = some (cmd_id, arg1, arg2) := by
  rw [control_buffer_eq]
  simp only [spec_decode_control_command, be32_of_bytes arg1 h1, be32_of_bytes arg2 h2,
    Nat.mod_eq_of_lt hc]

theorem ocam_update_keeps_fd (s : ocam_source) (v : obs_settings) :
    (ocam_update s v).1.control_client_fd = s.control_client_fd := by
  rw [ocam_update_state]
  cases sscanf_dxd v.resolution with
  | none => rfl
  | some q => rfl

/-- C11 fails for a cached value the replay guard rejects.  With a client
connected and the cache freshly created, an update to 1280x720, 0 fps, 2 Mbps,
iso 100, exposure 10000, focus -1 sends 0x02 (0,0) for the fps setting and
stores 0 in the cache; `sync_settings_to_phone` on that cache sends the
commands of the other cached values and no 0x02 command for the cached
value 0. -/
theorem sync_skips_cached_zero_fps :
    connected_example.control_client_fd ≠ -1
      ∧ (ocam_update connected_example zero_fps_settings).2
          = [[1, 0, 0, 5, 0, 0, 0, 2, 208], [2, 0, 0, 0, 0, 0, 0, 0, 0],
             [3, 0, 30, 132, 128, 0, 0, 0, 0], [6, 0, 0, 0, 100, 0, 0, 0, 0],
             [7, 0, 0, 39, 16, 0, 0, 0, 0], [8, 255, 255, 255, 255, 0, 0, 0, 0]]
      ∧ (ocam_update connected_example zero_fps_settings).1.current_fps = 0
      ∧ sync_settings_to_phone (ocam_update connected_example zero_fps_settings).1
          = [[1, 0, 0, 5, 0, 0, 0, 2, 208], [3, 0, 30, 132, 128, 0, 0, 0, 0],
             [9, 0, 0, 0, 0, 0, 0, 0, 0], [6, 0, 0, 0, 100, 0, 0, 0, 0],
             [7, 0, 0, 39, 16, 0, 0, 0, 0], [8, 255, 255, 255, 255, 0, 0, 0, 0]]
      ∧ 2 ∉ command_ids
          (sync_settings_to_phone (ocam_update connected_example zero_fps_settings).1) := by
  decide

/-- C11 as amended: when a control client is connected, `ocam_update` sends, in
the order resolution, fps, bitrate, flash, iso, exposure, focus, for every
setting that differs from its cached value the command of the protocol table:
0x01 (w, h), 0x02 (fps, 0), 0x03 (bps, 0), 0x09 (1 or 0, 0), 0x06 (iso, 0),
0x07 (exposure_us, 0), 0x08 (focus, 0), and nothing else; for every
`bitrate_mbps` from 1 to 2147 the argument `bps` is `bitrate_mbps * 1000000`
exactly and the buffer decodes to it; focus -1 is sent as the bytes
`FF FF FF FF`; `sync_settings_to_phone` on the cache the update leaves sends the
table entry of every cached value that passes its guard (`w > 0` and `h > 0`,
`fps > 0`, `bitrate > 0`, flash always, `iso >= 0`, `exposure >= 0`,
`focus >= -1`) and no command for a value that fails it, and the command id
and arguments of every entry are those `ocam_update` uses for that value. -/
theorem update_commands (s : ocam_source) (v : obs_settings)
    (hconn : s.control_client_fd ≠ -1) :
    (ocam_update s v).2
        = ((spec_update_table s v).filter (fun e => e.1)).map
            (fun e => control_buffer e.2.1 e.2.2.1 e.2.2.2)
      ∧ (1 ≤ v.bitrate → v.bitrate ≤ 2147 →
          to_u32 (to_int (to_int v.bitrate * 1000000)) = (v.bitrate * 1000000).toNat
            ∧ spec_decode_control_command
                (control_buffer 0x03 (to_u32 (to_int (to_int v.bitrate * 1000000))) 0)
              = some (0x03, (v.bitrate * 1000000).toNat, 0))
      ∧ (v.focus = -1 →
          control_buffer 0x08 (to_u32 (to_int v.focus)) 0 = [8, 255, 255, 255, 255, 0, 0, 0, 0])
      ∧ sync_settings_to_phone (ocam_update s v).1
          = ((spec_replay_table (ocam_update s v).1).filter (fun e => e.1)).map
              (fun e => control_buffer e.2.1 e.2.2.1 e.2.2.2)
      ∧ (∀ w h, sscanf_dxd v.resolution = some (w, h) →
          (spec_replay_table (ocam_update s v).1).map (fun e => e.2)
            = (spec_update_table s v).map (fun e => e.2)) := by
  refine ⟨ocam_update_connected s v hconn, ?_, ?_, ?_, ?_⟩
  · intro h1 h2
    have hb := bitrate_argument v.bitrate h1 h2
    refine ⟨hb, ?_⟩
    exact decode_control_buffer 0x03 _ 0 (by decide) (to_u32_lt _) (by decide)
        |>.trans (by rw [hb])
  · intro hf
    rw [hf]
    decide
  · exact sync_settings_sent _ (by rw [ocam_update_keeps_fd]; exact hconn)
  · intro w h hres
    have hst := ocam_update_state s v
    simp only [hres] at hst
    rw [hst]
    simp only [spec_update_table, spec_resolution_entry, hres]
    rfl

/-- C11 as amended, at a connected client with a freshly created cache and the
settings 1280x720, 30 fps, 2 Mbps, flash on, iso 100, exposure 10000 us,
focus -1: the seven commands on the wire. -/
theorem update_commands_witness :
    connected_example.control_client_fd ≠ -1
      ∧ (ocam_update connected_example
          { resolution := "1280x720", fps := 30, bitrate := 2, flash := true, iso := 100,
            exposure := 10000, focus := -1 }).2
        = [[1, 0, 0, 5, 0, 0, 0, 2, 208], [2, 0, 0, 0, 30, 0, 0, 0, 0],
           [3, 0, 30, 132, 128, 0, 0, 0, 0], [9, 0, 0, 0, 1, 0, 0, 0, 0],
           [6, 0, 0, 0, 100, 0, 0, 0, 0], [7, 0, 0, 39, 16, 0, 0, 0, 0],
           [8, 255, 255, 255, 255, 0, 0, 0, 0]] :=
  ⟨by decide,
    (update_commands connected_example
      { resolution := "1280x720", fps := 30, bitrate := 2, flash := true, iso := 100,
        exposure := 10000, focus := -1 } (by decide)).1.trans (by decide)⟩

/-! ## C13: the result of `read_bytes_fully` when fewer bytes were collected -/

/-- C13, evaluated on the code (little-endian host).  Five bytes are requested
into a header array that still holds `7 0 0 0 0`.  When the peer closes or a
`recv` fails after two bytes, the result is 0 or -1.  When the running flag is
cleared after the `recv` that collected the two bytes `16 0`, the loop
condition ends the loop and `read_bytes_fully` returns `total_read = 2`: a
positive result with only 2 of the 5 bytes collected.  The client loop of the
control server tests the result with `<= 0`, so it goes on with the partly
filled header `16 0 0 0 0`, reads it as a capability packet of length 0 and
runs the capability parse. -/
theorem read_bytes_fully_cancelled_mid_read :
    (read_bytes_fully
        { alive := 100, events := [SockEvent.data 16 [0], SockEvent.eof], calls := [] }
        [7, 0, 0, 0, 0] 5).ret = 0
      ∧ (read_bytes_fully
          { alive := 100, events := [SockEvent.data 16 [0], SockEvent.rerr], calls := [] }
          [7, 0, 0, 0, 0] 5).ret = -1
      ∧ (read_bytes_fully { alive := 2, events := [SockEvent.data 16 [0]], calls := [] }
          [7, 0, 0, 0, 0] 5)
          = { ret := 2, buf := [16, 0, 0, 0, 0],
              world := { alive := 0, events := [], calls := [(5, 2)] } }
      ∧ ¬ (read_bytes_fully { alive := 2, events := [SockEvent.data 16 [0]], calls := [] }
          [7, 0, 0, 0, 0] 5).ret ≤ 0
      ∧ (control_loop true (fun _ => 0) 4 partial_header_example).2.world.calls = [(5, 2)]
      ∧ (control_loop true (fun _ => 0) 4 partial_header_example).2.header = [16, 0, 0, 0, 0]
      ∧ (control_loop true (fun _ => 0) 4 partial_header_example).2.parses
          = [(0, [0, 1, 2, 3, 4, 5, 6, 7, 8, 9, 10, 11, 12, 13, 14, 15, 16, 17, 18, 19, 20, 21])]
      ∧ (control_loop true (fun _ => 0) 4 partial_header_example).2.state.caps_received
          = true := by
  decide

/-! ## C14: configuration packets accumulate the extradata -/

theorem video_frames_extradata (pts_ns : Int) (frames : List video_frame) :
    ∀ s : ocam_source,
      (video_frames pts_ns s frames).1.extradata = s.extradata
        ∧ (video_frames pts_ns s frames).1.extradata_size = s.extradata_size := by
  induction frames with
  | nil => intro s; exact ⟨rfl, rfl⟩
  | cons f rest ih =>
    intro s
    unfold video_frames
    by_cases hdim : f.width % 4294967296 ≠ s.width ∨ f.height % 4294967296 ≠ s.height
    · have h := ih { s with width := f.width % 4294967296, height := f.height % 4294967296 }
      rw [if_pos hdim]
      cases hf : f.format_ok
      · exact h
      · exact h
    · have h := ih s
      rw [if_neg hdim]
      cases hf : f.format_ok
      · exact h
      · exact h

theorem video_config_zero (s : ocam_source) (p : video_packet) (h0 : p.pts = 0)
    (hmem : p.realloc_ok = true) :
    (video_config s p).extradata = s.extradata ++ p.payload
      ∧ (video_config s p).extradata_size
          = to_int (s.extradata_size + (p.payload.length : Int))
      ∧ (video_config s p).first_frame_received = false := by
  unfold video_config
  rw [if_pos h0]
  dsimp only []
  rw [if_pos hmem]
  exact ⟨rfl, rfl, rfl⟩

theorem video_init_extradata (s : ocam_source) (p : video_packet) :
    (video_init s p).1.extradata = s.extradata
      ∧ (video_init s p).1.extradata_size = s.extradata_size := by
  unfold video_init init_ffmpeg
  cases hi : s.codec_initialized <;> cases hk : p.init_ok
  · exact ⟨rfl, rfl⟩
  · exact ⟨rfl, rfl⟩
  · exact ⟨rfl, rfl⟩
  · exact ⟨rfl, rfl⟩

/-- A packet with timestamp 0 appends its payload to the extradata and clears
`first_frame_received`, whether or not the loop goes on. -/
theorem video_step_zero_extradata (s : ocam_source) (p : video_packet) (h0 : p.pts = 0)
    (hmem : p.realloc_ok = true) :
    (video_packet_step s p).state.extradata = s.extradata ++ p.payload
      ∧ (video_packet_step s p).state.extradata_size
          = to_int (s.extradata_size + (p.payload.length : Int))
      ∧ (video_packet_step s p).state.first_frame_received = false := by
  have hc := video_config_zero s p h0 hmem
  have hi := video_init_fields (video_config s p) p
  have hx := video_init_extradata (video_config s p) p
  have ha := video_anchor_fields (video_init (video_config s p) p).1 p
  have hall : (video_anchor (video_init (video_config s p) p).1 p).extradata
        = s.extradata ++ p.payload
      ∧ (video_anchor (video_init (video_config s p) p).1 p).extradata_size
        = to_int (s.extradata_size + (p.payload.length : Int))
      ∧ (video_anchor (video_init (video_config s p) p).1 p).first_frame_received = false := by
    rw [ha.2.1 h0, hx.1, hx.2, hi.2.1]
    exact hc
  unfold video_packet_step
  dsimp only []
  by_cases hb : (video_init (video_config s p) p).2 = false
  · rw [if_pos hb]
    show (video_init (video_config s p) p).1.extradata = s.extradata ++ p.payload
      ∧ (video_init (video_config s p) p).1.extradata_size
          = to_int (s.extradata_size + (p.payload.length : Int))
      ∧ (video_init (video_config s p) p).1.first_frame_received = false
    rw [hx.1, hx.2, hi.2.1]
    exact hc
  · rw [if_neg hb]
    cases hs : p.send_ok
    · rw [if_neg (by decide)]
      exact hall
    · rw [if_pos rfl]
      have hf := video_frames_spec (video_pts_ns p) p.frames
        (video_anchor (video_init (video_config s p) p).1 p)
      have hg := video_frames_extradata (video_pts_ns p) p.frames
        (video_anchor (video_init (video_config s p) p).1 p)
      exact ⟨hg.1.trans hall.1, hg.2.trans hall.2.1, hf.2.1.trans hall.2.2⟩

theorem to_int_to_int_add (x y : Int) : to_int (to_int x + y) = to_int (x + y) := by
  unfold to_int
  omega

/-- A run of configuration packets, none failing: the extradata grows by the
payloads in arrival order, and the loop then goes on with the packets that
follow. -/
theorem video_packets_zeros (zeros : List video_packet) :
    ∀ s : ocam_source,
      (∀ p ∈ zeros, p.pts = 0 ∧ p.realloc_ok = true ∧ p.init_ok = true) →
      (video_packets s zeros).1.extradata
          = s.extradata ++ (zeros.map (fun p => p.payload)).flatten
        ∧ (zeros ≠ [] →
            (video_packets s zeros).1.extradata_size
                = to_int (s.extradata_size
                    + (((zeros.map (fun p => p.payload)).flatten.length : Nat) : Int))
              ∧ (video_packets s zeros).1.first_frame_received = false)
        ∧ ∀ rest : List video_packet,
            (video_packets s (zeros ++ rest)).1
              = (video_packets (video_packets s zeros).1 rest).1 := by
  induction zeros with
  | nil =>
    intro s _
    refine ⟨?_, fun h => absurd rfl h, fun rest => rfl⟩
    show s.extradata = s.extradata ++ []
    rw [List.append_nil]
  | cons z zs ih =>
    intro s hz
    have hz0 := hz z (List.mem_cons_self _ _)
    have hflag := video_step_zero_flag s z hz0.1 (Or.inr hz0.2.2)
    have hx := video_step_zero_extradata s z hz0.1 hz0.2.1
    have hrec := ih (video_packet_step s z).state
      (fun q hq => hz q (List.mem_cons_of_mem _ hq))
    have e1 : video_packets s (z :: zs)
        = ((video_packets (video_packet_step s z).state zs).1,
            (video_packet_step s z).emitted
              :: (video_packets (video_packet_step s z).state zs).2) := by
      conv_lhs => unfold video_packets
      dsimp only []
      rw [if_pos hflag.1]
    have e2 : ∀ rest : List video_packet, video_packets s ((z :: zs) ++ rest)
        = ((video_packets (video_packet_step s z).state (zs ++ rest)).1,
            (video_packet_step s z).emitted
              :: (video_packets (video_packet_step s z).state (zs ++ rest)).2) := by
      intro rest
      rw [List.cons_append]
      conv_lhs => unfold video_packets
      dsimp only []
      rw [if_pos hflag.1]
    rw [e1]
    refine ⟨?_, fun _ => ?_, fun rest => ?_⟩
    · show (video_packets (video_packet_step s z).state zs).1.extradata = _
      rw [hrec.1, hx.1, List.map_cons, List.flatten_cons, List.append_assoc]
    · show (video_packets (video_packet_step s z).state zs).1.extradata_size = _
        ∧ (video_packets (video_packet_step s z).state zs).1.first_frame_received = false
      cases zs with
      | nil =>
        refine ⟨?_, hx.2.2⟩
        show (video_packet_step s z).state.extradata_size = _
        rw [hx.2.1]
        simp
      | cons y ys =>
        have hr := hrec.2.1 (List.cons_ne_nil y ys)
        refine ⟨?_, hr.2⟩
        rw [hr.1, hx.2.1, to_int_to_int_add]
        simp only [List.map_cons, List.flatten_cons, List.length_append, Nat.cast_add]
        congr 1
        omega
    · rw [e2 rest]
      exact hrec.2.2 rest

/-- C14: for every video session state `s0` and every packet with timestamp 0
and payload `p` (the `realloc` of the extradata succeeding), processing the
packet appends `p` to the extradata, makes the size the 32-bit sum of the old
size and `|p|` (the exact sum whenever it fits an `int`), and leaves
`first_frame_received = false`, whether or not the decoder initialises; after
any non-empty sequence of such packets (no decoder initialisation failing) the
extradata is the old extradata followed by their payloads in arrival order,
and the next packet with a nonzero timestamp `t` sets
`timestamp_offset = clock_now - t*1000` again, whatever the flag and the
offset were before the sequence. -/
theorem video_config_packets (s : ocam_source) (zeros : List video_packet)
    (first : video_packet)
    (hz : ∀ p ∈ zeros, p.pts = 0 ∧ p.realloc_ok = true ∧ p.init_ok = true)
    (hne : zeros ≠ [])
    (hf : 0 < first.pts) (hfi : first.init_ok = true)
    (hnow : first.now < 18446744073709551616) :
    (∀ (s0 : ocam_source) (p : video_packet), p.pts = 0 → p.realloc_ok = true →
        (video_packet_step s0 p).state.extradata = s0.extradata ++ p.payload
          ∧ (video_packet_step s0 p).state.extradata_size
              = to_int (s0.extradata_size + (p.payload.length : Int))
          ∧ (-2147483648 ≤ s0.extradata_size + (p.payload.length : Int) →
              s0.extradata_size + (p.payload.length : Int) < 2147483648 →
              (video_packet_step s0 p).state.extradata_size
                = s0.extradata_size + (p.payload.length : Int))
          ∧ (video_packet_step s0 p).state.first_frame_received = false)
      ∧ (video_packets s zeros).1.extradata
          = s.extradata ++ (zeros.map (fun p => p.payload)).flatten
      ∧ (video_packets s zeros).1.first_frame_received = false
      ∧ (video_packets s (zeros ++ [first])).1.timestamp_offset
          = to_i64 ((first.now : Int) - (first.pts : Int) * 1000)
      ∧ (video_packets s (zeros ++ [first])).1.first_frame_received = true := by
  have hrun := video_packets_zeros zeros s hz
  have hflag := (hrun.2.1 hne).2
  have hstep := video_step_anchor (video_packets s zeros).1 first hf hnow hflag (Or.inr hfi)
  have e : (video_packets (video_packets s zeros).1 [first]).1
      = (video_packet_step (video_packets s zeros).1 first).state := by
    conv_lhs => unfold video_packets
    dsimp only []
    rw [if_pos hstep.1]
    rfl
  refine ⟨?_, hrun.1, hflag, ?_, ?_⟩
  · intro s0 p h0 hmem
    have hx := video_step_zero_extradata s0 p h0 hmem
    refine ⟨hx.1, hx.2.1, ?_, hx.2.2⟩
    intro h1 h2
    rw [hx.2.1]
    unfold to_int
    omega
  · rw [hrun.2.2 [first], e]
    exact hstep.2.1
  · rw [hrun.2.2 [first], e]
    exact hstep.2.2.1

/-- C14 at a session that was anchored with offset 7 and extradata `1 2`: the
configuration packets with payloads `3 4 5` and `6` leave the extradata
`1 2 3 4 5 6` and the flag false, and the packet with timestamp 1000 received
at clock 5000000 sets the offset to 4000000. -/
theorem video_config_packets_witness :
    (video_packets anchored_example config_packets_example).1.extradata = [1, 2, 3, 4, 5, 6]
      ∧ (video_packets anchored_example config_packets_example).1.extradata_size = 6
      ∧ (video_packets anchored_example config_packets_example).1.first_frame_received = false
      ∧ (video_packets anchored_example
          (config_packets_example ++ [restart_frame_example])).1.timestamp_offset = 4000000
      ∧ (video_packets anchored_example
          (config_packets_example ++ [restart_frame_example])).1.first_frame_received = true :=
  ⟨(video_config_packets anchored_example config_packets_example restart_frame_example
      (by decide) (by decide) (by decide) rfl (by decide)).2.1.trans (by decide),
    by decide,
    (video_config_packets anchored_example config_packets_example restart_frame_example
      (by decide) (by decide) (by decide) rfl (by decide)).2.2.1,
    (video_config_packets anchored_example config_packets_example restart_frame_example
      (by decide) (by decide) (by decide) rfl (by decide)).2.2.2.1.trans (by decide),
    (video_config_packets anchored_example config_packets_example restart_frame_example
      (by decide) (by decide) (by decide) rfl (by decide)).2.2.2.2⟩

/-! ## C15: the audio clock -/

theorem audio_init_fields (s : ocam_source) (p : audio_packet) :
    (audio_init s p).1.audio_timestamp_offset = s.audio_timestamp_offset
      ∧ (audio_init s p).1.first_audio_received = s.first_audio_received
      ∧ (audio_init s p).1.timestamp_offset = s.timestamp_offset
      ∧ (audio_init s p).1.first_frame_received = s.first_frame_received
      ∧ (s.audio_codec_initialized = true ∨ p.init_ok = true → (audio_init s p).2 = true) := by
  unfold audio_init init_audio_ffmpeg audio_config
  by_cases hz : s.audio_extradata_size = 0
  · rw [if_pos hz]
    cases hi : s.audio_codec_initialized <;> cases hk : p.init_ok
    · exact ⟨rfl, rfl, rfl, rfl, fun h => by simp at h⟩
    · exact ⟨rfl, rfl, rfl, rfl, fun _ => rfl⟩
    · exact ⟨rfl, rfl, rfl, rfl, fun _ => rfl⟩
    · exact ⟨rfl, rfl, rfl, rfl, fun _ => rfl⟩
  · rw [if_neg hz]
    cases hi : s.audio_codec_initialized <;> cases hk : p.init_ok
    · exact ⟨rfl, rfl, rfl, rfl, fun h => by simp at h⟩
    · exact ⟨rfl, rfl, rfl, rfl, fun _ => rfl⟩
    · exact ⟨rfl, rfl, rfl, rfl, fun _ => rfl⟩
    · exact ⟨rfl, rfl, rfl, rfl, fun _ => rfl⟩

theorem audio_anchor_fields (s : ocam_source) (p : audio_packet) :
    (audio_anchor s p).timestamp_offset = s.timestamp_offset
      ∧ (audio_anchor s p).first_frame_received = s.first_frame_received
      ∧ (s.first_audio_received = true → audio_anchor s p = s)
      ∧ (s.first_audio_received = false →
          (audio_anchor s p).audio_timestamp_offset
              = to_i64 (to_i64 (p.now : Int) - audio_pts_ns p)
            ∧ (audio_anchor s p).first_audio_received = true) := by
  unfold audio_anchor
  by_cases hc : s.first_audio_received = false
  · rw [if_pos hc]
    refine ⟨rfl, rfl, fun h => ?_, fun _ => ⟨rfl, rfl⟩⟩
    rw [hc] at h
    exact absurd h (by decide)
  · rw [if_neg hc]
    exact ⟨rfl, rfl, fun _ => rfl, fun h => absurd h hc⟩

/-- The state and the frames of one audio packet in terms of the state after
the anchoring block, when the body is not left by `continue`. -/
theorem audio_step_available (s : ocam_source) (p : audio_packet)
    (hinit : (audio_init s p).2 = true) :
    (audio_packet_step s p).state = audio_anchor (audio_init s p).1 p
      ∧ (audio_packet_step s p).skipped = false
      ∧ ∀ t ∈ (audio_packet_step s p).emitted,
          t = to_u64 (to_i64 (audio_pts_ns p
            + (audio_anchor (audio_init s p).1 p).audio_timestamp_offset)) := by
  have hne : ¬ ((audio_init s p).2 = false) := by
    rw [hinit]
    decide
  unfold audio_packet_step
  dsimp only []
  rw [if_neg hne]
  cases hs : p.send_ok
  · rw [if_neg (by decide)]
    exact ⟨rfl, rfl, fun t ht => absurd ht (List.not_mem_nil t)⟩
  · rw [if_pos rfl]
    exact ⟨rfl, rfl, fun t ht => List.eq_of_mem_replicate ht⟩

/-- The state after an audio packet whose decoder initialisation fails. -/
theorem audio_step_skipped (s : ocam_source) (p : audio_packet)
    (hinit : (audio_init s p).2 = false) :
    (audio_packet_step s p).state = (audio_init s p).1
      ∧ (audio_packet_step s p).skipped = true
      ∧ (audio_packet_step s p).emitted = [] := by
  unfold audio_packet_step
  dsimp only []
  rw [if_pos hinit]
  exact ⟨rfl, rfl, rfl⟩

/-- The first audio packet of a session anchors the clock, whatever its
timestamp. -/
theorem audio_step_first (s : ocam_source) (p : audio_packet)
    (hfirst : s.first_audio_received = false)
    (hinit : s.audio_codec_initialized = true ∨ p.init_ok = true) :
    (audio_packet_step s p).state.audio_timestamp_offset
        = to_i64 ((p.now : Int) - (p.pts : Int) * 1000)
      ∧ (audio_packet_step s p).state.first_audio_received = true
      ∧ (audio_packet_step s p).skipped = false
      ∧ (p.now < 18446744073709551616 → ∀ t ∈ (audio_packet_step s p).emitted, t = p.now) := by
  have hi := audio_init_fields s p
  have h := audio_step_available s p (hi.2.2.2.2 hinit)
  have ha := audio_anchor_fields (audio_init s p).1 p
  have hanch := ha.2.2.2 (by rw [hi.2.1]; exact hfirst)
  have hoff : (audio_anchor (audio_init s p).1 p).audio_timestamp_offset
      = to_i64 ((p.now : Int) - (p.pts : Int) * 1000) := by
    rw [hanch.1, audio_pts_ns, wrap_anchor]
  rw [h.1]
  refine ⟨hoff, hanch.2, h.2.1, ?_⟩
  intro hnow t ht
  rw [h.2.2 t ht, hoff, audio_pts_ns, wrap_first_frame p.now p.pts hnow]

/-- Once the clock is anchored, no audio packet changes the offset or the
flag, on either path through the body. -/
theorem audio_step_later (s : ocam_source) (p : audio_packet)
    (hfirst : s.first_audio_received = true) :
    (audio_packet_step s p).state.audio_timestamp_offset = s.audio_timestamp_offset
      ∧ (audio_packet_step s p).state.first_audio_received = true := by
  have hi := audio_init_fields s p
  have ha := audio_anchor_fields (audio_init s p).1 p
  cases hb : (audio_init s p).2
  · rw [(audio_step_skipped s p hb).1, hi.1, hi.2.1]
    exact ⟨rfl, hfirst⟩
  · rw [(audio_step_available s p hb).1, ha.2.2.1 (by rw [hi.2.1]; exact hfirst), hi.1, hi.2.1]
    exact ⟨rfl, hfirst⟩

/-- No audio packet writes the video offset or the video flag. -/
theorem audio_step_video_fields (s : ocam_source) (p : audio_packet) :
    (audio_packet_step s p).state.timestamp_offset = s.timestamp_offset
      ∧ (audio_packet_step s p).state.first_frame_received = s.first_frame_received := by
  have hi := audio_init_fields s p
  have ha := audio_anchor_fields (audio_init s p).1 p
  cases hb : (audio_init s p).2
  · rw [(audio_step_skipped s p hb).1]
    exact ⟨hi.2.2.1, hi.2.2.2.1⟩
  · rw [(audio_step_available s p hb).1, ha.1, ha.2.1]
    exact ⟨hi.2.2.1, hi.2.2.2.1⟩

theorem audio_packets_later (later : List audio_packet) :
    ∀ s : ocam_source, s.first_audio_received = true →
      (audio_packets s later).1.audio_timestamp_offset = s.audio_timestamp_offset
        ∧ (audio_packets s later).1.first_audio_received = true := by
  induction later with
  | nil => intro s hs; exact ⟨rfl, hs⟩
  | cons p rest ih =>
    intro s hs
    have hstep := audio_step_later s p hs
    have hrec := ih (audio_packet_step s p).state hstep.2
    show (audio_packets (audio_packet_step s p).state rest).1.audio_timestamp_offset
        = s.audio_timestamp_offset
      ∧ (audio_packets (audio_packet_step s p).state rest).1.first_audio_received = true
    exact ⟨hrec.1.trans hstep.1, hrec.2⟩

theorem audio_init_ignores_video (s : ocam_source) (p : audio_packet) (x : Int) (b : Bool) :
    audio_init { s with timestamp_offset := x, first_frame_received := b } p
      = ({ (audio_init s p).1 with timestamp_offset := x, first_frame_received := b },
          (audio_init s p).2) := by
  unfold audio_init
  by_cases hi : s.audio_codec_initialized = true
  · rw [if_pos hi, if_pos hi]
  · rw [if_neg hi, if_neg hi]
    unfold init_audio_ffmpeg audio_config
    by_cases hz : s.audio_extradata_size = 0
    · rw [if_pos hz, if_pos hz]
      cases hk : p.init_ok
      · rfl
      · rfl
    · rw [if_neg hz, if_neg hz]
      cases hk : p.init_ok
      · rfl
      · rfl

theorem audio_anchor_ignores_video (s : ocam_source) (p : audio_packet) (x : Int) (b : Bool) :
    audio_anchor { s with timestamp_offset := x, first_frame_received := b } p
      = { audio_anchor s p with timestamp_offset := x, first_frame_received := b } := by
  unfold audio_anchor
  by_cases hc : s.first_audio_received = false
  · rw [if_pos hc, if_pos hc]
  · rw [if_neg hc, if_neg hc]

/-- No audio packet reads the video offset or the video flag: with other
values in them the body emits the same timestamps, takes the same path and
leaves the same state apart from these two fields. -/
theorem audio_step_ignores_video (s : ocam_source) (p : audio_packet) (x : Int) (b : Bool) :
    (audio_packet_step { s with timestamp_offset := x, first_frame_received := b } p).emitted
        = (audio_packet_step s p).emitted
      ∧ (audio_packet_step { s with timestamp_offset := x, first_frame_received := b } p).skipped
        = (audio_packet_step s p).skipped
      ∧ (audio_packet_step { s with timestamp_offset := x, first_frame_received := b } p).state
        = { (audio_packet_step s p).state with
            timestamp_offset := x, first_frame_received := b } := by
  unfold audio_packet_step
  dsimp only []
  rw [audio_init_ignores_video]
  dsimp only []
  by_cases hb : (audio_init s p).2 = false
  · rw [if_pos hb, if_pos hb]
    exact ⟨rfl, rfl, rfl⟩
  · rw [if_neg hb, if_neg hb, audio_anchor_ignores_video]
    cases hs : p.send_ok
    · rw [if_neg (by decide), if_neg (by decide)]
      exact ⟨rfl, rfl, rfl⟩
    · rw [if_pos rfl, if_pos rfl]
      exact ⟨rfl, rfl, rfl⟩

/-- C15: every audio session starts with `first_audio_received = false`, and
the first packet of the session anchors the audio clock unconditionally (its
decoder initialisation succeeding): whatever its timestamp `t`, 0 included, it
sets `audio_timestamp_offset = clock_now - t*1000` (the 64-bit difference of
the code, exact over the integers whenever `t*1000` and the clock fit an
`int64_t`) and `first_audio_received = true`, and its frames carry the clock at
receipt; no later packet of the session changes `audio_timestamp_offset`; and
no audio packet writes or reads the video `timestamp_offset` or
`first_frame_received`. -/
theorem audio_clock_anchor (s : ocam_source) (first : audio_packet)
    (later : List audio_packet)
    (hs : s.first_audio_received = false)
    (hinit : s.audio_codec_initialized = true ∨ first.init_ok = true) :
    (∀ (w : World) (s0 : ocam_source) (client : Int) (magic : List Nat) r,
        audio_accept w s0 client magic = some r → r.2.first_audio_received = false)
      ∧ (audio_packet_step s first).state.audio_timestamp_offset
          = to_i64 ((first.now : Int) - (first.pts : Int) * 1000)
      ∧ ((first.pts : Int) * 1000 < 9223372036854775808 →
          (first.now : Int) < 9223372036854775808 →
          (audio_packet_step s first).state.audio_timestamp_offset
            = (first.now : Int) - (first.pts : Int) * 1000)
      ∧ (audio_packet_step s first).state.first_audio_received = true
      ∧ (first.now < 18446744073709551616 →
          ∀ t ∈ (audio_packet_step s first).emitted, t = first.now)
      ∧ (audio_packets s (first :: later)).1.audio_timestamp_offset
          = to_i64 ((first.now : Int) - (first.pts : Int) * 1000)
      ∧ (∀ (s0 : ocam_source) (p : audio_packet), s0.first_audio_received = true →
          (audio_packet_step s0 p).state.audio_timestamp_offset = s0.audio_timestamp_offset
            ∧ (audio_packet_step s0 p).state.first_audio_received = true)
      ∧ (∀ (s0 : ocam_source) (p : audio_packet),
          (audio_packet_step s0 p).state.timestamp_offset = s0.timestamp_offset
            ∧ (audio_packet_step s0 p).state.first_frame_received = s0.first_frame_received)
      ∧ (∀ (s0 : ocam_source) (p : audio_packet) (x : Int) (b : Bool),
          (audio_packet_step { s0 with timestamp_offset := x, first_frame_received := b }
              p).emitted = (audio_packet_step s0 p).emitted
            ∧ (audio_packet_step { s0 with timestamp_offset := x, first_frame_received := b }
                p).skipped = (audio_packet_step s0 p).skipped
            ∧ (audio_packet_step { s0 with timestamp_offset := x, first_frame_received := b }
                p).state
              = { (audio_packet_step s0 p).state with
                  timestamp_offset := x, first_frame_received := b }) := by
  have h1 := audio_step_first s first hs hinit
  have hrest := audio_packets_later later (audio_packet_step s first).state h1.2.1
  refine ⟨?_, h1.1, ?_, h1.2.1, h1.2.2.2, ?_, audio_step_later, audio_step_video_fields,
    audio_step_ignores_video⟩
  · intro w s0 client magic r hr
    unfold audio_accept at hr
    dsimp only [] at hr
    split_ifs at hr
    cases hr
    rfl
  · intro a b
    rw [h1.1]
    unfold to_i64
    omega
  · show (audio_packets (audio_packet_step s first).state later).1.audio_timestamp_offset = _
    rw [hrest.1]
    exact h1.1

/-- C15 at a session whose first audio packet has timestamp 0 and arrives at
clock 5000000: the offset is 5000000, the packet with timestamp 1000 keeps
it, and the frames carry 5000000 and 1000*1000 + 5000000. -/
theorem audio_clock_anchor_witness :
    (audio_packet_step audio_session_example first_audio_example).state.audio_timestamp_offset
        = 5000000
      ∧ (audio_packets audio_session_example
          [first_audio_example, later_audio_example]).1.audio_timestamp_offset = 5000000
      ∧ (audio_packets audio_session_example [first_audio_example, later_audio_example]).2
          = [[5000000], [6000000]]
      ∧ (audio_packets audio_session_example
          [first_audio_example, later_audio_example]).1.timestamp_offset = 123 :=
  ⟨(audio_clock_anchor audio_session_example first_audio_example [later_audio_example]
      rfl (Or.inr rfl)).2.1.trans (by decide),
    (audio_clock_anchor audio_session_example first_audio_example [later_audio_example]
      rfl (Or.inr rfl)).2.2.2.2.2.1.trans (by decide),
    by decide, by decide⟩

/-! ## C12: a failing decoder initialisation -/

/-- C12, evaluated on the code (little-endian host).  Two packets are waiting
on the connection and the decoder initialisation fails while the first is
processed.  The video loop ends there: it has issued the three reads of the
first packet only, the second packet is still unread, and the teardown sets
`video_client_fd = -1`.  The audio loop leaves the body with `continue`: its
second pass reads the second packet of the same connection, initialises the
decoder, anchors the clock and emits a frame, with the client still
connected; the loop ends only when the peer closes. -/
theorem audio_init_failure_continues :
    (video_stream true (fun _ => 0) two_packets_example init_failure_answers).world.calls
        = [(8, 8), (4, 4), (2, 2)]
      ∧ (video_stream true (fun _ => 0) two_packets_example init_failure_answers).world.events
          = [SockEvent.data 0 [0, 0, 0, 0, 0, 7, 208, 0, 0, 0, 1, 51], SockEvent.eof]
      ∧ (video_stream true (fun _ => 0) two_packets_example init_failure_answers).emitted = [[]]
      ∧ (video_stream true (fun _ => 0) two_packets_example
          init_failure_answers).state.video_client_fd = -1
      ∧ (audio_stream_loop true (fun _ => 0) 1 two_packets_example
          init_failure_answers).state.audio_codec_initialized = false
      ∧ (audio_stream_loop true (fun _ => 0) 2 two_packets_example
          init_failure_answers).world.calls = [(8, 8), (4, 4), (2, 2), (8, 8), (4, 4), (1, 1)]
      ∧ (audio_stream_loop true (fun _ => 0) 2 two_packets_example
          init_failure_answers).emitted = [[], [6000000]]
      ∧ (audio_stream_loop true (fun _ => 0) 2 two_packets_example
          init_failure_answers).state.audio_client_fd = 8
      ∧ (audio_stream_loop true (fun _ => 0) 2 two_packets_example
          init_failure_answers).state.audio_timestamp_offset = 4000000
      ∧ (audio_stream true (fun _ => 0) two_packets_example init_failure_answers).world.calls
          = [(8, 8), (4, 4), (2, 2), (8, 8), (4, 4), (1, 1), (8, 0)] := by
  decide

end OCam
